import Mathlib

/-!
# Carousel windowing and transition scheduling

A shallow embedding of `src/carousel.js`: the rendered / visible index window
kept by the `Carousel` class, the rebalance performed by `#handleDirection` and
`#calculateIndices`, and the transition scheduler (`set activeSlideIndex`,
`#animateSlideTransition`, `#transitionToSlide`, `#applyDelayedTransition`,
`#checkSpinning`).

Conventions of the embedding.

* JavaScript numbers that hold indices and counts are `Int`.
* A slide is identified with its position in `#slides`; the container element
  is the list of the positions of its children, in document order.
* The two suspension mechanisms are explicit: a requested animation frame is
  the field `rAF` (holding the variables captured by `#performAnimationStep`),
  and every `await delay(...)` in `#applyDelayedTransition` leaves a record in
  the queue `pendingDelayed` until its timer fires.  All delays of one carousel
  have the same length, so timers fire in the order they were started.
* The fields `shiftLog`, `rebalanceLog` and `transitionLog` are not fields of
  the class: they record, in order, the calls made, so that statements about
  "how many times" can be written down.
-/

namespace Carousel

/-! ## Constants and helpers -/

def MAX_VISIBLE_SLIDES : Int := 5

def MAX_RENDERED_SLIDES : Int := 40

/-- Value of `Math.floor(MAX_RENDERED_SLIDES / 2)`. -/
def MAX_SLIDES_PER_SIDE : Int := MAX_RENDERED_SLIDES / 2

inductive SlideDirection where
  | LEFT
  | RIGHT
  deriving DecidableEq, Repr

/-- Function `clamp(value, min, max) = Math.min(Math.max(value, min), max)`. -/
def clamp (value lo hi : Int) : Int := min (max value lo) hi

def clampMin (value lo : Int) : Int := max value lo

def clampMax (value hi : Int) : Int := min value hi

/-- Normalisation of one bound of `Array.prototype.slice` for an array of
length `len`: a negative bound counts from the end. -/
def sliceBound (len i : Int) : Int :=
  if i < 0 then max (len + i) 0 else min i len

/-- The positions selected by `this.#slides.slice(start, stop)` when `#slides`
has `len` elements. -/
def jsSlice (len start stop : Int) : List Int :=
  let k := sliceBound len start
  let final := sliceBound len stop
  (List.range (final - k).toNat).map (fun (j : Nat) => k + (j : Int))

/-- Method `containerElement.append(slide)`: the slide becomes the last child (it is
moved if it was already a child). -/
def domAppend (container : List Int) (slide : Int) : List Int :=
  container.erase slide ++ [slide]

/-- Method `containerElement.prepend(slide)`. -/
def domPrepend (container : List Int) (slide : Int) : List Int :=
  slide :: container.erase slide

/-- Method `slide.remove()`. -/
def domRemove (container : List Int) (slide : Int) : List Int :=
  container.erase slide

/-- Method `#prependSlides`: `slides.reverse().forEach(slide => container.prepend(slide))`. -/
def prependSlides (container : List Int) (slides : List Int) : List Int :=
  slides.reverse.foldl domPrepend container

/-- Method `#appendSlides`. -/
def appendSlides (container : List Int) (slides : List Int) : List Int :=
  slides.foldl domAppend container

/-- Method `#removeSlides`. -/
def removeSlides (container : List Int) (slides : List Int) : List Int :=
  slides.foldl domRemove container

/-! ## State -/

/-- The objects `#headIndex` and `#tailIndex`. -/
structure IndexPair where
  rendered : Int
  visible : Int
  deriving DecidableEq, Repr

/-- The record returned by `#calculateIndices`. -/
structure Indices where
  slidesToAdd : List Int
  slidesToRemove : List Int
  updatedHeadIndex : Int
  updatedTailIndex : Int
  deriving DecidableEq, Repr

/-- The fields read and written by the window manager
(`#updateVisibleIndices`, `#handleDirection`, `#calculateIndices`). -/
structure Window where
  /-- Getter `this.size`, the length of `#slides`. -/
  size : Int
  visibleSlideCount : Int
  activeSlideIndex : Int
  headIndex : IndexPair
  tailIndex : IndexPair
  /-- Children of `containerElement`, in document order. -/
  container : List Int
  /-- The `delta` of every shift performed by `#checkSpinning`, oldest first. -/
  shiftLog : List Int
  /-- The result of `#calculateIndices` for every rebalance, oldest first. -/
  rebalanceLog : List Indices
  deriving DecidableEq, Repr

/-- Variables captured by the closure `#performAnimationStep`. -/
structure Spin where
  targetSlideIndex : Int
  stepDirection : Int
  transitionDirection : SlideDirection
  currentSlideIndex : Int
  deriving DecidableEq, Repr

/-- A call of `#applyDelayedTransition` suspended at `await delay(...)`. -/
structure Delayed where
  direction : SlideDirection
  previousSlide : Int
  nextSlide : Int
  deriving DecidableEq, Repr

structure State where
  window : Window
  /-- Field `#spinDirection`; `none` is `undefined` (no index was ever set). -/
  spinDirection : Option SlideDirection
  numberOfSpins : Int
  currentNumberOfSpins : Int
  /-- Field `#rAF`: `some c` when a frame is requested, which will run
  `#performAnimationStep` with captured variables `c`. -/
  rAF : Option Spin
  /-- Suspended `#applyDelayedTransition` calls, oldest first. -/
  pendingDelayed : List Delayed
  /-- The value given to `#activeSlideIndex` by every `#transitionToSlide`
  call, oldest first. -/
  transitionLog : List Int
  deriving DecidableEq, Repr

/-! ## Construction -/

/-- The index assignments of `#initializeCarousel` (lines 416-443). -/
def initializeCarousel (size visibleSlideCount activeSlideIndex : Int) : Window :=
  let headRendered := clampMin (activeSlideIndex - MAX_SLIDES_PER_SIDE) 0
  let headVisible := clampMin (activeSlideIndex - visibleSlideCount) 0
  let tailRendered := clampMax (activeSlideIndex + MAX_SLIDES_PER_SIDE)
    (if size < MAX_SLIDES_PER_SIDE then size else size - 1)
  let tailVisible := clampMax (activeSlideIndex + visibleSlideCount) (size - 1)
  let renderedSlides := jsSlice size headRendered (tailRendered + 1)
  { size := size
    visibleSlideCount := visibleSlideCount
    activeSlideIndex := activeSlideIndex
    headIndex := { rendered := headRendered, visible := headVisible }
    tailIndex := { rendered := tailRendered, visible := tailVisible }
    container := appendSlides [] renderedSlides
    shiftLog := []
    rebalanceLog := [] }

/-- The constructor, for `size` slides: it throws (`none`) when there is no
slide, clamps `visibleSlideCount` and `initialActiveIndex`, and runs
`#initializeCarousel`. The container element is taken to be valid; ratio,
perspective and durations do not enter the index computations. -/
def new (size : Nat) (visibleSlideCount initialActiveIndex : Int) : Option State :=
  if size = 0 then none
  else
    some
      { window := initializeCarousel (size : Int)
          (clamp visibleSlideCount 1 MAX_VISIBLE_SLIDES)
          (clamp initialActiveIndex 0 ((size : Int) - 1))
        spinDirection := none
        numberOfSpins := 0
        currentNumberOfSpins := 0
        rAF := none
        pendingDelayed := []
        transitionLog := [] }

/-! ## Window manager -/

/-- Method `#updateVisibleIndices(delta)`. -/
def updateVisibleIndices (w : Window) (delta : Int) : Window :=
  { w with
    headIndex := { w.headIndex with visible := max 0 (w.headIndex.visible + delta) }
    tailIndex := { w.tailIndex with visible := min (w.size - 1) (w.tailIndex.visible + delta) } }

/-- Method `#calculateIndices(direction)`, `direction` being `-1` or `1`. -/
def calculateIndices (w : Window) (direction : Int) : Indices :=
  let slidesToAddCount :=
    MAX_SLIDES_PER_SIDE -
      (if direction = -1 then w.activeSlideIndex - w.headIndex.rendered
       else w.tailIndex.rendered - w.activeSlideIndex)
  let slidesToAddStartIndex :=
    if direction = -1 then max 0 (w.headIndex.rendered - slidesToAddCount)
    else w.tailIndex.rendered + 1
  let slidesToAddEndIndex :=
    if direction = -1 then w.headIndex.rendered
    else min (w.tailIndex.rendered + slidesToAddCount) (w.size - 1)
  let slidesToAdd :=
    jsSlice w.size slidesToAddStartIndex
      (slidesToAddEndIndex + (if direction = -1 then 0 else 1))
  let slidesToRemoveStartIndex :=
    if direction = -1 then w.tailIndex.rendered - slidesToAddCount
    else w.headIndex.rendered
  let slidesToRemoveEndIndex :=
    if direction = -1 then w.tailIndex.rendered + 1
    else w.headIndex.rendered + slidesToAddCount
  let slidesToRemove :=
    jsSlice w.size (slidesToRemoveStartIndex + (if direction = -1 then 1 else 0))
      slidesToRemoveEndIndex
  { slidesToAdd := slidesToAdd
    slidesToRemove := slidesToRemove
    updatedHeadIndex :=
      if direction = -1 then slidesToAddStartIndex else slidesToRemoveEndIndex
    updatedTailIndex :=
      if direction = -1 then slidesToRemoveStartIndex else slidesToAddEndIndex }

def calculateIndicesForLeft (w : Window) : Indices := calculateIndices w (-1)

def calculateIndicesForRight (w : Window) : Indices := calculateIndices w 1

/-- The condition of the `if` in `#handleDirection`. -/
def needsRebalance (w : Window) (direction : SlideDirection) : Bool :=
  let isLeft := direction = SlideDirection.LEFT
  let isRight := direction = SlideDirection.RIGHT
  decide ((isLeft ∧ w.headIndex.visible - w.headIndex.rendered ≤ 3 ∧ w.headIndex.rendered > 0) ∨
    (isRight ∧ w.tailIndex.rendered - w.tailIndex.visible ≤ 3 ∧
      w.tailIndex.rendered < w.size - 1))

/-- Method `#handleDirection(direction)`; the `data-slide-index` attribute written by
`#prependSlides` and `#appendSlides` is not part of this state, so `refIndex` is
left out. -/
def handleDirection (w : Window) (direction : SlideDirection) : Window :=
  if needsRebalance w direction then
    let isLeft := direction = SlideDirection.LEFT
    let r := if isLeft then calculateIndicesForLeft w else calculateIndicesForRight w
    let added :=
      if isLeft then prependSlides w.container r.slidesToAdd
      else appendSlides w.container r.slidesToAdd
    { w with
      headIndex := { w.headIndex with rendered := r.updatedHeadIndex }
      tailIndex := { w.tailIndex with rendered := r.updatedTailIndex }
      container := removeSlides added r.slidesToRemove
      rebalanceLog := w.rebalanceLog ++ [r] }
  else w

/-! ## Transition scheduler -/

/-- Method `#determineSlideDirection(targetSlideIndex)`. -/
def determineSlideDirection (s : State) (targetSlideIndex : Int) : SlideDirection :=
  if targetSlideIndex > s.window.activeSlideIndex then SlideDirection.RIGHT
  else SlideDirection.LEFT

/-- Method `#clampSlideIndex(index)`. -/
def clampSlideIndex (s : State) (index : Int) : Int :=
  clamp index 0 (s.window.size - 1)

/-- Method `#checkSpinning()`. -/
def checkSpinning (s : State) : State :=
  let s := { s with currentNumberOfSpins := s.currentNumberOfSpins + 1 }
  if s.currentNumberOfSpins = 1 ∧ s.numberOfSpins > 1 then s
  else
    let isLeftDirection := s.spinDirection = some SlideDirection.LEFT
    let delta : Int := if isLeftDirection then -1 else 1
    let w := updateVisibleIndices s.window delta
    let w :=
      match s.spinDirection with
      | some d => handleDirection w d
      | none => w
    let s := { s with window := { w with shiftLog := w.shiftLog ++ [delta] } }
    if s.currentNumberOfSpins > s.numberOfSpins ∨ s.numberOfSpins = 1 then
      { s with currentNumberOfSpins := 0 }
    else s

/-- The part of `#applyDelayedTransition` before `await delay(...)`, reached
through `#transitionToSlide`: the immediate flank is restyled (styles are not
part of this state) and the rest of the call is suspended. -/
def applyDelayedTransition (s : State) (direction : SlideDirection)
    (previousSlide nextSlide : Int) : State :=
  { s with
    pendingDelayed := s.pendingDelayed ++
      [{ direction := direction, previousSlide := previousSlide, nextSlide := nextSlide }] }

/-- The part of `#applyDelayedTransition` after `await delay(...)`; the restyling
of the delayed flank and `#updateSlideStyles` act on styles only, which are not
part of this state. -/
def resumeDelayedTransition (s : State) (_d : Delayed) : State :=
  if s.window.size > MAX_RENDERED_SLIDES then checkSpinning s else s

/-- Method `#transitionToSlide(currentSlideIndex, targetSlideIndex, isLargeJump)`. -/
def transitionToSlide (s : State) (currentSlideIndex targetSlideIndex : Int)
    (isLargeJump : Bool) : State :=
  let previousSlide := s.window.activeSlideIndex
  let nextSlide := if isLargeJump then currentSlideIndex else targetSlideIndex
  let transitionDirection := determineSlideDirection s targetSlideIndex
  let s :=
    { s with
      window := { s.window with activeSlideIndex := nextSlide }
      transitionLog := s.transitionLog ++ [nextSlide] }
  applyDelayedTransition s transitionDirection previousSlide nextSlide

/-- One run of the closure `#performAnimationStep` with captured variables
`c`; `elapsed` is the truth value of `elapsedTime > this.#slideFadeDuration`. -/
def performAnimationStep (s : State) (c : Spin) (elapsed : Bool) : State :=
  let sc : State × Spin :=
    if elapsed then
      (transitionToSlide s c.currentSlideIndex c.targetSlideIndex true,
        { c with currentSlideIndex := c.currentSlideIndex + c.stepDirection })
    else (s, c)
  let s := sc.1
  let c := sc.2
  let isLeftDirection := c.transitionDirection = SlideDirection.LEFT
  let canAnimate : Bool :=
    decide ((isLeftDirection ∧ c.currentSlideIndex ≥ c.targetSlideIndex) ∨
      (¬ isLeftDirection ∧ c.currentSlideIndex ≤ c.targetSlideIndex))
  if canAnimate then { s with rAF := some c } else { s with rAF := none }

/-- Method `#animateSlideTransition(targetSlideIndex)`. -/
def animateSlideTransition (s : State) (targetSlideIndex : Int) : State :=
  let stepDirection : Int := if targetSlideIndex > s.window.activeSlideIndex then 1 else -1
  let transitionDirection := determineSlideDirection s targetSlideIndex
  let currentSlideIndex := s.window.activeSlideIndex
  let s := transitionToSlide s currentSlideIndex (currentSlideIndex + stepDirection) false
  let currentSlideIndex := currentSlideIndex + stepDirection
  { s with
    rAF := some
      { targetSlideIndex := targetSlideIndex
        stepDirection := stepDirection
        transitionDirection := transitionDirection
        currentSlideIndex := currentSlideIndex } }

/-- The setter `set activeSlideIndex(targetSlideIndex)`; `Math.abs` of an integer
is `Int.natAbs`. -/
def setActiveSlideIndex (s : State) (targetSlideIndex : Int) : State :=
  let targetSlideIndex := clampSlideIndex s targetSlideIndex
  if s.window.activeSlideIndex = targetSlideIndex then s
  else
    let s := { s with rAF := none }
    let s :=
      { s with
        numberOfSpins := ((s.window.activeSlideIndex - targetSlideIndex).natAbs : Int)
        currentNumberOfSpins := 0
        spinDirection :=
          some (if targetSlideIndex < s.window.activeSlideIndex then SlideDirection.LEFT
            else SlideDirection.RIGHT) }
    if s.numberOfSpins > 1 then animateSlideTransition s targetSlideIndex
    else transitionToSlide s s.window.activeSlideIndex targetSlideIndex false

def spinLeft (s : State) : State := setActiveSlideIndex s (s.window.activeSlideIndex - 1)

def spinRight (s : State) : State := setActiveSlideIndex s (s.window.activeSlideIndex + 1)

/-! ## Events and settling -/

/-- The browser runs the requested animation frame, if any. -/
def frame (s : State) (elapsed : Bool) : State :=
  match s.rAF with
  | some c => performAnimationStep s c elapsed
  | none => s

/-- The oldest pending timer fires, if any. -/
def timer (s : State) : State :=
  match s.pendingDelayed with
  | d :: rest => resumeDelayedTransition { s with pendingDelayed := rest } d
  | [] => s

/-- Nothing is scheduled: no frame is requested and no delayed phase is pending. -/
def Idle (s : State) : Prop := s.rAF = none ∧ s.pendingDelayed = []

instance (s : State) : Decidable (Idle s) := by
  unfold Idle
  infer_instance

/-- Let the carousel settle: pending delayed phases land first (the delay is
shorter than the fade duration that separates two moving frames), then the
requested frame runs with its elapsed time above the fade duration. At most
`fuel` events are processed. Frames whose elapsed time is not above the fade
duration are left out (`frame_not_elapsed`: they change nothing), and the one
frame that may run before a pending delayed phase, the first of a spin,
commutes with it (`first_frame_order`). -/
def settle : Nat → State → State
  | 0, s => s
  | fuel + 1, s =>
    match s.pendingDelayed with
    | _ :: _ => settle fuel (timer s)
    | [] =>
      match s.rAF with
      | some _ => settle fuel (frame s true)
      | none => s

/-- Number of events that settle a request issued in state `s`. -/
def settleFuel (s : State) : Nat := 2 * s.numberOfSpins.toNat + 2

/-- Public operation `goToIndex(i)` followed by settling. -/
def goToIndex (s : State) (i : Int) : State :=
  let s := setActiveSlideIndex s i
  settle (settleFuel s) s

/-- Public operation `stepLeft()` followed by settling. -/
def stepLeft (s : State) : State := goToIndex s (s.window.activeSlideIndex - 1)

/-- Public operation `stepRight()` followed by settling. -/
def stepRight (s : State) : State := goToIndex s (s.window.activeSlideIndex + 1)

inductive Op where
  | goToIndex (i : Int)
  | stepLeft
  | stepRight
  deriving DecidableEq, Repr

def applyOp (s : State) : Op → State
  | Op.goToIndex i => goToIndex s i
  | Op.stepLeft => stepLeft s
  | Op.stepRight => stepRight s

/-- A sequence of public operations, each settled before the next. -/
def run (s : State) (ops : List Op) : State := ops.foldl applyOp s


/-! ## Net effect of a settled request -/

/-- The `delta` used by `#checkSpinning` for a spin direction. -/
def stepDelta (d : SlideDirection) : Int := if d = SlideDirection.LEFT then -1 else 1

/-- The window shift of `#checkSpinning`: `#updateVisibleIndices(delta)` followed
by `#handleDirection(direction)`. -/
def shiftWindow (w : Window) (d : SlideDirection) : Window :=
  let w := handleDirection (updateVisibleIndices w (stepDelta d)) d
  { w with shiftLog := w.shiftLog ++ [stepDelta d] }

/-- One physical step of the active index in direction `d`, with the window
shift that follows it when there are more than `MAX_RENDERED_SLIDES` slides. -/
def moveAndShift (d : SlideDirection) (w : Window) : Window :=
  let w := { w with activeSlideIndex := w.activeSlideIndex + stepDelta d }
  if w.size > MAX_RENDERED_SLIDES then shiftWindow w d else w

/-- The state after one firing frame and the delayed phase it starts. -/
def cycle (x : State) : State := timer (frame x true)

/-- A state between two requests: nothing is scheduled and the active index is
a position of `#slides`. -/
def Settled (s : State) : Prop :=
  Idle s ∧ 0 ≤ s.window.activeSlideIndex ∧ s.window.activeSlideIndex ≤ s.window.size - 1

/-- The direction stored in `#spinDirection` by a request for the clamped
target `t`. -/
def spinDirectionTo (s : State) (t : Int) : SlideDirection :=
  if t < s.window.activeSlideIndex then SlideDirection.LEFT else SlideDirection.RIGHT

/-- The positions `a + delta, a + 2 * delta, ..., a + k * delta`. -/
def spinTargets (a delta : Int) (k : Nat) : List Int :=
  (List.range k).map (fun (j : Nat) => a + ((j : Int) + 1) * delta)

/-! ## Styles, geometry and timing

JavaScript numbers that are not indices (ratios, widths, durations, offsets,
brightness) are exact rationals. The classes and inline styles of a slide are
the record `Slide`; `#slides` with its styles is a map from positions to
`Slide`. A `Styled` value is the whole instance: the index and scheduling state
above together with the styles and the configuration they are computed from.
Every method that touches both is given again on `Styled`, calling the method
on `State` for the index part. -/

def MAX_BRIGHTNESS : ℚ := 0.7

def MIN_BRIGHTNESS : ℚ := 0.1

def MAX_ZINDEX : Int := 99

def SLIDE_TRANSITION_SCALAR : ℚ := 0.00648

def SLIDE_TRANSITION_BASE_OFFSET : ℚ := 0.676

/-- Function `clamp(value, min, max)` on numbers that need not be integers. -/
def clampNumber (value lo hi : ℚ) : ℚ := min (max value lo) hi

/-- Method `#clampVisibleSlideCount`. -/
def clampVisibleSlideCount (visibleSlideCount : Int) : Int :=
  clamp visibleSlideCount 1 MAX_VISIBLE_SLIDES

/-- Method `#clampVisibleSlideRatio`. -/
def clampVisibleSlideRatio (visibleSlideRatio : ℚ) : ℚ :=
  clampNumber visibleSlideRatio 0.7 1

/-- Method `#calculatePerspectiveDepth`, for `this.#perspective = perspective`. -/
def calculatePerspectiveDepth (perspective : ℚ) : ℚ := perspective * 0.1

/-- Method `#calculateSlideTimeTransition`: the pair
`[transitionDelay, fadeDuration]`. -/
def calculateSlideTimeTransition (transitionDuration visibleSlideRatio : ℚ) : ℚ × ℚ :=
  let ratio := SLIDE_TRANSITION_SCALAR / (visibleSlideRatio - SLIDE_TRANSITION_BASE_OFFSET)
  let transitionDelay := transitionDuration * ratio
  let fadeDuration := transitionDuration + transitionDuration * ratio
  (transitionDelay, fadeDuration)

/-- Method `#calculateBrightness(index)`, for `this.#visibleSlideCount = visibleSlideCount`. -/
def calculateBrightness (visibleSlideCount index : Int) : ℚ :=
  (MAX_BRIGHTNESS - MIN_BRIGHTNESS) *
      (((visibleSlideCount - 1 - index + 1 : Int) : ℚ) / (visibleSlideCount : ℚ)) +
    MIN_BRIGHTNESS

/-- Classes and inline styles of one slide element: the classes `hidden` and
`active`, the custom properties `--carousel-slide-x-position` and
`--carousel-slide-z-position` (in px), the argument of `filter: brightness(..)`
and `z-index`; `none` is an absent property. -/
structure Slide where
  hidden : Bool
  active : Bool
  xPosition : Option ℚ
  zPosition : Option ℚ
  brightness : Option ℚ
  zIndex : Option Int
  deriving DecidableEq

/-- Method `#hideSlide`. -/
def hideSlide (slide : Slide) : Slide :=
  { slide with brightness := none, xPosition := none, zPosition := none, hidden := true }

/-- Method `#showSlide`; `zIndex = none` is `undefined`. -/
def showSlide (slide : Slide) (translateX translateZ brightness : ℚ) (zIndex : Option Int) :
    Slide :=
  { slide with
    hidden := false
    xPosition := some translateX
    zPosition := some translateZ
    brightness := some brightness
    zIndex :=
      match zIndex with
      | some z => some z
      | none => slide.zIndex }

/-- The instance: index and scheduling state, styles of `#slides`, and the
configuration fields the styles are computed from. -/
structure Styled where
  state : State
  /-- Styles of `#slides`, by position. -/
  slides : Int → Slide
  visibleSlideRatio : ℚ
  /-- Field `#slideDimensions.width`. -/
  slideWidth : ℚ
  perspective : ℚ
  perspectiveDepth : ℚ
  transitionDuration : ℚ
  slideTransitionDelay : ℚ
  slideFadeDuration : ℚ

/-- Method `slice(start, stop)` of an array of slides given as the list of their
positions in `#slides`. -/
def arraySlice (slides : List Int) (start stop : Int) : List Int :=
  (jsSlice (slides.length : Int) start stop).filterMap (fun i => slides[i.toNat]?)

/-- Method `#getPreviousSlides`. -/
def getPreviousSlides (c : Styled) : List Int :=
  jsSlice c.state.window.size 0 c.state.window.activeSlideIndex

/-- Method `#getNextSlides`: `slice` with one argument runs to the end. -/
def getNextSlides (c : Styled) : List Int :=
  jsSlice c.state.window.size (c.state.window.activeSlideIndex + 1) c.state.window.size

/-- The statement `if (isLeftDirection) slide.style.removeProperty("z-index")` for
the slide at position `p`. -/
def removeZIndexIfLeft (isLeftDirection : Bool) (slides : Int → Slide) (p : Int) :
    Int → Slide :=
  if isLeftDirection then Function.update slides p { (slides p) with zIndex := none }
  else slides

/-- The `for` loop of `#applySlideTransition` over `slidesToProcess`, with its
local variables `index`, `translateX`, `translateZ` and `visibleSlideCount`.
The `break` returns the styles as they are. -/
def applySlideTransitionLoop (visibleSlideWidth perspectiveDepth : ℚ) (visibleSlideCountMax : Int)
    (isLeftDirection : Bool) :
    List Int → Int → ℚ → ℚ → Int → (Int → Slide) → (Int → Slide)
  | [], _, _, _, _, slides => slides
  | p :: rest, index, translateX, translateZ, visibleSlideCount, slides =>
    let slides := removeZIndexIfLeft isLeftDirection slides p
    if visibleSlideCount ≥ visibleSlideCountMax then
      if (slides p).hidden then slides
      else
        applySlideTransitionLoop visibleSlideWidth perspectiveDepth visibleSlideCountMax
          isLeftDirection rest (index + 1) translateX translateZ visibleSlideCount
          (Function.update slides p (hideSlide (slides p)))
    else
      let brightness := calculateBrightness visibleSlideCountMax visibleSlideCount
      let slides :=
        Function.update slides p
          (showSlide (slides p) (if isLeftDirection then -translateX else translateX)
            (-translateZ) brightness
            (if isLeftDirection then none else some (MAX_ZINDEX - index)))
      applySlideTransitionLoop visibleSlideWidth perspectiveDepth visibleSlideCountMax
        isLeftDirection rest (index + 1) (translateX + visibleSlideWidth)
        (translateZ + perspectiveDepth) (visibleSlideCount + 1) slides

/-- The list `slidesToProcess` of `#applySlideTransition(slides, direction)`. -/
def slidesToProcess (slides : List Int) (direction : SlideDirection) : List Int :=
  if direction = SlideDirection.LEFT then slides.reverse else slides

/-- Method `#applySlideTransition(slides, direction)`: the styles of `#slides`
after the call. -/
def applySlideTransition (c : Styled) (slides : List Int) (direction : SlideDirection) :
    Int → Slide :=
  let visibleSlideWidth := c.slideWidth * c.visibleSlideRatio
  applySlideTransitionLoop visibleSlideWidth c.perspectiveDepth
    c.state.window.visibleSlideCount (decide (direction = SlideDirection.LEFT))
    (slidesToProcess slides direction) 0 visibleSlideWidth c.perspectiveDepth 0 c.slides

/-- Method `#transitionSlides(direction)`, through `#transitionSlidesToLeft` and
`#transitionSlidesToRight`. -/
def transitionSlides (c : Styled) (direction : SlideDirection) : Styled :=
  match direction with
  | SlideDirection.LEFT =>
    { c with slides := applySlideTransition c (getPreviousSlides c) SlideDirection.LEFT }
  | SlideDirection.RIGHT =>
    { c with slides := applySlideTransition c (getNextSlides c) SlideDirection.RIGHT }

/-- Method `#getTransitionDirections(referenceDirection)`: the pair
`(immediate, delayed)`. -/
def getTransitionDirections (referenceDirection : SlideDirection) :
    SlideDirection × SlideDirection :=
  if referenceDirection = SlideDirection.RIGHT then (SlideDirection.LEFT, SlideDirection.RIGHT)
  else (SlideDirection.RIGHT, SlideDirection.LEFT)

/-- Method `#updateSlideStyles(previousSlide, newSlide)`; a position outside
`#slides` is `undefined`. -/
def updateSlideStyles (c : Styled) (previousSlide newSlide : Int) : Styled :=
  let slides :=
    if 0 ≤ previousSlide ∧ previousSlide < c.state.window.size then
      Function.update c.slides previousSlide { (c.slides previousSlide) with active := false }
    else c.slides
  let slides :=
    if 0 ≤ newSlide ∧ newSlide < c.state.window.size then
      Function.update slides newSlide
        { (slides newSlide) with
          hidden := false, active := true, brightness := none, zIndex := none
          xPosition := none, zPosition := none }
    else slides
  { c with slides := slides }

namespace Styled

/-- The constructor with its styles: `slideElements` are the styles the slide
elements come with; the order of the assignments is that of the source. -/
def new (size : Nat) (slideElements : Int → Slide)
    (visibleSlideCount initialActiveIndex : Int)
    (visibleSlideRatio transitionDuration perspective slideWidth : ℚ) : Option Styled :=
  match Carousel.new size visibleSlideCount initialActiveIndex with
  | none => none
  | some state =>
    let ratio := clampVisibleSlideRatio visibleSlideRatio
    let times := calculateSlideTimeTransition transitionDuration ratio
    let c : Styled :=
      { state := state
        slides := slideElements
        visibleSlideRatio := ratio
        slideWidth := slideWidth
        perspective := perspective
        perspectiveDepth := calculatePerspectiveDepth perspective
        transitionDuration := transitionDuration
        slideTransitionDelay := times.1
        slideFadeDuration := times.2 }
    let activeSlide := state.window.activeSlideIndex
    let activeStyle : Slide := { (c.slides activeSlide) with active := true }
    let c := { c with slides := Function.update c.slides activeSlide activeStyle }
    let c := transitionSlides c SlideDirection.LEFT
    let c := transitionSlides c SlideDirection.RIGHT
    some c

/-- Method `#transitionToSlide` with the part of `#applyDelayedTransition` that
runs before `await delay(...)`: the immediate flank is restyled. -/
def transitionToSlide (c : Styled) (currentSlideIndex targetSlideIndex : Int)
    (isLargeJump : Bool) : Styled :=
  let transitionDirection := determineSlideDirection c.state targetSlideIndex
  let c :=
    { c with
      state := Carousel.transitionToSlide c.state currentSlideIndex targetSlideIndex isLargeJump }
  transitionSlides c (getTransitionDirections transitionDirection).1

/-- The part of `#applyDelayedTransition` after `await delay(...)`: the delayed
flank is restyled, the classes of the previous and the new active slide are
updated, and `#checkSpinning` runs when there are more than
`MAX_RENDERED_SLIDES` slides. -/
def resumeDelayedTransition (c : Styled) (d : Delayed) : Styled :=
  let c := transitionSlides c (getTransitionDirections d.direction).2
  let c := updateSlideStyles c d.previousSlide d.nextSlide
  { c with state := Carousel.resumeDelayedTransition c.state d }

/-- One run of `#performAnimationStep`, see `Carousel.performAnimationStep`. -/
def performAnimationStep (c : Styled) (sp : Spin) (elapsed : Bool) : Styled :=
  let c' :=
    if elapsed then transitionToSlide c sp.currentSlideIndex sp.targetSlideIndex true else c
  { c' with state := Carousel.performAnimationStep c.state sp elapsed }

/-- Method `#animateSlideTransition(targetSlideIndex)`. -/
def animateSlideTransition (c : Styled) (targetSlideIndex : Int) : Styled :=
  let stepDirection : Int :=
    if targetSlideIndex > c.state.window.activeSlideIndex then 1 else -1
  let currentSlideIndex := c.state.window.activeSlideIndex
  let c' := transitionToSlide c currentSlideIndex (currentSlideIndex + stepDirection) false
  { c' with state := Carousel.animateSlideTransition c.state targetSlideIndex }

/-- The setter `set activeSlideIndex(targetSlideIndex)`. -/
def setActiveSlideIndex (c : Styled) (targetSlideIndex : Int) : Styled :=
  let target := clampSlideIndex c.state targetSlideIndex
  if c.state.window.activeSlideIndex = target then c
  else
    let c' :=
      if ((c.state.window.activeSlideIndex - target).natAbs : Int) > 1 then
        animateSlideTransition c target
      else transitionToSlide c c.state.window.activeSlideIndex target false
    { c' with state := Carousel.setActiveSlideIndex c.state targetSlideIndex }

/-- The setter `set perspective(perspective)`. -/
def setPerspective (c : Styled) (perspective : ℚ) : Styled :=
  if c.state.rAF.isSome then c
  else
    let c :=
      { c with
        perspective := perspective
        perspectiveDepth := calculatePerspectiveDepth perspective }
    let c :=
      { c with
        slides := applySlideTransition c
          (arraySlice (getPreviousSlides c) (-c.state.window.visibleSlideCount)
            ((getPreviousSlides c).length : Int))
          SlideDirection.LEFT }
    { c with
      slides := applySlideTransition c
        (arraySlice (getNextSlides c) 0 c.state.window.visibleSlideCount)
        SlideDirection.RIGHT }

/-- Method `stop()`. -/
def stop (c : Styled) : Styled := { c with state := { c.state with rAF := none } }

/-- The browser runs the requested animation frame, if any. -/
def frame (c : Styled) (elapsed : Bool) : Styled :=
  match c.state.rAF with
  | some sp => performAnimationStep c sp elapsed
  | none => c

/-- The oldest pending timer fires, if any. -/
def timer (c : Styled) : Styled :=
  match c.state.pendingDelayed with
  | d :: rest =>
    resumeDelayedTransition { c with state := { c.state with pendingDelayed := rest } } d
  | [] => c

/-- Let the instance settle, as `Carousel.settle` does for the state. -/
def settle : Nat → Styled → Styled
  | 0, c => c
  | fuel + 1, c =>
    match c.state.pendingDelayed with
    | _ :: _ => settle fuel (timer c)
    | [] =>
      match c.state.rAF with
      | some _ => settle fuel (frame c true)
      | none => c

/-- Public operation `goToIndex(i)` followed by settling. -/
def goToIndex (c : Styled) (i : Int) : Styled :=
  let c := setActiveSlideIndex c i
  settle (settleFuel c.state) c

/-- Public operation `stepLeft()` followed by settling. -/
def stepLeft (c : Styled) : Styled := goToIndex c (c.state.window.activeSlideIndex - 1)

/-- Public operation `stepRight()` followed by settling. -/
def stepRight (c : Styled) : Styled := goToIndex c (c.state.window.activeSlideIndex + 1)

end Styled

/-! ## Properties stated by the specification -/

/-- The early exit of the loop is sound for the list `l` and the styles `sl`
when, from rank `k` on, a hidden slide is followed by hidden slides only. -/
def EarlyExitSound (l : List Int) (sl : Int → Slide) (k : Int) : Prop :=
  ∀ (i j : Nat) (p q : Int), l[i]? = some p → l[j]? = some q → i ≤ j → k ≤ (i : Int) →
    (sl p).hidden = true → (sl q).hidden = true

/-- Invariant 1 of the specification:
`0 ≤ headRendered ≤ activeIndex ≤ tailRendered ≤ totalCount - 1`. -/
def Invariant1 (w : Window) : Prop :=
  0 ≤ w.headIndex.rendered ∧ w.headIndex.rendered ≤ w.activeSlideIndex ∧
    w.activeSlideIndex ≤ w.tailIndex.rendered ∧ w.tailIndex.rendered ≤ w.size - 1

instance (w : Window) : Decidable (Invariant1 w) := by
  unfold Invariant1
  infer_instance

/-- Invariant 2 of the specification: `headVisible ≥ headRendered` and
`tailVisible ≤ tailRendered`. -/
def Invariant2 (w : Window) : Prop :=
  w.headIndex.visible ≥ w.headIndex.rendered ∧ w.tailIndex.visible ≤ w.tailIndex.rendered

instance (w : Window) : Decidable (Invariant2 w) := by
  unfold Invariant2
  infer_instance

/-- Every position of the sequence within `visibleSlideCount` of the active
index (the slides styled as on-screen, the active one included) lies in the
rendered window. -/
def OnScreenAttached (w : Window) : Prop :=
  ∀ i : Int, 0 ≤ i → i ≤ w.size - 1 →
    w.activeSlideIndex - w.visibleSlideCount ≤ i →
    i ≤ w.activeSlideIndex + w.visibleSlideCount →
    w.headIndex.rendered ≤ i ∧ i ≤ w.tailIndex.rendered

/-- The quantity `tailRendered - headRendered`. -/
def renderedWidth (w : Window) : Int := w.tailIndex.rendered - w.headIndex.rendered

/-- The tracked visible bounds follow the active index:
`headVisible = max(0, activeIndex - visibleCount)` and
`tailVisible = min(totalCount - 1, activeIndex + visibleCount)`. -/
def VisibleFollowsActive (w : Window) : Prop :=
  w.headIndex.visible = max 0 (w.activeSlideIndex - w.visibleSlideCount) ∧
    w.tailIndex.visible = min (w.size - 1) (w.activeSlideIndex + w.visibleSlideCount)

instance (w : Window) : Decidable (VisibleFollowsActive w) := by
  unfold VisibleFollowsActive
  infer_instance

/-- The local constant `slidesToAddCount` of `#calculateIndices(direction)`. -/
def slidesToAddCount (w : Window) (direction : Int) : Int :=
  MAX_SLIDES_PER_SIDE -
    (if direction = -1 then w.activeSlideIndex - w.headIndex.rendered
     else w.tailIndex.rendered - w.activeSlideIndex)

/-- The record that `#handleDirection(direction)` obtains from
`#calculateIndicesForLeft()` or `#calculateIndicesForRight()`. -/
def rebalanceIndices (w : Window) (d : SlideDirection) : Indices :=
  if d = SlideDirection.LEFT then calculateIndicesForLeft w else calculateIndicesForRight w

/-- Depth of the rendered window on the side the shift moves away from. -/
def trailingDepth (w : Window) (d : SlideDirection) : Int :=
  if d = SlideDirection.LEFT then w.tailIndex.rendered - w.activeSlideIndex
  else w.activeSlideIndex - w.headIndex.rendered

/-- Number of positions between the rendered boundary on the side the shift
moves toward and the end of the sequence on that side. -/
def roomToEdge (w : Window) (d : SlideDirection) : Int :=
  if d = SlideDirection.LEFT then w.headIndex.rendered
  else w.size - 1 - w.tailIndex.rendered

/-- A slide other than the active one is hidden exactly when its distance from
the active index exceeds the visible count. -/
def HiddenByDistance (c : Styled) : Prop :=
  ∀ i : Int, 0 ≤ i → i < c.state.window.size → i ≠ c.state.window.activeSlideIndex →
    ((c.slides i).hidden = true ↔
      (c.state.window.visibleSlideCount < i - c.state.window.activeSlideIndex ∨
        c.state.window.visibleSlideCount < c.state.window.activeSlideIndex - i))

/-- The slides that `#transitionSlides(direction)` passes to
`#applySlideTransition`. -/
def flankSlides (c : Styled) (direction : SlideDirection) : List Int :=
  match direction with
  | SlideDirection.LEFT => getPreviousSlides c
  | SlideDirection.RIGHT => getNextSlides c

/-- The early exit of the loop is sound when `#transitionSlides(direction)` runs
on the instance `c`. -/
def FlankExitSound (c : Styled) (direction : SlideDirection) : Prop :=
  EarlyExitSound (slidesToProcess (flankSlides c direction) direction) c.slides
    c.state.window.visibleSlideCount

/-- The instance at the moment a single-step request for `t` restyles the
immediate flank: the active index is already `t`. -/
def immediateCall (c : Styled) (t : Int) : Styled :=
  { c with
    state := Carousel.transitionToSlide c.state c.state.window.activeSlideIndex t false }

/-- One settled single step. -/
def Styled.step (c : Styled) (d : SlideDirection) : Styled :=
  match d with
  | SlideDirection.LEFT => Styled.stepLeft c
  | SlideDirection.RIGHT => Styled.stepRight c

/-- A sequence of settled single steps. -/
def Styled.steps (c : Styled) (ds : List SlideDirection) : Styled :=
  ds.foldl Styled.step c

/-- The two flank restyles of the settled single step from `c` in direction `d`
exit early only before hidden slides. The immediate restyle runs on
`immediateCall c t`, `t` the slide next to the active one in direction `d`, and
gives the styles the setter leaves; the delayed restyle runs on the instance
the setter leaves, when the timer of the step fires. -/
def StepExitsSound (c : Styled) (d : SlideDirection) : Prop :=
  FlankExitSound (immediateCall c (c.state.window.activeSlideIndex + stepDelta d))
      (getTransitionDirections d).1 ∧
    (Styled.setActiveSlideIndex c (c.state.window.activeSlideIndex + stepDelta d)).slides =
      (transitionSlides (immediateCall c (c.state.window.activeSlideIndex + stepDelta d))
        (getTransitionDirections d).1).slides ∧
    FlankExitSound (Styled.setActiveSlideIndex c (c.state.window.activeSlideIndex + stepDelta d))
      (getTransitionDirections d).2 ∧
    Styled.step c d =
      Styled.timer (Styled.setActiveSlideIndex c (c.state.window.activeSlideIndex + stepDelta d))

/-- The styles of a slide element that carries none yet. -/
def bareSlide : Slide :=
  { hidden := false, active := false, xPosition := none, zPosition := none,
    brightness := none, zIndex := none }

/-! ## Scheduler lemmas -/

theorem settle_idle (fuel : Nat) (s : State) (h : Idle s) : settle fuel s = s := by
  obtain ⟨h1, h2⟩ := h
  cases fuel with
  | zero => rfl
  | succ n => simp [settle, h1, h2]

theorem checkSpinning_skip (s : State) (h0 : s.currentNumberOfSpins = 0)
    (hK : s.numberOfSpins > 1) :
    checkSpinning s = { s with currentNumberOfSpins := 1 } := by
  simp [checkSpinning, h0, hK]

theorem checkSpinning_shift (s : State) (d : SlideDirection)
    (hd : s.spinDirection = some d)
    (h : ¬ (s.currentNumberOfSpins + 1 = 1 ∧ s.numberOfSpins > 1)) :
    checkSpinning s =
      { s with
        window := shiftWindow s.window d
        currentNumberOfSpins :=
          if s.currentNumberOfSpins + 1 > s.numberOfSpins ∨ s.numberOfSpins = 1 then 0
          else s.currentNumberOfSpins + 1 } := by
  unfold checkSpinning
  simp only [h, if_false, hd]
  cases d <;> simp [shiftWindow, stepDelta] <;> split <;> rfl


theorem frame_fire (x : State) (c : Spin) (hr : x.rAF = some c) :
    frame x true =
      { transitionToSlide x c.currentSlideIndex c.targetSlideIndex true with
        rAF :=
          if (c.transitionDirection = SlideDirection.LEFT ∧
                c.currentSlideIndex + c.stepDirection ≥ c.targetSlideIndex) ∨
              (¬ c.transitionDirection = SlideDirection.LEFT ∧
                c.currentSlideIndex + c.stepDirection ≤ c.targetSlideIndex)
          then some { c with currentSlideIndex := c.currentSlideIndex + c.stepDirection }
          else none } := by
  simp only [frame, hr, performAnimationStep]
  simp only [if_true, decide_eq_true_eq]
  split <;> rfl

theorem settle_cycle (fuel : Nat) (x : State) (c : Spin) (hp : x.pendingDelayed = [])
    (hr : x.rAF = some c) : settle (fuel + 2) x = settle fuel (cycle x) := by
  have h1 : settle (fuel + 2) x = settle (fuel + 1) (frame x true) := by
    simp [settle, hp, hr]
  have h2 : ∃ dl, (frame x true).pendingDelayed = [dl] := by
    rw [frame_fire x c hr]
    simp [transitionToSlide, applyDelayedTransition, hp]
  obtain ⟨dl, h2⟩ := h2
  rw [h1]
  simp [settle, h2, cycle]

theorem cycle_spec (x : State) (c : Spin) (d : SlideDirection)
    (hp : x.pendingDelayed = []) (hr : x.rAF = some c)
    (hd : x.spinDirection = some d)
    (hc : x.window.size > MAX_RENDERED_SLIDES → 1 ≤ x.currentNumberOfSpins) :
    (cycle x).window =
        moveAndShift d { x.window with activeSlideIndex := c.currentSlideIndex - stepDelta d } ∧
      (cycle x).pendingDelayed = [] ∧
      (cycle x).rAF =
        (if (c.transitionDirection = SlideDirection.LEFT ∧
              c.currentSlideIndex + c.stepDirection ≥ c.targetSlideIndex) ∨
            (¬ c.transitionDirection = SlideDirection.LEFT ∧
              c.currentSlideIndex + c.stepDirection ≤ c.targetSlideIndex)
          then some { c with currentSlideIndex := c.currentSlideIndex + c.stepDirection }
          else none) ∧
      (cycle x).transitionLog = x.transitionLog ++ [c.currentSlideIndex] ∧
      (cycle x).numberOfSpins = x.numberOfSpins ∧
      (cycle x).spinDirection = x.spinDirection ∧
      (cycle x).currentNumberOfSpins =
        (if x.window.size > MAX_RENDERED_SLIDES then
          (if x.currentNumberOfSpins + 1 > x.numberOfSpins ∨ x.numberOfSpins = 1 then 0
            else x.currentNumberOfSpins + 1)
        else x.currentNumberOfSpins) := by
  have hmove : ({ x.window with activeSlideIndex := c.currentSlideIndex - stepDelta d } : Window).activeSlideIndex
      + stepDelta d = c.currentSlideIndex := by simp
  unfold cycle
  rw [frame_fire x c hr]
  simp only [timer, transitionToSlide, applyDelayedTransition, hp, List.nil_append,
    resumeDelayedTransition]
  by_cases hsz : x.window.size > MAX_RENDERED_SLIDES
  · have hc1 := hc hsz
    simp only [hsz, if_true]
    rw [checkSpinning_shift _ d]
    · simp [moveAndShift, hsz]
    · exact hd
    · simp only [gt_iff_lt, not_and, not_lt]
      intro h
      omega
  · simp [hsz, moveAndShift]

theorem handleDirection_frame (w : Window) (d : SlideDirection) :
    (handleDirection w d).size = w.size ∧
      (handleDirection w d).visibleSlideCount = w.visibleSlideCount ∧
      (handleDirection w d).activeSlideIndex = w.activeSlideIndex ∧
      (handleDirection w d).headIndex.visible = w.headIndex.visible ∧
      (handleDirection w d).tailIndex.visible = w.tailIndex.visible ∧
      (handleDirection w d).shiftLog = w.shiftLog := by
  unfold handleDirection
  split <;> simp

theorem shiftWindow_frame (w : Window) (d : SlideDirection) :
    (shiftWindow w d).size = w.size ∧
      (shiftWindow w d).visibleSlideCount = w.visibleSlideCount ∧
      (shiftWindow w d).activeSlideIndex = w.activeSlideIndex := by
  obtain ⟨h1, h2, h3, -⟩ := handleDirection_frame (updateVisibleIndices w (stepDelta d)) d
  simp only [shiftWindow, h1, h2, h3]
  simp [updateVisibleIndices]

theorem moveAndShift_frame (d : SlideDirection) (w : Window) :
    (moveAndShift d w).size = w.size ∧
      (moveAndShift d w).visibleSlideCount = w.visibleSlideCount ∧
      (moveAndShift d w).activeSlideIndex = w.activeSlideIndex + stepDelta d := by
  unfold moveAndShift
  simp only
  split
  · obtain ⟨h1, h2, h3⟩ := shiftWindow_frame
      { w with activeSlideIndex := w.activeSlideIndex + stepDelta d } d
    exact ⟨h1, h2, h3⟩
  · exact ⟨rfl, rfl, rfl⟩

theorem moveAndShift_iterate_frame (d : SlideDirection) (k : Nat) (w : Window) :
    ((moveAndShift d)^[k] w).size = w.size ∧
      ((moveAndShift d)^[k] w).visibleSlideCount = w.visibleSlideCount ∧
      ((moveAndShift d)^[k] w).activeSlideIndex = w.activeSlideIndex + (k : Int) * stepDelta d := by
  induction k generalizing w with
  | zero => simp
  | succ n ih =>
    rw [Function.iterate_succ_apply]
    obtain ⟨h1, h2, h3⟩ := ih (moveAndShift d w)
    obtain ⟨g1, g2, g3⟩ := moveAndShift_frame d w
    refine ⟨by rw [h1, g1], by rw [h2, g2], ?_⟩
    rw [h3, g3]
    push_cast
    ring

theorem stepDelta_cases (d : SlideDirection) :
    (d = SlideDirection.LEFT ∧ stepDelta d = -1) ∨ (d = SlideDirection.RIGHT ∧ stepDelta d = 1) := by
  cases d <;> simp [stepDelta]

/-- The frame loop of a multi-step spin, entered with `m + 1` firing frames to
go: it becomes idle, and its net effect on the window is `m + 1` physical
steps. -/
theorem settle_spin (d : SlideDirection) (K : Int) :
    ∀ (m e : Nat) (x : State) (c : Spin),
      x.pendingDelayed = [] → x.rAF = some c →
      c.stepDirection = stepDelta d → c.transitionDirection = d →
      c.targetSlideIndex = c.currentSlideIndex + (m : Int) * stepDelta d →
      x.spinDirection = some d → x.numberOfSpins = K →
      (x.window.size > MAX_RENDERED_SLIDES →
        1 ≤ x.currentNumberOfSpins ∧ x.currentNumberOfSpins + m = K) →
      (settle (2 * (m + 1) + e) x).window =
          (moveAndShift d)^[m + 1]
            { x.window with activeSlideIndex := c.currentSlideIndex - stepDelta d } ∧
        Idle (settle (2 * (m + 1) + e) x) ∧
        (settle (2 * (m + 1) + e) x).transitionLog =
          x.transitionLog ++
            (List.range (m + 1)).map
              (fun (j : Nat) => c.currentSlideIndex + (j : Int) * stepDelta d) ∧
        (x.window.size > MAX_RENDERED_SLIDES →
          (settle (2 * (m + 1) + e) x).currentNumberOfSpins = 0) := by
  intro m
  induction m with
  | zero =>
    intro e x c hp hr hstep hdir htar hsd hnum hcnt
    have hfuel : 2 * (0 + 1) + e = e + 2 := by omega
    rw [hfuel, settle_cycle e x c hp hr]
    obtain ⟨cw, cp, cr, cl, cn, cs, cc⟩ :=
      cycle_spec x c d hp hr hsd (fun h => (hcnt h).1)
    have hnone : (cycle x).rAF = none := by
      rw [cr, hstep, hdir, htar]
      rcases stepDelta_cases d with ⟨h1, h2⟩ | ⟨h1, h2⟩ <;> simp [h1, stepDelta]
    have hidle : Idle (cycle x) := ⟨hnone, cp⟩
    rw [settle_idle e _ hidle]
    refine ⟨by simpa using cw, hidle, by rw [cl]; simp [List.range_succ], ?_⟩
    intro hsz
    rw [cc, if_pos hsz]
    have := hcnt hsz
    rw [if_pos]
    left
    omega
  | succ n ih =>
    intro e x c hp hr hstep hdir htar hsd hnum hcnt
    have hfuel : 2 * (n + 1 + 1) + e = (2 * (n + 1) + e) + 2 := by omega
    rw [hfuel, settle_cycle _ x c hp hr]
    obtain ⟨cw, cp, cr, cl, cn, cs, cc⟩ :=
      cycle_spec x c d hp hr hsd (fun h => (hcnt h).1)
    have hsome : (cycle x).rAF =
        some { c with currentSlideIndex := c.currentSlideIndex + c.stepDirection } := by
      rw [cr, hstep, hdir, htar]
      rcases stepDelta_cases d with ⟨h1, h2⟩ | ⟨h1, h2⟩
      · rw [if_pos]
        left
        refine ⟨h1, ?_⟩
        rw [h2]
        push_cast
        omega
      · rw [if_pos]
        right
        refine ⟨by rw [h1]; simp, ?_⟩
        rw [h2]
        push_cast
        omega
    obtain ⟨g1, g2, g3⟩ := moveAndShift_frame d
      { x.window with activeSlideIndex := c.currentSlideIndex - stepDelta d }
    have hsize : (cycle x).window.size = x.window.size := by rw [cw, g1]
    have hact : (cycle x).window.activeSlideIndex = c.currentSlideIndex := by
      rw [cw, g3]
      simp
    have hw : ({ (cycle x).window with
        activeSlideIndex := c.currentSlideIndex + c.stepDirection - stepDelta d } : Window) =
        (cycle x).window := by
      have : c.currentSlideIndex + c.stepDirection - stepDelta d =
          (cycle x).window.activeSlideIndex := by
        rw [hact, hstep]
        ring
      rw [this]
    have key := ih e (cycle x)
      { c with currentSlideIndex := c.currentSlideIndex + c.stepDirection } cp hsome hstep hdir
      (by
        show c.targetSlideIndex = c.currentSlideIndex + c.stepDirection + (n : Int) * stepDelta d
        rw [htar, hstep]
        push_cast
        ring)
      (by rw [cs, hsd]) (by rw [cn, hnum])
      (by
        intro hsz
        rw [hsize] at hsz
        have := hcnt hsz
        rw [cc, if_pos hsz, if_neg]
        · push_cast at this
          omega
        · push_cast at this
          omega)
    obtain ⟨k1, k2, k3, k4⟩ := key
    refine ⟨?_, k2, ?_, ?_⟩
    · rw [k1]
      show (moveAndShift d)^[n + 1] { (cycle x).window with
        activeSlideIndex := c.currentSlideIndex + c.stepDirection - stepDelta d } = _
      rw [hw, cw, Function.iterate_succ_apply (moveAndShift d) (n + 1)]
    · rw [k3, cl, List.append_assoc]
      congr 1
      rw [List.range_succ_eq_map (n + 1)]
      simp only [List.map_cons, List.map_map, List.singleton_append, Nat.cast_zero, zero_mul,
        add_zero]
      congr 1
      apply List.map_congr_left
      intro j _
      simp only [Function.comp, hstep]
      push_cast
      ring
    · intro hsz
      exact k4 (by rw [hsize]; exact hsz)


theorem setActive_same (s : State) (t : Int)
    (h : clamp t 0 (s.window.size - 1) = s.window.activeSlideIndex) :
    setActiveSlideIndex s t = s := by
  simp [setActiveSlideIndex, clampSlideIndex, h]

theorem goToIndex_same (s : State) (t : Int) (hs : Settled s)
    (h : clamp t 0 (s.window.size - 1) = s.window.activeSlideIndex) :
    goToIndex s t = s := by
  unfold goToIndex
  simp only [setActive_same s t h]
  exact settle_idle _ s hs.1

theorem settle_pending (fuel : Nat) (s : State) (dl : Delayed) (rest : List Delayed)
    (h : s.pendingDelayed = dl :: rest) : settle (fuel + 1) s = settle fuel (timer s) := by
  simp [settle, h]

theorem goToIndex_single (s : State) (t : Int) (hs : Settled s)
    (h : (clamp t 0 (s.window.size - 1) - s.window.activeSlideIndex).natAbs = 1) :
    (goToIndex s t).window =
        moveAndShift (spinDirectionTo s (clamp t 0 (s.window.size - 1))) s.window ∧
      Idle (goToIndex s t) ∧
      (goToIndex s t).transitionLog = s.transitionLog ++ [clamp t 0 (s.window.size - 1)] ∧
      (s.window.size > MAX_RENDERED_SLIDES → (goToIndex s t).currentNumberOfSpins = 0) := by
  obtain ⟨⟨hr, hp⟩, ha0, ha1⟩ := hs
  generalize ht : clamp t 0 (s.window.size - 1) = t' at h
  have hne : ¬ s.window.activeSlideIndex = t' := by omega
  have hK : ((s.window.activeSlideIndex - t').natAbs : Int) = 1 := by omega
  have hmv : s.window.activeSlideIndex + stepDelta (spinDirectionTo s t') = t' := by
    unfold stepDelta spinDirectionTo
    split <;> simp <;> omega
  have hset : setActiveSlideIndex s t =
      { s with
        window := { s.window with activeSlideIndex := t' }
        rAF := none, numberOfSpins := 1, currentNumberOfSpins := 0
        spinDirection := some (spinDirectionTo s t')
        transitionLog := s.transitionLog ++ [t']
        pendingDelayed :=
          [{ direction := determineSlideDirection s t'
             previousSlide := s.window.activeSlideIndex, nextSlide := t' }] } := by
    simp [setActiveSlideIndex, clampSlideIndex, ht, hne, hK, spinDirectionTo, transitionToSlide,
      applyDelayedTransition, hp, determineSlideDirection]
  unfold goToIndex
  simp only [hset]
  have hfuel : ∀ x : State, x.numberOfSpins = 1 → settleFuel x = 3 + 1 := by
    intro x hx
    simp [settleFuel, hx]
  rw [hfuel _ rfl, settle_pending 3 _ _ [] rfl]
  simp only [timer, resumeDelayedTransition]
  by_cases hsz : s.window.size > MAX_RENDERED_SLIDES
  · simp only [hsz, if_true]
    rw [checkSpinning_shift _ (spinDirectionTo s t') rfl (by simp)]
    rw [settle_idle _ _ ⟨rfl, rfl⟩]
    simp [moveAndShift, hsz, hmv, Idle]
  · simp only [hsz, if_false]
    rw [settle_idle _ _ ⟨rfl, rfl⟩]
    simp [moveAndShift, hsz, hmv, Idle]

theorem timer_skip (x : State) (dl : Delayed) (hp : x.pendingDelayed = [dl])
    (h0 : x.currentNumberOfSpins = 0) (hK : x.numberOfSpins > 1) :
    timer x =
      { x with
        pendingDelayed := []
        currentNumberOfSpins := if x.window.size > MAX_RENDERED_SLIDES then 1 else 0 } := by
  simp only [timer, hp, resumeDelayedTransition]
  split
  · rw [checkSpinning_skip _ (by exact h0) (by exact hK)]
  · rw [← h0]

theorem goToIndex_multi (s : State) (t : Int) (hs : Settled s) (m : Nat)
    (h : (clamp t 0 (s.window.size - 1) - s.window.activeSlideIndex).natAbs = m + 2) :
    (goToIndex s t).window =
        (moveAndShift (spinDirectionTo s (clamp t 0 (s.window.size - 1))))^[m + 2] s.window ∧
      Idle (goToIndex s t) ∧
      (goToIndex s t).transitionLog =
        s.transitionLog ++
          (s.window.activeSlideIndex +
              stepDelta (spinDirectionTo s (clamp t 0 (s.window.size - 1)))) ::
            spinTargets s.window.activeSlideIndex
              (stepDelta (spinDirectionTo s (clamp t 0 (s.window.size - 1)))) (m + 2) ∧
      (s.window.size > MAX_RENDERED_SLIDES → (goToIndex s t).currentNumberOfSpins = 0) := by
  obtain ⟨⟨hr, hp⟩, ha0, ha1⟩ := hs
  generalize ht : clamp t 0 (s.window.size - 1) = t' at h
  generalize hd : spinDirectionTo s t' = d
  have hne : ¬ s.window.activeSlideIndex = t' := by omega
  have hK : ((s.window.activeSlideIndex - t').natAbs : Int) = (m : Int) + 2 := by omega
  have hstep : (if t' > s.window.activeSlideIndex then (1 : Int) else -1) = stepDelta d := by
    rw [← hd]
    unfold stepDelta spinDirectionTo
    split <;> split <;> simp <;> omega
  have hdir : (if t' > s.window.activeSlideIndex then SlideDirection.RIGHT
      else SlideDirection.LEFT) = d := by
    rw [← hd]
    unfold spinDirectionTo
    split <;> split <;> simp <;> omega
  have htar : t' = s.window.activeSlideIndex + ((m : Int) + 2) * stepDelta d := by
    rw [← hd]
    unfold stepDelta spinDirectionTo
    split <;> simp <;> omega
  have hset : setActiveSlideIndex s t =
      { s with
        window := { s.window with activeSlideIndex := s.window.activeSlideIndex + stepDelta d }
        rAF := some
          { targetSlideIndex := t', stepDirection := stepDelta d, transitionDirection := d,
            currentSlideIndex := s.window.activeSlideIndex + stepDelta d }
        numberOfSpins := (m : Int) + 2, currentNumberOfSpins := 0
        spinDirection := some d
        transitionLog := s.transitionLog ++ [s.window.activeSlideIndex + stepDelta d]
        pendingDelayed :=
          [{ direction := determineSlideDirection s (s.window.activeSlideIndex + stepDelta d)
             previousSlide := s.window.activeSlideIndex
             nextSlide := s.window.activeSlideIndex + stepDelta d }] } := by
    have hgt : (1 : Int) < (m : Int) + 2 := by omega
    simp only [setActiveSlideIndex, clampSlideIndex, ht, hne, hK, if_false, hgt, if_true,
      animateSlideTransition, transitionToSlide, applyDelayedTransition, hp, List.nil_append,
      determineSlideDirection, hstep, hdir]
    rw [← hd]
    simp [spinDirectionTo]
  unfold goToIndex
  simp only []
  generalize hX : setActiveSlideIndex s t = X
  rw [hset] at hX
  have hfuel : settleFuel X = (2 * (m + 1 + 1) + 1) + 1 := by
    rw [← hX]
    simp only [settleFuel]
    omega
  have hT := timer_skip X _ (by rw [← hX]) (by rw [← hX]) (by rw [← hX]; show (1 : Int) < (m : Int) + 2; omega)
  rw [hfuel, settle_pending _ _ _ [] (by rw [← hX])]
  have htar1 : t' = s.window.activeSlideIndex + stepDelta d + ((m + 1 : Nat) : Int) * stepDelta d := by
    rw [htar]
    push_cast
    ring
  have hlog : ∀ l : List Int, l ++ [s.window.activeSlideIndex + stepDelta d] ++
      (List.range (m + 1 + 1)).map
        (fun (j : Nat) => s.window.activeSlideIndex + stepDelta d + (j : Int) * stepDelta d) =
      l ++ (s.window.activeSlideIndex + stepDelta d) ::
        spinTargets s.window.activeSlideIndex (stepDelta d) (m + 2) := by
    intro l
    rw [List.append_assoc]
    congr 1
    simp only [List.singleton_append, spinTargets]
    congr 1
    apply List.map_congr_left
    intro j _
    ring
  have hsize : (timer X).window.size = s.window.size := by rw [hT, ← hX]
  obtain ⟨k1, k2, k3, k4⟩ := settle_spin d ((m : Int) + 2) (m + 1) 1 (timer X)
    { targetSlideIndex := t', stepDirection := stepDelta d, transitionDirection := d,
      currentSlideIndex := s.window.activeSlideIndex + stepDelta d }
    (by rw [hT]) (by rw [hT, ← hX]) rfl rfl htar1 (by rw [hT, ← hX]) (by rw [hT, ← hX])
    (by
      intro hsz
      rw [hsize] at hsz
      rw [hT, ← hX]
      simp only [hsz, if_true]
      refine ⟨le_refl _, ?_⟩
      push_cast
      ring)
  refine ⟨?_, k2, ?_, ?_⟩
  · rw [k1, hT, ← hX]
    simp
  · rw [k3, hT, ← hX]
    exact hlog _
  · intro hsz
    exact k4 (by rw [hsize]; exact hsz)

/-- A settled request for index `t` moves the window like `k` physical steps,
`k` being the distance to the clamped target, and leaves the carousel idle. -/
theorem goToIndex_spec (s : State) (t : Int) (hs : Settled s) :
    (goToIndex s t).window =
        (moveAndShift (spinDirectionTo s (clamp t 0 (s.window.size - 1))))^[
          (clamp t 0 (s.window.size - 1) - s.window.activeSlideIndex).natAbs] s.window ∧
      Idle (goToIndex s t) ∧
      (s.window.size > MAX_RENDERED_SLIDES →
        1 ≤ (clamp t 0 (s.window.size - 1) - s.window.activeSlideIndex).natAbs →
        (goToIndex s t).currentNumberOfSpins = 0) := by
  rcases Nat.lt_or_ge (clamp t 0 (s.window.size - 1) - s.window.activeSlideIndex).natAbs 1
    with h0 | h1
  · have hk : (clamp t 0 (s.window.size - 1) - s.window.activeSlideIndex).natAbs = 0 := by omega
    have hsame : clamp t 0 (s.window.size - 1) = s.window.activeSlideIndex := by omega
    rw [goToIndex_same s t hs hsame, hk]
    exact ⟨rfl, hs.1, fun _ h => absurd h (by omega)⟩
  · rcases Nat.lt_or_ge (clamp t 0 (s.window.size - 1) - s.window.activeSlideIndex).natAbs 2
      with h2 | h2
    · have hk : (clamp t 0 (s.window.size - 1) - s.window.activeSlideIndex).natAbs = 1 := by
        omega
      obtain ⟨k1, k2, -, k4⟩ := goToIndex_single s t hs hk
      rw [hk]
      exact ⟨k1, k2, fun hsz _ => k4 hsz⟩
    · obtain ⟨m, hm⟩ : ∃ m : Nat,
          (clamp t 0 (s.window.size - 1) - s.window.activeSlideIndex).natAbs = m + 2 :=
        ⟨_, (Nat.sub_add_cancel h2).symm⟩
      obtain ⟨k1, k2, -, k4⟩ := goToIndex_multi s t hs m hm
      rw [hm]
      exact ⟨k1, k2, fun hsz _ => k4 hsz⟩

theorem clamp_range (t hi : Int) (h : 0 ≤ hi) : 0 ≤ clamp t 0 hi ∧ clamp t 0 hi ≤ hi := by
  unfold clamp
  omega

theorem spinDirectionTo_target (s : State) (t : Int) :
    s.window.activeSlideIndex + ((t - s.window.activeSlideIndex).natAbs : Int) *
      stepDelta (spinDirectionTo s t) = t := by
  unfold stepDelta spinDirectionTo
  split
  · rw [if_pos rfl]
    omega
  · rw [if_neg (by decide)]
    omega

theorem goToIndex_active (s : State) (t : Int) (hs : Settled s) :
    (goToIndex s t).window.activeSlideIndex = clamp t 0 (s.window.size - 1) ∧
      (goToIndex s t).window.size = s.window.size ∧
      (goToIndex s t).window.visibleSlideCount = s.window.visibleSlideCount := by
  obtain ⟨k1, -, -⟩ := goToIndex_spec s t hs
  obtain ⟨g1, g2, g3⟩ := moveAndShift_iterate_frame
    (spinDirectionTo s (clamp t 0 (s.window.size - 1)))
    (clamp t 0 (s.window.size - 1) - s.window.activeSlideIndex).natAbs s.window
  rw [k1]
  refine ⟨?_, g1, g2⟩
  rw [g3]
  exact spinDirectionTo_target s _

theorem goToIndex_settled (s : State) (t : Int) (hs : Settled s) : Settled (goToIndex s t) := by
  obtain ⟨-, k2, -⟩ := goToIndex_spec s t hs
  obtain ⟨a1, a2, -⟩ := goToIndex_active s t hs
  obtain ⟨-, h0, h1⟩ := hs
  obtain ⟨c0, c1⟩ := clamp_range t (s.window.size - 1) (by omega)
  refine ⟨k2, ?_, ?_⟩
  · rw [a1]
    exact c0
  · rw [a1, a2]
    exact c1

theorem applyOp_settled (s : State) (op : Op) (hs : Settled s) : Settled (applyOp s op) := by
  cases op with
  | goToIndex i => exact goToIndex_settled s i hs
  | stepLeft => exact goToIndex_settled s _ hs
  | stepRight => exact goToIndex_settled s _ hs

theorem run_settled (ops : List Op) : ∀ s : State, Settled s → Settled (run s ops) := by
  induction ops with
  | nil => intro s hs; exact hs
  | cons op rest ih =>
    intro s hs
    exact ih _ (applyOp_settled s op hs)

/-- Induction over the physical steps of a settled request: a property of the
window that every in-range physical step in the direction of the request
preserves holds after the request. -/
theorem goToIndex_induct (P : Window → Prop) (s : State) (t : Int) (hs : Settled s)
    (h0 : P s.window)
    (hstep : ∀ w : Window, P w → w.size = s.window.size →
      w.visibleSlideCount = s.window.visibleSlideCount →
      0 ≤ w.activeSlideIndex → w.activeSlideIndex ≤ w.size - 1 →
      0 ≤ w.activeSlideIndex + stepDelta (spinDirectionTo s (clamp t 0 (s.window.size - 1))) →
      w.activeSlideIndex + stepDelta (spinDirectionTo s (clamp t 0 (s.window.size - 1))) ≤
        w.size - 1 →
      P (moveAndShift (spinDirectionTo s (clamp t 0 (s.window.size - 1))) w)) :
    P (goToIndex s t).window := by
  obtain ⟨k1, -, -⟩ := goToIndex_spec s t hs
  rw [k1]
  obtain ⟨-, ha0, ha1⟩ := hs
  obtain ⟨c0, c1⟩ := clamp_range t (s.window.size - 1) (by omega)
  have htar := spinDirectionTo_target s (clamp t 0 (s.window.size - 1))
  generalize spinDirectionTo s (clamp t 0 (s.window.size - 1)) = d at hstep htar ⊢
  generalize (clamp t 0 (s.window.size - 1) - s.window.activeSlideIndex).natAbs = k at htar ⊢
  generalize clamp t 0 (s.window.size - 1) = t' at c0 c1 htar
  have key : ∀ j : Nat, j ≤ k → P ((moveAndShift d)^[j] s.window) := by
    intro j
    induction j with
    | zero => intro _; exact h0
    | succ n ih =>
      intro hn
      rw [Function.iterate_succ_apply']
      obtain ⟨g1, g2, g3⟩ := moveAndShift_iterate_frame d n s.window
      have hnk : (n : Int) + 1 ≤ (k : Int) := by exact_mod_cast hn
      have hn0 : (0 : Int) ≤ (n : Int) := Int.natCast_nonneg n
      rcases stepDelta_cases d with ⟨-, h2⟩ | ⟨-, h2⟩
      · rw [h2] at htar g3
        apply hstep _ (ih (by omega)) g1 g2 <;> rw [g3] <;> (try rw [g1]) <;>
          (try rw [h2]) <;> omega
      · rw [h2] at htar g3
        apply hstep _ (ih (by omega)) g1 g2 <;> rw [g3] <;> (try rw [g1]) <;>
          (try rw [h2]) <;> omega
  exact key k (le_refl k)

/-! ## Robustness of the schedule -/

/-- A frame whose elapsed time is not above the fade duration changes nothing
while the spin can still animate: it only requests the next frame. -/
theorem frame_not_elapsed (x : State) (c : Spin) (hr : x.rAF = some c)
    (hcan : (c.transitionDirection = SlideDirection.LEFT ∧
        c.currentSlideIndex ≥ c.targetSlideIndex) ∨
      (¬ c.transitionDirection = SlideDirection.LEFT ∧
        c.currentSlideIndex ≤ c.targetSlideIndex)) :
    frame x false = x := by
  simp only [frame, hr, performAnimationStep]
  simp only [Bool.false_eq_true, if_false, decide_eq_true_eq]
  rw [if_pos hcan, ← hr]

theorem timer_skip_cons (x : State) (dl : Delayed) (rest : List Delayed)
    (hp : x.pendingDelayed = dl :: rest)
    (h0 : x.currentNumberOfSpins = 0) (hK : x.numberOfSpins > 1) :
    timer x =
      { x with
        pendingDelayed := rest
        currentNumberOfSpins := if x.window.size > MAX_RENDERED_SLIDES then 1 else 0 } := by
  simp only [timer, hp, resumeDelayedTransition]
  split
  · rw [checkSpinning_skip _ (by exact h0) (by exact hK)]
  · rw [← h0]

/-- The first frame of a multi-step spin and the delayed phase of its initial
transition commute: that delayed phase only increments the spin counter. -/
theorem first_frame_order (x : State) (c : Spin) (dl : Delayed)
    (hp : x.pendingDelayed = [dl]) (hr : x.rAF = some c)
    (h0 : x.currentNumberOfSpins = 0) (hK : x.numberOfSpins > 1) :
    timer (timer (frame x true)) = timer (frame (timer x) true) := by
  have hf := frame_fire x c hr
  have hfp : (frame x true).pendingDelayed =
      [dl, { direction := determineSlideDirection x c.targetSlideIndex
             previousSlide := x.window.activeSlideIndex
             nextSlide := c.currentSlideIndex }] := by
    rw [hf]
    simp [transitionToSlide, applyDelayedTransition, hp]
  have hf0 : (frame x true).currentNumberOfSpins = 0 := by
    rw [hf]
    simpa [transitionToSlide, applyDelayedTransition] using h0
  have hfK : (frame x true).numberOfSpins > 1 := by
    rw [hf]
    simpa [transitionToSlide, applyDelayedTransition] using hK
  rw [timer_skip_cons (frame x true) _ _ hfp hf0 hfK, timer_skip_cons x dl [] hp h0 hK]
  congr 1
  rw [hf, frame_fire _ c (by exact hr)]
  simp [transitionToSlide, applyDelayedTransition, hp, determineSlideDirection]

/-! ## Construction lemmas -/

theorem MAX_SLIDES_PER_SIDE_eq : MAX_SLIDES_PER_SIDE = 20 := by decide

theorem new_eq (n : Nat) (vc a0 : Int) (hn : 1 ≤ n) :
    Carousel.new n vc a0 =
      some
        { window := initializeCarousel (n : Int) (clamp vc 1 MAX_VISIBLE_SLIDES)
            (clamp a0 0 ((n : Int) - 1))
          spinDirection := none
          numberOfSpins := 0
          currentNumberOfSpins := 0
          rAF := none
          pendingDelayed := []
          transitionLog := [] } := by
  unfold Carousel.new
  rw [if_neg (by omega)]

theorem new_settled (n : Nat) (vc a0 : Int) (s : State) (h : Carousel.new n vc a0 = some s) :
    Settled s ∧ s.window.size = (n : Int) ∧ 1 ≤ n ∧
      s.window = initializeCarousel (n : Int) (clamp vc 1 MAX_VISIBLE_SLIDES)
        (clamp a0 0 ((n : Int) - 1)) := by
  have hn : 1 ≤ n := by
    rcases Nat.eq_zero_or_pos n with h0 | h0
    · simp [Carousel.new, h0] at h
    · exact h0
  rw [new_eq n vc a0 hn] at h
  injection h with h
  subst h
  obtain ⟨c0, c1⟩ := clamp_range a0 ((n : Int) - 1) (by omega)
  exact ⟨⟨⟨rfl, rfl⟩, c0, c1⟩, rfl, hn, rfl⟩

/-! ## Window lemmas -/

theorem handleDirection_width (w : Window) (d : SlideDirection) :
    renderedWidth (handleDirection w d) ≤ renderedWidth w := by
  unfold handleDirection renderedWidth
  split
  · cases d <;>
      simp [calculateIndicesForLeft, calculateIndicesForRight, calculateIndices,
        MAX_SLIDES_PER_SIDE, MAX_RENDERED_SLIDES] <;> omega
  · exact le_refl _

theorem shiftWindow_width (w : Window) (d : SlideDirection) :
    renderedWidth (shiftWindow w d) ≤ renderedWidth w := by
  have h := handleDirection_width (updateVisibleIndices w (stepDelta d)) d
  simpa [shiftWindow, renderedWidth, updateVisibleIndices] using h

theorem moveAndShift_width (d : SlideDirection) (w : Window) :
    renderedWidth (moveAndShift d w) ≤ renderedWidth w := by
  unfold moveAndShift
  simp only
  split
  · exact shiftWindow_width _ d
  · exact le_refl _

theorem goToIndex_width (s : State) (t : Int) (hs : Settled s) :
    renderedWidth (goToIndex s t).window ≤ renderedWidth s.window := by
  apply goToIndex_induct (fun w => renderedWidth w ≤ renderedWidth s.window) s t hs (le_refl _)
  intro w hw _ _ _ _ _ _
  exact le_trans (moveAndShift_width _ w) hw

theorem run_width (ops : List Op) :
    ∀ s : State, Settled s → renderedWidth (run s ops).window ≤ renderedWidth s.window := by
  induction ops with
  | nil => intro s _; exact le_refl _
  | cons op rest ih =>
    intro s hs
    have h1 : renderedWidth (applyOp s op).window ≤ renderedWidth s.window := by
      cases op with
      | goToIndex i => exact goToIndex_width s i hs
      | stepLeft => exact goToIndex_width s _ hs
      | stepRight => exact goToIndex_width s _ hs
    exact le_trans (ih _ (applyOp_settled s op hs)) h1

theorem initializeCarousel_width (n vc a : Int) :
    renderedWidth (initializeCarousel n vc a) ≤ 40 := by
  simp only [renderedWidth, initializeCarousel, clampMin, clampMax, MAX_SLIDES_PER_SIDE,
    MAX_RENDERED_SLIDES]
  split <;> omega

/-! ## Lemmas for the claims -/

theorem appendSlides_fresh (slides : List Int) :
    ∀ container : List Int, (∀ x ∈ slides, x ∉ container) → slides.Nodup →
      appendSlides container slides = container ++ slides := by
  induction slides with
  | nil => intro container _ _; simp [appendSlides]
  | cons x rest ih =>
    intro container hfresh hnd
    have hx : x ∉ container := hfresh x (List.mem_cons_self x rest)
    obtain ⟨hxr, hnd'⟩ := List.nodup_cons.mp hnd
    have hstep : appendSlides container (x :: rest) = appendSlides (container ++ [x]) rest := by
      simp [appendSlides, domAppend, List.erase_of_not_mem hx]
    rw [hstep, ih (container ++ [x]) ?_ hnd']
    · simp
    · intro y hy
      simp only [List.mem_append, List.mem_singleton, not_or]
      refine ⟨hfresh y (List.mem_cons_of_mem x hy), ?_⟩
      rintro rfl
      exact hxr hy

theorem jsSlice_nodup (len start stop : Int) : (jsSlice len start stop).Nodup := by
  unfold jsSlice
  apply List.Nodup.map _ (List.nodup_range _)
  intro i j hij
  simp only at hij
  omega

theorem initializeCarousel_container (n vc a : Int) (hn : 1 ≤ n) (ha0 : 0 ≤ a)
    (ha1 : a ≤ n - 1) :
    (initializeCarousel n vc a).container =
      (List.range (min (a + 20) (n - 1) + 1 - max 0 (a - 20)).toNat).map
        (fun (j : Nat) => max 0 (a - 20) + (j : Int)) := by
  simp only [initializeCarousel]
  rw [appendSlides_fresh _ [] (fun _ _ => List.not_mem_nil _) (jsSlice_nodup _ _ _)]
  simp only [List.nil_append, jsSlice, sliceBound, clampMin, clampMax, MAX_SLIDES_PER_SIDE_eq]
  have hk : (if max (a - 20) 0 < 0 then max (n + max (a - 20) 0) 0 else min (max (a - 20) 0) n) =
      max 0 (a - 20) := by
    split <;> omega
  have hf : (if min (a + 20) (if n < 20 then n else n - 1) + 1 < 0 then
        max (n + (min (a + 20) (if n < 20 then n else n - 1) + 1)) 0
      else min (min (a + 20) (if n < 20 then n else n - 1) + 1) n) =
      min (a + 20) (n - 1) + 1 := by
    split <;> split <;> omega
  rw [hk, hf]

/-- Induction over a sequence of settled operations: a property of the window
that every in-range physical step preserves holds after the sequence. -/
theorem run_induct (P : Window → Prop)
    (hstep : ∀ (d : SlideDirection) (w : Window), P w →
      0 ≤ w.activeSlideIndex → w.activeSlideIndex ≤ w.size - 1 →
      0 ≤ w.activeSlideIndex + stepDelta d → w.activeSlideIndex + stepDelta d ≤ w.size - 1 →
      P (moveAndShift d w))
    (ops : List Op) : ∀ s : State, Settled s → P s.window → P (run s ops).window := by
  induction ops with
  | nil => intro s _ h; exact h
  | cons op rest ih =>
    intro s hs h
    have h1 : P (applyOp s op).window := by
      cases op with
      | goToIndex i =>
        exact goToIndex_induct P s i hs h (fun w hw _ _ a b c d => hstep _ w hw a b c d)
      | stepLeft =>
        exact goToIndex_induct P s _ hs h (fun w hw _ _ a b c d => hstep _ w hw a b c d)
      | stepRight =>
        exact goToIndex_induct P s _ hs h (fun w hw _ _ a b c d => hstep _ w hw a b c d)
    exact ih _ (applyOp_settled s op hs) h1

theorem moveAndShift_small (d : SlideDirection) (w : Window)
    (h : ¬ w.size > MAX_RENDERED_SLIDES) :
    moveAndShift d w = { w with activeSlideIndex := w.activeSlideIndex + stepDelta d } := by
  unfold moveAndShift
  simp only
  rw [if_neg h]

theorem moveAndShift_visible (d : SlideDirection) (w : Window)
    (h : w.size > MAX_RENDERED_SLIDES) :
    (moveAndShift d w).headIndex.visible = max 0 (w.headIndex.visible + stepDelta d) ∧
      (moveAndShift d w).tailIndex.visible =
        min (w.size - 1) (w.tailIndex.visible + stepDelta d) := by
  unfold moveAndShift
  simp only
  rw [if_pos h]
  obtain ⟨-, -, -, h4, h5, -⟩ := handleDirection_frame
    (updateVisibleIndices { w with activeSlideIndex := w.activeSlideIndex + stepDelta d }
      (stepDelta d)) d
  simp only [shiftWindow, h4, h5]
  simp [updateVisibleIndices]

theorem initializeCarousel_visible (n vc a : Int) :
    VisibleFollowsActive (initializeCarousel n vc a) := by
  simp only [VisibleFollowsActive, initializeCarousel, clampMin, clampMax]
  omega

theorem run_frame (ops : List Op) (s : State) (hs : Settled s) :
    (run s ops).window.size = s.window.size ∧
      (run s ops).window.visibleSlideCount = s.window.visibleSlideCount := by
  apply run_induct
    (fun w => w.size = s.window.size ∧ w.visibleSlideCount = s.window.visibleSlideCount)
    _ ops s hs ⟨rfl, rfl⟩
  intro d w hw _ _ _ _
  obtain ⟨g1, g2, -⟩ := moveAndShift_frame d w
  exact ⟨by rw [g1, hw.1], by rw [g2, hw.2]⟩

theorem goToIndex_transitionLog (s : State) (t : Int) (hs : Settled s) :
    (goToIndex s t).transitionLog =
      s.transitionLog ++
        (if 2 ≤ (clamp t 0 (s.window.size - 1) - s.window.activeSlideIndex).natAbs then
          [s.window.activeSlideIndex +
            stepDelta (spinDirectionTo s (clamp t 0 (s.window.size - 1)))]
        else []) ++
        spinTargets s.window.activeSlideIndex
          (stepDelta (spinDirectionTo s (clamp t 0 (s.window.size - 1))))
          (clamp t 0 (s.window.size - 1) - s.window.activeSlideIndex).natAbs := by
  rcases Nat.lt_or_ge (clamp t 0 (s.window.size - 1) - s.window.activeSlideIndex).natAbs 1
    with h0 | h1
  · have hk : (clamp t 0 (s.window.size - 1) - s.window.activeSlideIndex).natAbs = 0 := by omega
    have hsame : clamp t 0 (s.window.size - 1) = s.window.activeSlideIndex := by omega
    rw [goToIndex_same s t hs hsame, hk]
    simp [spinTargets]
  · rcases Nat.lt_or_ge (clamp t 0 (s.window.size - 1) - s.window.activeSlideIndex).natAbs 2
      with h2 | h2
    · have hk : (clamp t 0 (s.window.size - 1) - s.window.activeSlideIndex).natAbs = 1 := by
        omega
      obtain ⟨-, -, k3, -⟩ := goToIndex_single s t hs hk
      have htar := spinDirectionTo_target s (clamp t 0 (s.window.size - 1))
      rw [hk] at htar
      rw [k3, hk]
      generalize stepDelta (spinDirectionTo s (clamp t 0 (s.window.size - 1))) = dl at htar ⊢
      have hdl : clamp t 0 (s.window.size - 1) = s.window.activeSlideIndex + dl := by
        rw [← htar]
        simp
      simp [spinTargets, List.range_succ, hdl]
    · obtain ⟨m, hm⟩ : ∃ m : Nat,
          (clamp t 0 (s.window.size - 1) - s.window.activeSlideIndex).natAbs = m + 2 :=
        ⟨_, (Nat.sub_add_cancel h2).symm⟩
      obtain ⟨-, -, k3, -⟩ := goToIndex_multi s t hs m hm
      rw [k3, hm, if_pos (by omega)]
      simp

theorem moveAndShift_iterate_shiftLog (d : SlideDirection) (k : Nat) (w : Window)
    (h : w.size > MAX_RENDERED_SLIDES) :
    ((moveAndShift d)^[k] w).shiftLog = w.shiftLog ++ List.replicate k (stepDelta d) := by
  induction k with
  | zero => simp
  | succ n ih =>
    rw [Function.iterate_succ_apply']
    obtain ⟨g1, -, -⟩ := moveAndShift_iterate_frame d n w
    have hbig : ((moveAndShift d)^[n] w).size > MAX_RENDERED_SLIDES := by
      rw [g1]
      exact h
    generalize (moveAndShift d)^[n] w = v at ih hbig
    have hone : (moveAndShift d v).shiftLog = v.shiftLog ++ [stepDelta d] := by
      unfold moveAndShift
      simp only
      rw [if_pos hbig]
      obtain ⟨-, -, -, -, -, h6⟩ := handleDirection_frame
        (updateVisibleIndices { v with activeSlideIndex := v.activeSlideIndex + stepDelta d }
          (stepDelta d)) d
      simp only [shiftWindow, h6]
      simp [updateVisibleIndices]
    rw [hone, ih, List.append_assoc, List.replicate_succ']

theorem jsSlice_length (len start stop : Int) :
    (jsSlice len start stop).length = (sliceBound len stop - sliceBound len start).toNat := by
  simp [jsSlice]

theorem handleDirection_rebalance (w : Window) (d : SlideDirection)
    (h : needsRebalance w d = true) :
    (handleDirection w d).rebalanceLog = w.rebalanceLog ++ [rebalanceIndices w d] ∧
      (handleDirection w d).headIndex.rendered = (rebalanceIndices w d).updatedHeadIndex ∧
      (handleDirection w d).tailIndex.rendered = (rebalanceIndices w d).updatedTailIndex := by
  unfold handleDirection rebalanceIndices
  rw [if_pos h]
  cases d <;> simp

theorem handleDirection_idle (w : Window) (d : SlideDirection)
    (h : ¬ needsRebalance w d = true) : handleDirection w d = w := by
  unfold handleDirection
  rw [if_neg h]

theorem needsRebalance_iff (w : Window) (d : SlideDirection) :
    needsRebalance w d = true ↔
      (d = SlideDirection.LEFT ∧ w.headIndex.visible - w.headIndex.rendered ≤ 3 ∧
          w.headIndex.rendered > 0) ∨
        (d = SlideDirection.RIGHT ∧ w.tailIndex.rendered - w.tailIndex.visible ≤ 3 ∧
          w.tailIndex.rendered < w.size - 1) := by
  simp [needsRebalance]

/-- Both counts of a rebalance, for a window that satisfies invariant 1 and
whose trailing side is at least `slidesToAddCount` deep. -/
theorem rebalanceIndices_lengths (w : Window) (d : SlideDirection) (hinv : Invariant1 w)
    (hc : 0 ≤ slidesToAddCount w (stepDelta d))
    (hdepth : slidesToAddCount w (stepDelta d) ≤ trailingDepth w d) :
    ((rebalanceIndices w d).slidesToRemove.length : Int) = slidesToAddCount w (stepDelta d) ∧
      ((rebalanceIndices w d).slidesToAdd.length : Int) =
        min (slidesToAddCount w (stepDelta d)) (roomToEdge w d) := by
  obtain ⟨h1, h2, h3, h4⟩ := hinv
  cases d
  · simp only [stepDelta, slidesToAddCount, trailingDepth, roomToEdge, if_true,
      MAX_SLIDES_PER_SIDE_eq] at hc hdepth ⊢
    simp only [rebalanceIndices, calculateIndicesForLeft, calculateIndices, if_true,
      MAX_SLIDES_PER_SIDE_eq, jsSlice_length, sliceBound]
    constructor
    · split <;> split <;> omega
    · split <;> split <;> omega
  · have hne : ¬ ((1 : Int) = -1) := by decide
    have hd : ¬ (SlideDirection.RIGHT = SlideDirection.LEFT) := by decide
    simp only [stepDelta, slidesToAddCount, trailingDepth, roomToEdge, hd, hne, if_false,
      MAX_SLIDES_PER_SIDE_eq] at hc hdepth ⊢
    simp only [rebalanceIndices, calculateIndicesForRight, calculateIndices, hd, hne, if_false,
      MAX_SLIDES_PER_SIDE_eq, jsSlice_length, sliceBound]
    constructor
    · split <;> split <;> omega
    · split <;> split <;> omega

/-- The count `slidesToAddCount` is what `#calculateIndices` moves the trailing
boundary by, and the approaching boundary is replenished to depth 20, clamped
to the sequence. -/
theorem calculateIndices_boundaries (w : Window) :
    (calculateIndices w 1).updatedHeadIndex = w.headIndex.rendered + slidesToAddCount w 1 ∧
      (calculateIndices w 1).updatedTailIndex =
        min (w.activeSlideIndex + 20) (w.size - 1) ∧
      (calculateIndices w (-1)).updatedTailIndex =
        w.tailIndex.rendered - slidesToAddCount w (-1) ∧
      (calculateIndices w (-1)).updatedHeadIndex = max 0 (w.activeSlideIndex - 20) := by
  have hne : ¬ ((1 : Int) = -1) := by decide
  simp only [calculateIndices, slidesToAddCount, hne, if_false, if_true, MAX_SLIDES_PER_SIDE_eq]
  refine ⟨trivial, ?_, trivial, ?_⟩ <;> omega

/-- While the active index lies in the rendered window, `slidesToAddCount` is
20 minus the distance from the active index to the near rendered boundary. -/
theorem slidesToAddCount_abs (w : Window) (hinv : Invariant1 w) :
    slidesToAddCount w (-1) = 20 - |w.activeSlideIndex - w.headIndex.rendered| ∧
      slidesToAddCount w 1 = 20 - |w.activeSlideIndex - w.tailIndex.rendered| := by
  obtain ⟨h1, h2, h3, h4⟩ := hinv
  have hne : ¬ ((1 : Int) = -1) := by decide
  simp only [slidesToAddCount, hne, if_false, if_true, MAX_SLIDES_PER_SIDE_eq]
  rw [abs_of_nonneg (by omega), abs_of_nonpos (by omega)]
  constructor <;> ring

/-! ## Lemmas on styles -/

theorem calculateBrightness_eq (vc r : Int) :
    calculateBrightness vc r = (0.7 - 0.1) * (((vc : ℚ) - (r : ℚ)) / (vc : ℚ)) + 0.1 := by
  unfold calculateBrightness MAX_BRIGHTNESS MIN_BRIGHTNESS
  push_cast
  ring

theorem removeZIndexIfLeft_other (isLeft : Bool) (sl : Int → Slide) (q p : Int) (h : p ≠ q) :
    removeZIndexIfLeft isLeft sl q p = sl p := by
  unfold removeZIndexIfLeft
  split
  · exact Function.update_noteq h _ _
  · rfl

theorem removeZIndexIfLeft_same (isLeft : Bool) (sl : Int → Slide) (q : Int) :
    removeZIndexIfLeft isLeft sl q q =
      (if isLeft = true then { (sl q) with zIndex := none } else sl q) := by
  unfold removeZIndexIfLeft
  split
  · exact Function.update_same _ _ _
  · rfl

theorem removeZIndexIfLeft_hidden (isLeft : Bool) (sl : Int → Slide) (q p : Int) :
    (removeZIndexIfLeft isLeft sl q p).hidden = (sl p).hidden := by
  by_cases h : p = q
  · subst h
    rw [removeZIndexIfLeft_same]
    split <;> rfl
  · rw [removeZIndexIfLeft_other _ _ _ _ h]

theorem applySlideTransitionLoop_cons (w depth : ℚ) (vcm : Int) (isLeft : Bool) (q : Int)
    (rest : List Int) (index : Int) (tx tz : ℚ) (cnt : Int) (sl : Int → Slide) :
    applySlideTransitionLoop w depth vcm isLeft (q :: rest) index tx tz cnt sl =
      if cnt ≥ vcm then
        if (removeZIndexIfLeft isLeft sl q q).hidden then removeZIndexIfLeft isLeft sl q
        else
          applySlideTransitionLoop w depth vcm isLeft rest (index + 1) tx tz cnt
            (Function.update (removeZIndexIfLeft isLeft sl q) q
              (hideSlide (removeZIndexIfLeft isLeft sl q q)))
      else
        applySlideTransitionLoop w depth vcm isLeft rest (index + 1) (tx + w) (tz + depth)
          (cnt + 1)
          (Function.update (removeZIndexIfLeft isLeft sl q) q
            (showSlide (removeZIndexIfLeft isLeft sl q q)
              (if isLeft = true then -tx else tx) (-tz) (calculateBrightness vcm cnt)
              (if isLeft = true then none else some (MAX_ZINDEX - index)))) := by
  rfl

theorem applySlideTransitionLoop_frame (w depth : ℚ) (vcm : Int) (isLeft : Bool) (p : Int) :
    ∀ (l : List Int) (index : Int) (tx tz : ℚ) (cnt : Int) (sl : Int → Slide), p ∉ l →
      applySlideTransitionLoop w depth vcm isLeft l index tx tz cnt sl p = sl p := by
  intro l
  induction l with
  | nil => intro index tx tz cnt sl _; rfl
  | cons q rest ih =>
    intro index tx tz cnt sl hp
    have hpq : p ≠ q := fun h => hp (h ▸ List.mem_cons_self _ _)
    have hpr : p ∉ rest := fun h => hp (List.mem_cons_of_mem _ h)
    rw [applySlideTransitionLoop_cons]
    by_cases hc : cnt ≥ vcm
    · rw [if_pos hc]
      by_cases hh : (removeZIndexIfLeft isLeft sl q q).hidden = true
      · rw [if_pos hh, removeZIndexIfLeft_other _ _ _ _ hpq]
      · rw [if_neg hh, ih _ _ _ _ _ hpr, Function.update_noteq hpq,
          removeZIndexIfLeft_other _ _ _ _ hpq]
    · rw [if_neg hc, ih _ _ _ _ _ hpr, Function.update_noteq hpq,
        removeZIndexIfLeft_other _ _ _ _ hpq]

/-- The style given by the loop to the slide at rank `j` while ranks are below
the visible count. -/
theorem applySlideTransitionLoop_shown (w depth : ℚ) (vcm : Int) (isLeft : Bool) :
    ∀ (l : List Int) (index : Int) (tx tz : ℚ) (cnt : Int) (sl : Int → Slide) (j : Nat)
      (p : Int), l.Nodup → l[j]? = some p → cnt + (j : Int) < vcm →
      applySlideTransitionLoop w depth vcm isLeft l index tx tz cnt sl p =
        showSlide (if isLeft = true then { (sl p) with zIndex := none } else sl p)
          (if isLeft = true then -(tx + (j : ℚ) * w) else tx + (j : ℚ) * w)
          (-(tz + (j : ℚ) * depth)) (calculateBrightness vcm (cnt + (j : Int)))
          (if isLeft = true then none else some (MAX_ZINDEX - (index + (j : Int)))) := by
  intro l
  induction l with
  | nil => intro index tx tz cnt sl j p _ h _; simp at h
  | cons q rest ih =>
    intro index tx tz cnt sl j p hnd hj hlt
    obtain ⟨hq, hnd'⟩ := List.nodup_cons.mp hnd
    have hcnt : ¬ cnt ≥ vcm := by omega
    rw [applySlideTransitionLoop_cons, if_neg hcnt]
    cases j with
    | zero =>
      simp only [List.getElem?_cons_zero, Option.some.injEq] at hj
      subst hj
      rw [applySlideTransitionLoop_frame _ _ _ _ _ _ _ _ _ _ _ hq, Function.update_same,
        removeZIndexIfLeft_same]
      simp
    | succ n =>
      simp only [List.getElem?_cons_succ] at hj
      have hmem : p ∈ rest := List.getElem?_mem hj
      have hpq : p ≠ q := fun h => hq (h ▸ hmem)
      rw [ih _ _ _ _ _ n p hnd' hj (by push_cast at hlt ⊢; omega)]
      rw [Function.update_noteq hpq, removeZIndexIfLeft_other _ _ _ _ hpq]
      have e1 : tx + w + (n : ℚ) * w = tx + ((n + 1 : Nat) : ℚ) * w := by push_cast; ring
      have e2 : tz + depth + (n : ℚ) * depth = tz + ((n + 1 : Nat) : ℚ) * depth := by
        push_cast; ring
      have e3 : cnt + 1 + (n : Int) = cnt + ((n + 1 : Nat) : Int) := by push_cast; ring
      have e4 : index + 1 + (n : Int) = index + ((n + 1 : Nat) : Int) := by push_cast; ring
      rw [e1, e2, e3, e4]

theorem applySlideTransitionLoop_hidden (w depth : ℚ) (vcm : Int) (isLeft : Bool) :
    ∀ (l : List Int) (index : Int) (tx tz : ℚ) (cnt : Int) (sl : Int → Slide),
      l.Nodup → EarlyExitSound l sl (vcm - cnt) →
      ∀ (j : Nat) (p : Int), l[j]? = some p →
        ((applySlideTransitionLoop w depth vcm isLeft l index tx tz cnt sl p).hidden = true ↔
          vcm ≤ cnt + (j : Int)) := by
  intro l
  induction l with
  | nil => intro index tx tz cnt sl _ _ j p h; simp at h
  | cons q rest ih =>
    intro index tx tz cnt sl hnd hsound j p hj
    obtain ⟨hq, hnd'⟩ := List.nodup_cons.mp hnd
    rw [applySlideTransitionLoop_cons]
    by_cases hc : cnt ≥ vcm
    · rw [if_pos hc]
      have hall : vcm ≤ cnt + (j : Int) := by omega
      by_cases hh : (removeZIndexIfLeft isLeft sl q q).hidden = true
      · rw [if_pos hh, removeZIndexIfLeft_hidden]
        rw [removeZIndexIfLeft_hidden] at hh
        have := hsound 0 j q p (by simp) hj (Nat.zero_le _) (by push_cast; omega) hh
        simp [this, hall]
      · rw [if_neg hh]
        cases j with
        | zero =>
          simp only [List.getElem?_cons_zero, Option.some.injEq] at hj
          subst hj
          rw [applySlideTransitionLoop_frame _ _ _ _ _ _ _ _ _ _ _ hq, Function.update_same]
          simp only [hideSlide, Nat.cast_zero, add_zero, true_iff]
          exact hc
        | succ n =>
          simp only [List.getElem?_cons_succ] at hj
          have key := ih (index + 1) tx tz cnt
            (Function.update (removeZIndexIfLeft isLeft sl q) q
              (hideSlide (removeZIndexIfLeft isLeft sl q q))) hnd' ?_ n p hj
          · rw [key]
            push_cast
            omega
          · intro i j' p' q' hi hj' hij hk hp'
            have hp'q : p' ≠ q := fun h => hq (h ▸ List.getElem?_mem hi)
            have hq'q : q' ≠ q := fun h => hq (h ▸ List.getElem?_mem hj')
            rw [Function.update_noteq hp'q, removeZIndexIfLeft_hidden] at hp'
            rw [Function.update_noteq hq'q, removeZIndexIfLeft_hidden]
            exact hsound (i + 1) (j' + 1) p' q' (by simpa using hi) (by simpa using hj')
              (by omega) (by push_cast; omega) hp'
    · rw [if_neg hc]
      cases j with
      | zero =>
        simp only [List.getElem?_cons_zero, Option.some.injEq] at hj
        subst hj
        rw [applySlideTransitionLoop_frame _ _ _ _ _ _ _ _ _ _ _ hq, Function.update_same]
        simp only [showSlide, Nat.cast_zero, add_zero]
        constructor
        · intro h
          exact absurd h (by simp)
        · intro h
          omega
      | succ n =>
        simp only [List.getElem?_cons_succ] at hj
        have key := ih (index + 1) (tx + w) (tz + depth) (cnt + 1)
          (Function.update (removeZIndexIfLeft isLeft sl q) q
            (showSlide (removeZIndexIfLeft isLeft sl q q)
              (if isLeft = true then -tx else tx) (-tz) (calculateBrightness vcm cnt)
              (if isLeft = true then none else some (MAX_ZINDEX - index)))) hnd' ?_ n p hj
        · rw [key]
          push_cast
          omega
        · intro i j' p' q' hi hj' hij hk hp'
          have hp'q : p' ≠ q := fun h => hq (h ▸ List.getElem?_mem hi)
          have hq'q : q' ≠ q := fun h => hq (h ▸ List.getElem?_mem hj')
          rw [Function.update_noteq hp'q, removeZIndexIfLeft_hidden] at hp'
          rw [Function.update_noteq hq'q, removeZIndexIfLeft_hidden]
          exact hsound (i + 1) (j' + 1) p' q' (by simpa using hi) (by simpa using hj')
            (by omega) (by push_cast; omega) hp'

theorem jsSlice_getElem? (n s e : Int) (j : Nat) (hs : 0 ≤ s) (hsn : s ≤ n) (he : 0 ≤ e)
    (hen : e ≤ n) :
    (jsSlice n s e)[j]? = if s + (j : Int) < e then some (s + (j : Int)) else none := by
  have h1 : sliceBound n s = s := by
    unfold sliceBound
    rw [if_neg (by omega)]
    omega
  have h2 : sliceBound n e = e := by
    unfold sliceBound
    rw [if_neg (by omega)]
    omega
  simp only [jsSlice, h1, h2, List.getElem?_map]
  by_cases h : s + (j : Int) < e
  · rw [if_pos h, List.getElem?_range (by omega)]
    rfl
  · rw [if_neg h, List.getElem?_eq_none (by simp; omega)]
    rfl

theorem jsSlice_length_of_range (n s e : Int) (hs : 0 ≤ s) (hsn : s ≤ n) (he : 0 ≤ e)
    (hen : e ≤ n) : (jsSlice n s e).length = (e - s).toNat := by
  rw [jsSlice_length]
  unfold sliceBound
  rw [if_neg (by omega), if_neg (by omega)]
  congr 1
  omega

/-- Rank `j` of the left flank of position `a` is position `a - 1 - j`. -/
theorem leftFlank_getElem? (n a : Int) (j : Nat) (p : Int) (ha0 : 0 ≤ a) (han : a ≤ n) :
    (slidesToProcess (jsSlice n 0 a) SlideDirection.LEFT)[j]? = some p ↔
      p = a - 1 - (j : Int) ∧ 0 ≤ p := by
  unfold slidesToProcess
  rw [if_pos rfl]
  have hlen := jsSlice_length_of_range n 0 a (le_refl 0) (by omega) ha0 han
  by_cases hj : j < (jsSlice n 0 a).length
  · rw [List.getElem?_reverse hj, jsSlice_getElem? n 0 a _ (le_refl 0) (by omega) ha0 han]
    rw [hlen] at hj ⊢
    have hcast : (((a - 0).toNat - 1 - j : Nat) : Int) = a - 1 - (j : Int) := by omega
    rw [hcast, if_pos (by omega)]
    simp only [Option.some.injEq, zero_add]
    constructor
    · intro h
      omega
    · intro h
      omega
  · rw [List.getElem?_eq_none (by simp; omega)]
    rw [hlen] at hj
    constructor
    · intro h
      exact absurd h (by simp)
    · intro h
      omega

/-- Rank `j` of the right flank of position `a` is position `a + 1 + j`. -/
theorem rightFlank_getElem? (n a : Int) (j : Nat) (p : Int) (ha0 : -1 ≤ a) (han : a + 1 ≤ n) :
    (slidesToProcess (jsSlice n (a + 1) n) SlideDirection.RIGHT)[j]? = some p ↔
      p = a + 1 + (j : Int) ∧ p < n := by
  unfold slidesToProcess
  rw [if_neg (by decide)]
  rw [jsSlice_getElem? n (a + 1) n j (by omega) han (by omega) (le_refl n)]
  by_cases h : a + 1 + (j : Int) < n
  · rw [if_pos h]
    simp only [Option.some.injEq]
    constructor
    · intro h'
      omega
    · intro h'
      omega
  · rw [if_neg h]
    constructor
    · intro h'
      exact absurd h' (by simp)
    · intro h'
      omega


theorem slidesToProcess_nodup (n s e : Int) (d : SlideDirection) :
    (slidesToProcess (jsSlice n s e) d).Nodup := by
  unfold slidesToProcess
  split
  · exact List.nodup_reverse.mpr (jsSlice_nodup n s e)
  · exact jsSlice_nodup n s e

/-- Effect of restyling the left flank on the class `hidden`, when the early
exit is sound. -/
theorem transitionSlides_left_hidden (c : Styled) (ha0 : 0 ≤ c.state.window.activeSlideIndex)
    (han : c.state.window.activeSlideIndex ≤ c.state.window.size)
    (hpre : EarlyExitSound (slidesToProcess (getPreviousSlides c) SlideDirection.LEFT) c.slides
      c.state.window.visibleSlideCount) :
    (∀ p : Int, 0 ≤ p → p < c.state.window.activeSlideIndex →
      (((transitionSlides c SlideDirection.LEFT).slides p).hidden = true ↔
        p ≤ c.state.window.activeSlideIndex - 1 - c.state.window.visibleSlideCount)) ∧
      (∀ p : Int, c.state.window.activeSlideIndex ≤ p →
        (transitionSlides c SlideDirection.LEFT).slides p = c.slides p) := by
  constructor
  · intro p hp0 hpa
    have hj : (slidesToProcess (getPreviousSlides c) SlideDirection.LEFT)[
        (c.state.window.activeSlideIndex - 1 - p).toNat]? = some p := by
      unfold getPreviousSlides
      rw [leftFlank_getElem? _ _ _ _ ha0 han]
      omega
    have key := applySlideTransitionLoop_hidden (c.slideWidth * c.visibleSlideRatio)
      c.perspectiveDepth c.state.window.visibleSlideCount
      (decide (SlideDirection.LEFT = SlideDirection.LEFT))
      (slidesToProcess (getPreviousSlides c) SlideDirection.LEFT) 0
      (c.slideWidth * c.visibleSlideRatio) c.perspectiveDepth 0 c.slides
      (slidesToProcess_nodup _ _ _ _) (by simpa using hpre) _ p hj
    refine Iff.trans key ?_
    omega
  · intro p hp
    refine applySlideTransitionLoop_frame _ _ _ _ _ _ _ _ _ _ _ ?_
    intro hmem
    obtain ⟨j, hj⟩ := List.mem_iff_getElem?.mp hmem
    unfold getPreviousSlides at hj
    rw [leftFlank_getElem? _ _ _ _ ha0 han] at hj
    omega

/-- Effect of restyling the right flank on the class `hidden`, when the early
exit is sound. -/
theorem transitionSlides_right_hidden (c : Styled)
    (ha0 : -1 ≤ c.state.window.activeSlideIndex)
    (han : c.state.window.activeSlideIndex + 1 ≤ c.state.window.size)
    (hpre : EarlyExitSound (slidesToProcess (getNextSlides c) SlideDirection.RIGHT) c.slides
      c.state.window.visibleSlideCount) :
    (∀ p : Int, c.state.window.activeSlideIndex < p → p < c.state.window.size →
      (((transitionSlides c SlideDirection.RIGHT).slides p).hidden = true ↔
        c.state.window.activeSlideIndex + 1 + c.state.window.visibleSlideCount ≤ p)) ∧
      (∀ p : Int, p ≤ c.state.window.activeSlideIndex →
        (transitionSlides c SlideDirection.RIGHT).slides p = c.slides p) := by
  constructor
  · intro p hp0 hpa
    have hj : (slidesToProcess (getNextSlides c) SlideDirection.RIGHT)[
        (p - c.state.window.activeSlideIndex - 1).toNat]? = some p := by
      unfold getNextSlides
      rw [rightFlank_getElem? _ _ _ _ ha0 han]
      omega
    have key := applySlideTransitionLoop_hidden (c.slideWidth * c.visibleSlideRatio)
      c.perspectiveDepth c.state.window.visibleSlideCount
      (decide (SlideDirection.RIGHT = SlideDirection.LEFT))
      (slidesToProcess (getNextSlides c) SlideDirection.RIGHT) 0
      (c.slideWidth * c.visibleSlideRatio) c.perspectiveDepth 0 c.slides
      (slidesToProcess_nodup _ _ _ _) (by simpa using hpre) _ p hj
    refine Iff.trans key ?_
    omega
  · intro p hp
    refine applySlideTransitionLoop_frame _ _ _ _ _ _ _ _ _ _ _ ?_
    intro hmem
    obtain ⟨j, hj⟩ := List.mem_iff_getElem?.mp hmem
    unfold getNextSlides at hj
    rw [rightFlank_getElem? _ _ _ _ ha0 han] at hj
    omega

/-- On the left flank of `a` the early exit is sound when, among the positions
at rank `k` or more, the hidden ones are closed downward. -/
theorem earlyExitSound_left (n a k : Int) (sl : Int → Slide) (ha0 : 0 ≤ a) (han : a ≤ n)
    (h : ∀ p q : Int, 0 ≤ q → q ≤ p → p ≤ a - 1 - k → (sl p).hidden = true →
      (sl q).hidden = true) :
    EarlyExitSound (slidesToProcess (jsSlice n 0 a) SlideDirection.LEFT) sl k := by
  intro i j p q hi hj hij hk hp
  rw [leftFlank_getElem? _ _ _ _ ha0 han] at hi hj
  exact h p q (by omega) (by omega) (by omega) hp

/-- On the right flank of `a` the early exit is sound when, among the positions
at rank `k` or more, the hidden ones are closed upward. -/
theorem earlyExitSound_right (n a k : Int) (sl : Int → Slide) (ha0 : -1 ≤ a)
    (han : a + 1 ≤ n)
    (h : ∀ p q : Int, a + 1 + k ≤ p → p ≤ q → q < n → (sl p).hidden = true →
      (sl q).hidden = true) :
    EarlyExitSound (slidesToProcess (jsSlice n (a + 1) n) SlideDirection.RIGHT) sl k := by
  intro i j p q hi hj hij hk hp
  rw [rightFlank_getElem? _ _ _ _ ha0 han] at hi hj
  exact h p q (by omega) (by omega) (by omega) hp


/-! ## The styled scheduler and the state scheduler agree -/

theorem styled_transitionSlides_state (c : Styled) (d : SlideDirection) :
    (transitionSlides c d).state = c.state := by
  cases d <;> rfl

theorem styled_transitionToSlide_state (c : Styled) (cur target : Int) (large : Bool) :
    (Styled.transitionToSlide c cur target large).state =
      Carousel.transitionToSlide c.state cur target large := by
  unfold Styled.transitionToSlide
  simp only [styled_transitionSlides_state]

theorem styled_setActiveSlideIndex_state (c : Styled) (t : Int) :
    (Styled.setActiveSlideIndex c t).state = Carousel.setActiveSlideIndex c.state t := by
  unfold Styled.setActiveSlideIndex
  simp only
  split
  · rename_i h
    simp [Carousel.setActiveSlideIndex, h]
  · rfl

theorem styled_updateSlideStyles_state (c : Styled) (p q : Int) :
    (updateSlideStyles c p q).state = c.state := rfl

theorem styled_resumeDelayedTransition_state (c : Styled) (d : Delayed) :
    (Styled.resumeDelayedTransition c d).state = Carousel.resumeDelayedTransition c.state d := by
  unfold Styled.resumeDelayedTransition
  simp only [styled_updateSlideStyles_state, styled_transitionSlides_state]

theorem styled_performAnimationStep_state (c : Styled) (sp : Spin) (e : Bool) :
    (Styled.performAnimationStep c sp e).state = Carousel.performAnimationStep c.state sp e :=
  rfl

theorem styled_timer_state (c : Styled) : (Styled.timer c).state = Carousel.timer c.state := by
  unfold Styled.timer Carousel.timer
  cases h : c.state.pendingDelayed with
  | cons d rest =>
    simp only
    rw [styled_resumeDelayedTransition_state]
  | nil => rfl

theorem styled_frame_state (c : Styled) (e : Bool) :
    (Styled.frame c e).state = Carousel.frame c.state e := by
  unfold Styled.frame Carousel.frame
  cases h : c.state.rAF with
  | some sp => rfl
  | none => rfl

theorem styled_settle_state (fuel : Nat) :
    ∀ c : Styled, (Styled.settle fuel c).state = Carousel.settle fuel c.state := by
  induction fuel with
  | zero => intro c; rfl
  | succ n ih =>
    intro c
    unfold Styled.settle Carousel.settle
    cases hp : c.state.pendingDelayed with
    | cons d rest =>
      simp only
      rw [ih, styled_timer_state]
    | nil =>
      simp only
      cases hr : c.state.rAF with
      | some sp =>
        simp only
        rw [ih, styled_frame_state]
      | none => rfl

theorem styled_goToIndex_state (c : Styled) (t : Int) :
    (Styled.goToIndex c t).state = Carousel.goToIndex c.state t := by
  unfold Styled.goToIndex Carousel.goToIndex
  simp only [styled_settle_state, styled_setActiveSlideIndex_state]

theorem styled_settle_idle (fuel : Nat) (c : Styled) (h : Idle c.state) :
    Styled.settle fuel c = c := by
  obtain ⟨h1, h2⟩ := h
  cases fuel with
  | zero => rfl
  | succ n => simp [Styled.settle, h1, h2]

theorem styled_settle_pending (fuel : Nat) (c : Styled) (dl : Delayed) (rest : List Delayed)
    (h : c.state.pendingDelayed = dl :: rest) :
    Styled.settle (fuel + 1) c = Styled.settle fuel (Styled.timer c) := by
  simp [Styled.settle, h]

/-! ## Settled single steps and the hidden slides -/

theorem checkSpinning_preserves (s : State) :
    (checkSpinning s).rAF = s.rAF ∧ (checkSpinning s).pendingDelayed = s.pendingDelayed ∧
      (checkSpinning s).window.size = s.window.size ∧
      (checkSpinning s).window.visibleSlideCount = s.window.visibleSlideCount ∧
      (checkSpinning s).window.activeSlideIndex = s.window.activeSlideIndex := by
  by_cases h : s.currentNumberOfSpins + 1 = 1 ∧ s.numberOfSpins > 1
  · have hs : checkSpinning s = { s with currentNumberOfSpins := s.currentNumberOfSpins + 1 } := by
      unfold checkSpinning
      simp only [h, and_self, if_true]
    rw [hs]
    exact ⟨rfl, rfl, rfl, rfl, rfl⟩
  · cases hd : s.spinDirection with
    | none =>
      unfold checkSpinning
      simp only [h, if_false, hd]
      split <;> simp [updateVisibleIndices]
    | some d =>
      rw [checkSpinning_shift s d hd h]
      obtain ⟨h1, h2, h3⟩ := shiftWindow_frame s.window d
      exact ⟨rfl, rfl, h1, h2, h3⟩

theorem timer_preserves (s : State) :
    (timer s).rAF = s.rAF ∧ (timer s).pendingDelayed = s.pendingDelayed.tail ∧
      (timer s).window.size = s.window.size ∧
      (timer s).window.visibleSlideCount = s.window.visibleSlideCount ∧
      (timer s).window.activeSlideIndex = s.window.activeSlideIndex := by
  unfold timer
  cases hp : s.pendingDelayed with
  | nil => simp [hp]
  | cons d rest =>
    simp only [resumeDelayedTransition, List.tail_cons]
    split
    · obtain ⟨h1, h2, h3, h4, h5⟩ := checkSpinning_preserves
        { s with pendingDelayed := rest }
      exact ⟨h1, h2, h3, h4, h5⟩
    · exact ⟨rfl, rfl, rfl, rfl, rfl⟩

/-- The state after a request at distance one: one transition is applied and
its delayed phase joins the queue. -/
theorem setActiveSlideIndex_single (s : State) (t : Int)
    (h : (clamp t 0 (s.window.size - 1) - s.window.activeSlideIndex).natAbs = 1) :
    setActiveSlideIndex s t =
      { s with
        window := { s.window with activeSlideIndex := clamp t 0 (s.window.size - 1) }
        rAF := none, numberOfSpins := 1, currentNumberOfSpins := 0
        spinDirection := some (spinDirectionTo s (clamp t 0 (s.window.size - 1)))
        transitionLog := s.transitionLog ++ [clamp t 0 (s.window.size - 1)]
        pendingDelayed := s.pendingDelayed ++
          [{ direction := determineSlideDirection s (clamp t 0 (s.window.size - 1))
             previousSlide := s.window.activeSlideIndex
             nextSlide := clamp t 0 (s.window.size - 1) }] } := by
  generalize ht : clamp t 0 (s.window.size - 1) = t' at h
  have hne : ¬ s.window.activeSlideIndex = t' := by omega
  have hK : ((s.window.activeSlideIndex - t').natAbs : Int) = 1 := by omega
  simp [setActiveSlideIndex, clampSlideIndex, ht, hne, hK, spinDirectionTo, transitionToSlide,
    applyDelayedTransition, determineSlideDirection]

theorem transitionSlides_config (c : Styled) (d : SlideDirection) :
    (transitionSlides c d).slideWidth = c.slideWidth ∧
      (transitionSlides c d).visibleSlideRatio = c.visibleSlideRatio ∧
      (transitionSlides c d).perspectiveDepth = c.perspectiveDepth := by
  cases d <;> exact ⟨rfl, rfl, rfl⟩

theorem styled_setActiveSlideIndex_single (c : Styled) (t : Int)
    (h : (clamp t 0 (c.state.window.size - 1) - c.state.window.activeSlideIndex).natAbs = 1) :
    (Styled.setActiveSlideIndex c t).slides =
        (transitionSlides
          { c with state := (Carousel.transitionToSlide c.state c.state.window.activeSlideIndex
              (clamp t 0 (c.state.window.size - 1)) false) }
          (getTransitionDirections
            (determineSlideDirection c.state (clamp t 0 (c.state.window.size - 1)))).1).slides ∧
      (Styled.setActiveSlideIndex c t).slideWidth = c.slideWidth ∧
      (Styled.setActiveSlideIndex c t).visibleSlideRatio = c.visibleSlideRatio ∧
      (Styled.setActiveSlideIndex c t).perspectiveDepth = c.perspectiveDepth := by
  generalize ht : clamp t 0 (c.state.window.size - 1) = t' at h
  have hne : ¬ c.state.window.activeSlideIndex = t' := by omega
  have hK : ¬ ((c.state.window.activeSlideIndex - t').natAbs : Int) > 1 := by omega
  unfold Styled.setActiveSlideIndex
  simp only [clampSlideIndex, ht, hne, hK, if_false]
  unfold Styled.transitionToSlide
  exact ⟨rfl, (transitionSlides_config _ _).1, (transitionSlides_config _ _).2.1,
    (transitionSlides_config _ _).2.2⟩

theorem styled_timer_cons (c : Styled) (dl : Delayed) (rest : List Delayed)
    (h : c.state.pendingDelayed = dl :: rest) :
    Styled.timer c =
      Styled.resumeDelayedTransition
        { c with state := { c.state with pendingDelayed := rest } } dl := by
  unfold Styled.timer
  simp only [h]

theorem updateSlideStyles_hidden (c : Styled) (p q i : Int) (hi : i ≠ q) :
    ((updateSlideStyles c p q).slides i).hidden = (c.slides i).hidden := by
  unfold updateSlideStyles
  simp only
  by_cases hip : i = p
  · subst hip
    split <;> split <;> simp [Function.update, hi]
  · split <;> split <;> simp [Function.update, hi, hip]

/-- A request at distance one from a settled instance settles with the delayed
phase of its one transition. -/
theorem styled_single_step (c : Styled) (t : Int) (hs : Settled c.state)
    (h : (clamp t 0 (c.state.window.size - 1) - c.state.window.activeSlideIndex).natAbs = 1) :
    Styled.goToIndex c t = Styled.timer (Styled.setActiveSlideIndex c t) ∧
      (Styled.setActiveSlideIndex c t).state.pendingDelayed =
        [{ direction := determineSlideDirection c.state (clamp t 0 (c.state.window.size - 1))
           previousSlide := c.state.window.activeSlideIndex
           nextSlide := clamp t 0 (c.state.window.size - 1) }] ∧
      (Styled.setActiveSlideIndex c t).state.window =
        { c.state.window with activeSlideIndex := clamp t 0 (c.state.window.size - 1) } := by
  have hst := styled_setActiveSlideIndex_state c t
  rw [setActiveSlideIndex_single c.state t h] at hst
  have hp : (Styled.setActiveSlideIndex c t).state.pendingDelayed =
      [{ direction := determineSlideDirection c.state (clamp t 0 (c.state.window.size - 1))
         previousSlide := c.state.window.activeSlideIndex
         nextSlide := clamp t 0 (c.state.window.size - 1) }] := by
    rw [hst]
    simp [hs.1.2]
  refine ⟨?_, hp, ?_⟩
  · unfold Styled.goToIndex
    have hf : settleFuel (Styled.setActiveSlideIndex c t).state = 3 + 1 := by
      rw [hst]
      rfl
    simp only [hf]
    rw [styled_settle_pending 3 _ _ _ hp]
    apply styled_settle_idle
    rw [styled_timer_state]
    obtain ⟨h1, h2, -⟩ := timer_preserves (Styled.setActiveSlideIndex c t).state
    refine ⟨?_, ?_⟩
    · rw [h1, hst]
    · rw [h2, hp]
      rfl
  · rw [hst]

theorem immediateCall_frame (c : Styled) (t : Int) :
    (immediateCall c t).state.window.activeSlideIndex = t ∧
      (immediateCall c t).state.window.size = c.state.window.size ∧
      (immediateCall c t).state.window.visibleSlideCount = c.state.window.visibleSlideCount ∧
      (immediateCall c t).slides = c.slides := by
  simp [immediateCall, transitionToSlide, applyDelayedTransition]

/-- A settled step to the right keeps the hidden slides the outer part of each
flank, and both of its flank restyles exit early only before hidden slides. -/
theorem stepRight_hidden (c : Styled) (hs : Settled c.state)
    (hvc : 1 ≤ c.state.window.visibleSlideCount) (hinv : HiddenByDistance c)
    (hmove : c.state.window.activeSlideIndex + 1 ≤ c.state.window.size - 1) :
    FlankExitSound (immediateCall c (c.state.window.activeSlideIndex + 1)) SlideDirection.LEFT ∧
      (Styled.setActiveSlideIndex c (c.state.window.activeSlideIndex + 1)).slides =
        (transitionSlides (immediateCall c (c.state.window.activeSlideIndex + 1))
          SlideDirection.LEFT).slides ∧
      FlankExitSound (Styled.setActiveSlideIndex c (c.state.window.activeSlideIndex + 1))
        SlideDirection.RIGHT ∧
      Styled.stepRight c =
        Styled.timer (Styled.setActiveSlideIndex c (c.state.window.activeSlideIndex + 1)) ∧
      HiddenByDistance (Styled.stepRight c) := by
  obtain ⟨ha0, han⟩ := hs.2
  have hcl : clamp (c.state.window.activeSlideIndex + 1) 0 (c.state.window.size - 1) =
      c.state.window.activeSlideIndex + 1 := by
    unfold clamp
    omega
  have h1 : (clamp (c.state.window.activeSlideIndex + 1) 0 (c.state.window.size - 1) -
      c.state.window.activeSlideIndex).natAbs = 1 := by
    rw [hcl]
    omega
  obtain ⟨hgo, hpend, hwin⟩ := styled_single_step c _ hs h1
  obtain ⟨hsl, -⟩ := styled_setActiveSlideIndex_single c _ h1
  rw [hcl] at hpend hwin hsl
  have hdir : determineSlideDirection c.state (c.state.window.activeSlideIndex + 1) =
      SlideDirection.RIGHT := by
    simp [determineSlideDirection]
  rw [hdir] at hpend hsl
  obtain ⟨hx1a, hx1n, hx1k, hx1s⟩ := immediateCall_frame c (c.state.window.activeSlideIndex + 1)
  have hE1 : FlankExitSound (immediateCall c (c.state.window.activeSlideIndex + 1))
      SlideDirection.LEFT := by
    unfold FlankExitSound flankSlides getPreviousSlides
    simp only
    rw [hx1a, hx1n, hx1k, hx1s]
    apply earlyExitSound_left _ _ _ _ (by omega) (by omega)
    intro p q hq0 hqp hp hhid
    have hpd := (hinv p (by omega) (by omega) (by omega)).1 hhid
    exact (hinv q hq0 (by omega) (by omega)).2 (by omega)
  obtain ⟨hL1, hL2⟩ := transitionSlides_left_hidden
    (immediateCall c (c.state.window.activeSlideIndex + 1)) (by rw [hx1a]; omega)
    (by rw [hx1a, hx1n]; omega) hE1
  rw [hx1a, hx1k] at hL1
  rw [hx1a, hx1s] at hL2
  have hsl2 : (Styled.setActiveSlideIndex c (c.state.window.activeSlideIndex + 1)).slides =
      (transitionSlides (immediateCall c (c.state.window.activeSlideIndex + 1))
        SlideDirection.LEFT).slides := hsl
  have hE2 : FlankExitSound (Styled.setActiveSlideIndex c (c.state.window.activeSlideIndex + 1))
      SlideDirection.RIGHT := by
    unfold FlankExitSound flankSlides getNextSlides
    simp only
    rw [hwin]
    simp only
    apply earlyExitSound_right _ _ _ _ (by omega) (by omega)
    intro p q hp hpq hqn hhid
    rw [hsl2, hL2 q (by omega)]
    exact (hinv q (by omega) hqn (by omega)).2 (Or.inl (by omega))
  refine ⟨hE1, hsl2, hE2, hgo, ?_⟩
  have hact := goToIndex_active c.state (c.state.window.activeSlideIndex + 1) hs
  rw [← styled_goToIndex_state, hcl] at hact
  obtain ⟨hfa, hfn, hfk⟩ := hact
  have hfin : Styled.stepRight c =
      Styled.timer (Styled.setActiveSlideIndex c (c.state.window.activeSlideIndex + 1)) := hgo
  rw [styled_timer_cons _ _ _ hpend] at hfin
  obtain ⟨X, hX⟩ : ∃ X : Styled, X =
      { (Styled.setActiveSlideIndex c (c.state.window.activeSlideIndex + 1)) with
        state := { (Styled.setActiveSlideIndex c (c.state.window.activeSlideIndex + 1)).state with
          pendingDelayed := [] } } := ⟨_, rfl⟩
  rw [← hX] at hfin
  have hXw : X.state.window = { c.state.window with
      activeSlideIndex := c.state.window.activeSlideIndex + 1 } := by
    rw [hX]
    exact hwin
  have hXa : X.state.window.activeSlideIndex = c.state.window.activeSlideIndex + 1 := by
    rw [hXw]
  have hXn : X.state.window.size = c.state.window.size := by
    rw [hXw]
  have hXk : X.state.window.visibleSlideCount = c.state.window.visibleSlideCount := by
    rw [hXw]
  have hXs : X.slides = (transitionSlides (immediateCall c (c.state.window.activeSlideIndex + 1))
      SlideDirection.LEFT).slides := by
    rw [hX]
    exact hsl2
  obtain ⟨hR1, hR2⟩ := transitionSlides_right_hidden X
    (by rw [hXa]; omega) (by rw [hXa, hXn]; omega) (by rw [hX]; exact hE2)
  rw [hXa, hXn, hXk] at hR1
  rw [hXa, hXs] at hR2
  intro i hi0 hin hia
  have hfa2 : (Styled.stepRight c).state.window.activeSlideIndex =
      c.state.window.activeSlideIndex + 1 := hfa
  have hfn2 : (Styled.stepRight c).state.window.size = c.state.window.size := hfn
  have hfk2 : (Styled.stepRight c).state.window.visibleSlideCount =
      c.state.window.visibleSlideCount := hfk
  rw [hfa2] at hia
  rw [hfn2] at hin
  rw [hfa2, hfk2, hfin]
  have hupd : ∀ Y : Styled, ∀ dl : Delayed, (Styled.resumeDelayedTransition Y dl).slides =
      (updateSlideStyles (transitionSlides Y (getTransitionDirections dl.direction).2)
        dl.previousSlide dl.nextSlide).slides := fun _ _ => rfl
  rw [hupd, updateSlideStyles_hidden _ _ _ _ hia]
  by_cases hlt : i < c.state.window.activeSlideIndex + 1
  · have e1 := hR2 i (by omega)
    have e2 := hL1 i hi0 hlt
    simp only [getTransitionDirections, if_true]
    rw [e1, e2]
    omega
  · have e1 := hR1 i (by omega) hin
    simp only [getTransitionDirections, if_true]
    rw [e1]
    omega

/-- A settled step to the left keeps the hidden slides the outer part of each
flank, and both of its flank restyles exit early only before hidden slides. -/
theorem stepLeft_hidden (c : Styled) (hs : Settled c.state)
    (hvc : 1 ≤ c.state.window.visibleSlideCount) (hinv : HiddenByDistance c)
    (hmove : 0 ≤ c.state.window.activeSlideIndex - 1) :
    FlankExitSound (immediateCall c (c.state.window.activeSlideIndex - 1)) SlideDirection.RIGHT ∧
      (Styled.setActiveSlideIndex c (c.state.window.activeSlideIndex - 1)).slides =
        (transitionSlides (immediateCall c (c.state.window.activeSlideIndex - 1))
          SlideDirection.RIGHT).slides ∧
      FlankExitSound (Styled.setActiveSlideIndex c (c.state.window.activeSlideIndex - 1))
        SlideDirection.LEFT ∧
      Styled.stepLeft c =
        Styled.timer (Styled.setActiveSlideIndex c (c.state.window.activeSlideIndex - 1)) ∧
      HiddenByDistance (Styled.stepLeft c) := by
  obtain ⟨ha0, han⟩ := hs.2
  have hcl : clamp (c.state.window.activeSlideIndex - 1) 0 (c.state.window.size - 1) =
      c.state.window.activeSlideIndex - 1 := by
    unfold clamp
    omega
  have h1 : (clamp (c.state.window.activeSlideIndex - 1) 0 (c.state.window.size - 1) -
      c.state.window.activeSlideIndex).natAbs = 1 := by
    rw [hcl]
    omega
  obtain ⟨hgo, hpend, hwin⟩ := styled_single_step c _ hs h1
  obtain ⟨hsl, -⟩ := styled_setActiveSlideIndex_single c _ h1
  rw [hcl] at hpend hwin hsl
  have hdir : determineSlideDirection c.state (c.state.window.activeSlideIndex - 1) =
      SlideDirection.LEFT := by
    simp [determineSlideDirection]
  rw [hdir] at hpend hsl
  obtain ⟨hx1a, hx1n, hx1k, hx1s⟩ := immediateCall_frame c (c.state.window.activeSlideIndex - 1)
  have hE1 : FlankExitSound (immediateCall c (c.state.window.activeSlideIndex - 1))
      SlideDirection.RIGHT := by
    unfold FlankExitSound flankSlides getNextSlides
    simp only
    rw [hx1a, hx1n, hx1k, hx1s]
    apply earlyExitSound_right _ _ _ _ (by omega) (by omega)
    intro p q hp hpq hqn hhid
    have hpd := (hinv p (by omega) (by omega) (by omega)).1 hhid
    exact (hinv q (by omega) hqn (by omega)).2 (by omega)
  obtain ⟨hR1, hR2⟩ := transitionSlides_right_hidden
    (immediateCall c (c.state.window.activeSlideIndex - 1)) (by rw [hx1a]; omega)
    (by rw [hx1a, hx1n]; omega) hE1
  rw [hx1a, hx1n, hx1k] at hR1
  rw [hx1a, hx1s] at hR2
  have hsl2 : (Styled.setActiveSlideIndex c (c.state.window.activeSlideIndex - 1)).slides =
      (transitionSlides (immediateCall c (c.state.window.activeSlideIndex - 1))
        SlideDirection.RIGHT).slides := hsl
  have hE2 : FlankExitSound (Styled.setActiveSlideIndex c (c.state.window.activeSlideIndex - 1))
      SlideDirection.LEFT := by
    unfold FlankExitSound flankSlides getPreviousSlides
    simp only
    rw [hwin]
    simp only
    apply earlyExitSound_left _ _ _ _ (by omega) (by omega)
    intro p q hq0 hqp hp hhid
    rw [hsl2, hR2 q (by omega)]
    exact (hinv q hq0 (by omega) (by omega)).2 (Or.inr (by omega))
  refine ⟨hE1, hsl2, hE2, hgo, ?_⟩
  have hact := goToIndex_active c.state (c.state.window.activeSlideIndex - 1) hs
  rw [← styled_goToIndex_state, hcl] at hact
  obtain ⟨hfa, hfn, hfk⟩ := hact
  have hfin : Styled.stepLeft c =
      Styled.timer (Styled.setActiveSlideIndex c (c.state.window.activeSlideIndex - 1)) := hgo
  rw [styled_timer_cons _ _ _ hpend] at hfin
  obtain ⟨X, hX⟩ : ∃ X : Styled, X =
      { (Styled.setActiveSlideIndex c (c.state.window.activeSlideIndex - 1)) with
        state := { (Styled.setActiveSlideIndex c (c.state.window.activeSlideIndex - 1)).state with
          pendingDelayed := [] } } := ⟨_, rfl⟩
  rw [← hX] at hfin
  have hXw : X.state.window = { c.state.window with
      activeSlideIndex := c.state.window.activeSlideIndex - 1 } := by
    rw [hX]
    exact hwin
  have hXa : X.state.window.activeSlideIndex = c.state.window.activeSlideIndex - 1 := by
    rw [hXw]
  have hXn : X.state.window.size = c.state.window.size := by
    rw [hXw]
  have hXk : X.state.window.visibleSlideCount = c.state.window.visibleSlideCount := by
    rw [hXw]
  have hXs : X.slides = (transitionSlides (immediateCall c (c.state.window.activeSlideIndex - 1))
      SlideDirection.RIGHT).slides := by
    rw [hX]
    exact hsl2
  obtain ⟨hL1, hL2⟩ := transitionSlides_left_hidden X
    (by rw [hXa]; omega) (by rw [hXa, hXn]; omega) (by rw [hX]; exact hE2)
  rw [hXa, hXk] at hL1
  rw [hXa, hXs] at hL2
  intro i hi0 hin hia
  have hfa2 : (Styled.stepLeft c).state.window.activeSlideIndex =
      c.state.window.activeSlideIndex - 1 := hfa
  have hfn2 : (Styled.stepLeft c).state.window.size = c.state.window.size := hfn
  have hfk2 : (Styled.stepLeft c).state.window.visibleSlideCount =
      c.state.window.visibleSlideCount := hfk
  rw [hfa2] at hia
  rw [hfn2] at hin
  rw [hfa2, hfk2, hfin]
  have hupd : ∀ Y : Styled, ∀ dl : Delayed, (Styled.resumeDelayedTransition Y dl).slides =
      (updateSlideStyles (transitionSlides Y (getTransitionDirections dl.direction).2)
        dl.previousSlide dl.nextSlide).slides := fun _ _ => rfl
  rw [hupd, updateSlideStyles_hidden _ _ _ _ hia]
  by_cases hlt : c.state.window.activeSlideIndex - 1 < i
  · have e1 := hL2 i (by omega)
    have e2 := hR1 i hlt hin
    show (((transitionSlides X SlideDirection.LEFT).slides i).hidden = true ↔ _)
    rw [e1, e2]
    omega
  · have e1 := hL1 i hi0 (by omega)
    show (((transitionSlides X SlideDirection.LEFT).slides i).hidden = true ↔ _)
    rw [e1]
    omega

/-- The instance of the constructor just before its two flank restyles. -/
theorem styled_new_eq (n : Nat) (els : Int → Slide) (vc a0 : Int) (ratio dur persp w : ℚ)
    (hn : 1 ≤ n) :
    ∃ s c0, Carousel.new n vc a0 = some s ∧ c0.state = s ∧
      c0.slides = Function.update els s.window.activeSlideIndex
        { (els s.window.activeSlideIndex) with active := true } ∧
      c0.visibleSlideRatio = clampVisibleSlideRatio ratio ∧
      c0.perspective = persp ∧
      c0.perspectiveDepth = calculatePerspectiveDepth persp ∧
      Styled.new n els vc a0 ratio dur persp w =
        some (transitionSlides (transitionSlides c0 SlideDirection.LEFT) SlideDirection.RIGHT) := by
  obtain ⟨s, hs⟩ : ∃ s, Carousel.new n vc a0 = some s := ⟨_, new_eq n vc a0 hn⟩
  refine ⟨s,
    { state := s
      slides := Function.update els s.window.activeSlideIndex
        { (els s.window.activeSlideIndex) with active := true }
      visibleSlideRatio := clampVisibleSlideRatio ratio
      slideWidth := w
      perspective := persp
      perspectiveDepth := calculatePerspectiveDepth persp
      transitionDuration := dur
      slideTransitionDelay :=
        (calculateSlideTimeTransition dur (clampVisibleSlideRatio ratio)).1
      slideFadeDuration :=
        (calculateSlideTimeTransition dur (clampVisibleSlideRatio ratio)).2 },
    hs, rfl, rfl, rfl, rfl, rfl, ?_⟩
  simp only [Styled.new, hs]

theorem styled_step_edge (c : Styled) (t : Int) (hs : Settled c.state)
    (h : clamp t 0 (c.state.window.size - 1) = c.state.window.activeSlideIndex) :
    Styled.goToIndex c t = c := by
  have hset : Styled.setActiveSlideIndex c t = c := by
    unfold Styled.setActiveSlideIndex
    simp only [clampSlideIndex, h, if_true]
  unfold Styled.goToIndex
  simp only [hset]
  exact styled_settle_idle _ c hs.1

/-- The hidden slides are the outer part of each flank after construction from
slide elements none of which is hidden. -/
theorem styled_new_hidden (n : Nat) (els : Int → Slide) (vc a0 : Int) (ratio dur persp w : ℚ)
    (hn : 1 ≤ n) (hclean : ∀ i : Int, (els i).hidden = false) :
    ∃ c c0, Styled.new n els vc a0 ratio dur persp w = some c ∧
      c = transitionSlides (transitionSlides c0 SlideDirection.LEFT) SlideDirection.RIGHT ∧
      FlankExitSound c0 SlideDirection.LEFT ∧
      FlankExitSound (transitionSlides c0 SlideDirection.LEFT) SlideDirection.RIGHT ∧
      Settled c.state ∧ 1 ≤ c.state.window.visibleSlideCount ∧ HiddenByDistance c := by
  obtain ⟨s, c0, hs, hc0s, hsl, -, -, -, hnew⟩ := styled_new_eq n els vc a0 ratio dur persp w hn
  obtain ⟨hset, hsize, -, hwin⟩ := new_settled n vc a0 s hs
  have hk : 1 ≤ c0.state.window.visibleSlideCount := by
    rw [hc0s, hwin]
    simp only [initializeCarousel, clamp, MAX_VISIBLE_SLIDES]
    omega
  have hh : ∀ i : Int, (c0.slides i).hidden = false := by
    intro i
    rw [hsl]
    by_cases hi : i = s.window.activeSlideIndex
    · subst hi
      simp [Function.update, hclean]
    · simp [Function.update, hi, hclean]
  obtain ⟨ha0, han⟩ := hset.2
  rw [← hc0s] at ha0 han
  have hE1 : FlankExitSound c0 SlideDirection.LEFT := by
    intro i j p q _ _ _ _ hp
    rw [hh p] at hp
    exact absurd hp (by decide)
  obtain ⟨hL1, hL2⟩ := transitionSlides_left_hidden c0 ha0 (by omega) hE1
  have hst1 := styled_transitionSlides_state c0 SlideDirection.LEFT
  have hE2 : FlankExitSound (transitionSlides c0 SlideDirection.LEFT) SlideDirection.RIGHT := by
    unfold FlankExitSound flankSlides getNextSlides
    simp only
    rw [hst1]
    apply earlyExitSound_right _ _ _ _ (by omega) (by omega)
    intro p q hp _ _ hhid
    rw [hL2 p (by omega), hh p] at hhid
    exact absurd hhid (by decide)
  obtain ⟨hR1, hR2⟩ := transitionSlides_right_hidden (transitionSlides c0 SlideDirection.LEFT)
    (by rw [hst1]; omega) (by rw [hst1]; omega) hE2
  rw [hst1] at hR1 hR2
  have hst2 := styled_transitionSlides_state (transitionSlides c0 SlideDirection.LEFT)
    SlideDirection.RIGHT
  rw [hst1] at hst2
  refine ⟨_, c0, hnew, rfl, hE1, hE2, ?_, ?_, ?_⟩
  · rw [hst2, hc0s]
    exact hset
  · rw [hst2]
    exact hk
  · intro i hi0 hin hia
    rw [hst2] at hin hia ⊢
    by_cases hlt : i < c0.state.window.activeSlideIndex
    · rw [hR2 i (by omega), hL1 i hi0 hlt]
      omega
    · rw [hR1 i (by omega) hin]
      omega

/-- The facts that every settled single step keeps. -/
theorem styled_step_good (c : Styled) (d : SlideDirection) (hs : Settled c.state)
    (hvc : 1 ≤ c.state.window.visibleSlideCount) (hinv : HiddenByDistance c) :
    Settled (Styled.step c d).state ∧ 1 ≤ (Styled.step c d).state.window.visibleSlideCount ∧
      HiddenByDistance (Styled.step c d) := by
  obtain ⟨ha0, han⟩ := hs.2
  cases d with
  | LEFT =>
    have hst : (Styled.step c SlideDirection.LEFT).state =
        Carousel.goToIndex c.state (c.state.window.activeSlideIndex - 1) :=
      styled_goToIndex_state c _
    refine ⟨?_, ?_, ?_⟩
    · rw [hst]
      exact goToIndex_settled _ _ hs
    · rw [hst, (goToIndex_active _ _ hs).2.2]
      exact hvc
    · by_cases hm : 0 ≤ c.state.window.activeSlideIndex - 1
      · exact (stepLeft_hidden c hs hvc hinv hm).2.2.2.2
      · have he : Styled.step c SlideDirection.LEFT = c :=
          styled_step_edge c _ hs (by unfold clamp; omega)
        rw [he]
        exact hinv
  | RIGHT =>
    have hst : (Styled.step c SlideDirection.RIGHT).state =
        Carousel.goToIndex c.state (c.state.window.activeSlideIndex + 1) :=
      styled_goToIndex_state c _
    refine ⟨?_, ?_, ?_⟩
    · rw [hst]
      exact goToIndex_settled _ _ hs
    · rw [hst, (goToIndex_active _ _ hs).2.2]
      exact hvc
    · by_cases hm : c.state.window.activeSlideIndex + 1 ≤ c.state.window.size - 1
      · exact (stepRight_hidden c hs hvc hinv hm).2.2.2.2
      · have he : Styled.step c SlideDirection.RIGHT = c :=
          styled_step_edge c _ hs (by unfold clamp; omega)
        rw [he]
        exact hinv

theorem styled_steps_good (ds : List SlideDirection) :
    ∀ c : Styled, Settled c.state → 1 ≤ c.state.window.visibleSlideCount → HiddenByDistance c →
      Settled (Styled.steps c ds).state ∧ 1 ≤ (Styled.steps c ds).state.window.visibleSlideCount ∧
        HiddenByDistance (Styled.steps c ds) := by
  induction ds with
  | nil => exact fun c h1 h2 h3 => ⟨h1, h2, h3⟩
  | cons d ds ih =>
    intro c h1 h2 h3
    obtain ⟨g1, g2, g3⟩ := styled_step_good c d h1 h2 h3
    exact ih (Styled.step c d) g1 g2 g3

/-! ## Requests, the perspective setter and the configuration -/

theorem setPerspective_dropped (c : Styled) (p : ℚ) (h : c.state.rAF ≠ none) :
    Styled.setPerspective c p = c := by
  unfold Styled.setPerspective
  cases hr : c.state.rAF with
  | none => exact absurd hr h
  | some sp => simp

/-- A request at distance two or more leaves a frame requested and one delayed
phase more in the queue. -/
theorem setActiveSlideIndex_multi (s : State) (t : Int)
    (h : 2 ≤ (clamp t 0 (s.window.size - 1) - s.window.activeSlideIndex).natAbs) :
    (setActiveSlideIndex s t).rAF ≠ none ∧
      ∃ d, (setActiveSlideIndex s t).pendingDelayed = s.pendingDelayed ++ [d] := by
  generalize ht : clamp t 0 (s.window.size - 1) = t' at h
  have hne : ¬ s.window.activeSlideIndex = t' := by omega
  have hK : ((s.window.activeSlideIndex - t').natAbs : Int) > 1 := by omega
  unfold setActiveSlideIndex
  simp only [clampSlideIndex, ht, hne, if_false]
  rw [if_pos hK]
  refine ⟨?_, ?_⟩
  · simp [animateSlideTransition]
  · exact ⟨_, rfl⟩

/-- A request for another slide starts from the state without the frame that
was requested before. -/
theorem setActiveSlideIndex_cancels_frame (s : State) (t : Int)
    (hne : clamp t 0 (s.window.size - 1) ≠ s.window.activeSlideIndex) :
    setActiveSlideIndex s t = setActiveSlideIndex { s with rAF := none } t := by
  have h1 : ¬ s.window.activeSlideIndex = clamp t 0 (s.window.size - 1) := fun h => hne h.symm
  unfold setActiveSlideIndex
  simp only [clampSlideIndex, h1, if_false]

theorem setActiveSlideIndex_pending (s : State) (t : Int)
    (hne : clamp t 0 (s.window.size - 1) ≠ s.window.activeSlideIndex) :
    ∃ d, (setActiveSlideIndex s t).pendingDelayed = s.pendingDelayed ++ [d] := by
  by_cases h : 2 ≤ (clamp t 0 (s.window.size - 1) - s.window.activeSlideIndex).natAbs
  · exact (setActiveSlideIndex_multi s t h).2
  · have h1 : (clamp t 0 (s.window.size - 1) - s.window.activeSlideIndex).natAbs = 1 := by
      omega
    rw [setActiveSlideIndex_single s t h1]
    exact ⟨_, rfl⟩

theorem clampVisibleSlideRatio_range (v : ℚ) :
    0.7 ≤ clampVisibleSlideRatio v ∧ clampVisibleSlideRatio v ≤ 1 ∧
      (0.7 ≤ v → v ≤ 1 → clampVisibleSlideRatio v = v) := by
  unfold clampVisibleSlideRatio clampNumber
  refine ⟨?_, min_le_right _ _, ?_⟩
  · apply le_min
    · exact le_max_right _ _
    · norm_num
  · intro h1 h2
    rw [max_eq_left h1, min_eq_left h2]

/-! ## The perspective setter restyles the nearest slides -/

theorem sliceBound_range (len i : Int) (h : 0 ≤ len) :
    0 ≤ sliceBound len i ∧ sliceBound len i ≤ len := by
  unfold sliceBound
  split <;> omega

/-- Method `slice` applied to a run of consecutive positions gives a run of
consecutive positions. -/
theorem arraySlice_jsSlice (n s e start stop : Int) (hs : 0 ≤ s) (hse : s ≤ e) (hen : e ≤ n) :
    arraySlice (jsSlice n s e) start stop =
      jsSlice n (s + sliceBound (e - s) start) (s + sliceBound (e - s) stop) := by
  have hlen : ((jsSlice n s e).length : Int) = e - s := by
    rw [jsSlice_length_of_range n s e hs (by omega) (by omega) hen]
    omega
  obtain ⟨k0, k1⟩ := sliceBound_range (e - s) start (by omega)
  obtain ⟨f0, f1⟩ := sliceBound_range (e - s) stop (by omega)
  have hJ : jsSlice (e - s) start stop =
      (List.range (sliceBound (e - s) stop - sliceBound (e - s) start).toNat).map
        (fun (j : Nat) => sliceBound (e - s) start + (j : Int)) := rfl
  unfold arraySlice
  rw [hlen, hJ]
  generalize sliceBound (e - s) start = kb at k0 k1
  generalize sliceBound (e - s) stop = fb at f0 f1
  have hR : jsSlice n (s + kb) (s + fb) =
      (List.range (fb - kb).toNat).map (fun (j : Nat) => s + kb + (j : Int)) := by
    unfold jsSlice sliceBound
    have e1 : ¬ (s + kb < 0) := by omega
    have e2 : ¬ (s + fb < 0) := by omega
    simp only [e1, e2, if_false]
    have e3 : min (s + kb) n = s + kb := by omega
    have e4 : min (s + fb) n = s + fb := by omega
    rw [e3, e4]
    congr 2
    omega
  rw [hR, List.filterMap_map]
  apply List.filterMap_eq_map_iff_forall_eq_some.mpr
  intro j hj
  have hj2 : j < (fb - kb).toNat := List.mem_range.mp hj
  simp only [Function.comp]
  rw [jsSlice_getElem? n s e _ hs (by omega) (by omega) hen]
  have e5 : (((kb + (j : Int)).toNat : Nat) : Int) = kb + (j : Int) := by omega
  rw [e5, if_pos (by omega)]
  congr 1
  omega

theorem mem_jsSlice (n s e p : Int) (hs : 0 ≤ s) (hse : s ≤ e) (hen : e ≤ n) :
    p ∈ jsSlice n s e ↔ s ≤ p ∧ p < e := by
  rw [List.mem_iff_getElem?]
  constructor
  · rintro ⟨j, hj⟩
    rw [jsSlice_getElem? n s e j hs (by omega) (by omega) hen] at hj
    split at hj
    · simp only [Option.some.injEq] at hj
      omega
    · exact absurd hj (by simp)
  · rintro ⟨h1, h2⟩
    refine ⟨(p - s).toNat, ?_⟩
    rw [jsSlice_getElem? n s e _ hs (by omega) (by omega) hen]
    have e1 : (((p - s).toNat : Nat) : Int) = p - s := by omega
    rw [e1, if_pos (by omega)]
    congr 1
    omega

/-- A flank restyle leaves the slides outside the run it is given as they are. -/
theorem applySlideTransition_outside (c : Styled) (n s e i : Int) (d : SlideDirection)
    (hs : 0 ≤ s) (hse : s ≤ e) (hen : e ≤ n) (hi : ¬ (s ≤ i ∧ i < e)) :
    applySlideTransition c (jsSlice n s e) d i = c.slides i := by
  unfold applySlideTransition
  apply applySlideTransitionLoop_frame
  intro hmem
  apply hi
  rw [← mem_jsSlice n s e i hs hse hen]
  unfold slidesToProcess at hmem
  split at hmem
  · exact List.mem_reverse.mp hmem
  · exact hmem

/-- A right-flank restyle of a run no longer than the visible count shows every
slide of the run, the one at distance `r + 1` from the start with rank `r`. -/
theorem applySlideTransition_run_right (c : Styled) (n s e i : Int)
    (hs : 0 ≤ s) (hen : e ≤ n) (hvc : e - s ≤ c.state.window.visibleSlideCount)
    (h1 : s ≤ i) (h2 : i < e) :
    applySlideTransition c (jsSlice n s e) SlideDirection.RIGHT i =
      showSlide (c.slides i)
        (c.slideWidth * c.visibleSlideRatio * (((i - s + 1 : Int) : ℚ)))
        (-(c.perspectiveDepth * (((i - s + 1 : Int) : ℚ))))
        (calculateBrightness c.state.window.visibleSlideCount (i - s))
        (some (MAX_ZINDEX - (i - s))) := by
  have hj : (jsSlice n s e)[(i - s).toNat]? = some i := by
    rw [jsSlice_getElem? n s e _ hs (by omega) (by omega) hen]
    have e1 : (((i - s).toNat : Nat) : Int) = i - s := by omega
    rw [e1, if_pos (by omega)]
    congr 1
    omega
  have hd : ¬ (SlideDirection.RIGHT = SlideDirection.LEFT) := by decide
  have key := applySlideTransitionLoop_shown (c.slideWidth * c.visibleSlideRatio)
    c.perspectiveDepth c.state.window.visibleSlideCount false (jsSlice n s e) 0
    (c.slideWidth * c.visibleSlideRatio) c.perspectiveDepth 0 c.slides (i - s).toNat i
    (jsSlice_nodup n s e) hj (by omega)
  unfold applySlideTransition slidesToProcess
  simp only [hd, decide_False, if_false]
  rw [key]
  have e1 : (((i - s).toNat : Nat) : Int) = i - s := by omega
  have e2 : (((i - s).toNat : Nat) : ℚ) = ((i - s : Int) : ℚ) := by
    rw [← Int.cast_natCast, e1]
  simp only [Bool.false_eq_true, if_false, e1, e2, zero_add]
  congr 1
  · push_cast
    ring
  · push_cast
    ring

/-- A left-flank restyle of a run no longer than the visible count shows every
slide of the run, the one at distance `r + 1` from the end with rank `r`. -/
theorem applySlideTransition_run_left (c : Styled) (n s e i : Int)
    (hs : 0 ≤ s) (hen : e ≤ n) (hvc : e - s ≤ c.state.window.visibleSlideCount)
    (h1 : s ≤ i) (h2 : i < e) :
    applySlideTransition c (jsSlice n s e) SlideDirection.LEFT i =
      showSlide { (c.slides i) with zIndex := none }
        (-(c.slideWidth * c.visibleSlideRatio * (((e - i : Int) : ℚ))))
        (-(c.perspectiveDepth * (((e - i : Int) : ℚ))))
        (calculateBrightness c.state.window.visibleSlideCount (e - 1 - i))
        none := by
  have hlen := jsSlice_length_of_range n s e hs (by omega) (by omega) hen
  have hlt : (e - 1 - i).toNat < (jsSlice n s e).length := by
    rw [hlen]
    omega
  have hj : (jsSlice n s e).reverse[(e - 1 - i).toNat]? = some i := by
    rw [List.getElem?_reverse hlt, jsSlice_getElem? n s e _ hs (by omega) (by omega) hen, hlen]
    have e1 : ((((e - s).toNat - 1 - (e - 1 - i).toNat : Nat)) : Int) = i - s := by omega
    rw [e1, if_pos (by omega)]
    congr 1
    omega
  have key := applySlideTransitionLoop_shown (c.slideWidth * c.visibleSlideRatio)
    c.perspectiveDepth c.state.window.visibleSlideCount true (jsSlice n s e).reverse 0
    (c.slideWidth * c.visibleSlideRatio) c.perspectiveDepth 0 c.slides (e - 1 - i).toNat i
    (List.nodup_reverse.mpr (jsSlice_nodup n s e)) hj (by omega)
  unfold applySlideTransition slidesToProcess
  simp only [decide_True, if_true]
  rw [key]
  have e1 : (((e - 1 - i).toNat : Nat) : Int) = e - 1 - i := by omega
  have e2 : (((e - 1 - i).toNat : Nat) : ℚ) = ((e - 1 - i : Int) : ℚ) := by
    rw [← Int.cast_natCast, e1]
  simp only [if_true, e1, e2, zero_add]
  congr 1
  · push_cast
    ring
  · push_cast
    ring

/-- The styles after the perspective setter, when no frame is requested: the
slides at distance 1 to `visibleSlideCount` from the active one are shown again
with offsets computed from the new perspective, the left flank first; every
other slide keeps its styles. -/
theorem setPerspective_slides (c : Styled) (p : ℚ) (hr : c.state.rAF = none)
    (ha0 : 0 ≤ c.state.window.activeSlideIndex)
    (han : c.state.window.activeSlideIndex ≤ c.state.window.size - 1)
    (hvc : 1 ≤ c.state.window.visibleSlideCount) (i : Int) :
    (0 ≤ i → 1 ≤ c.state.window.activeSlideIndex - i →
      c.state.window.activeSlideIndex - i ≤ c.state.window.visibleSlideCount →
      (Styled.setPerspective c p).slides i =
        showSlide { (c.slides i) with zIndex := none }
          (-(c.slideWidth * c.visibleSlideRatio *
            (((c.state.window.activeSlideIndex - i : Int) : ℚ))))
          (-(p * 0.1 * (((c.state.window.activeSlideIndex - i : Int) : ℚ))))
          (calculateBrightness c.state.window.visibleSlideCount
            (c.state.window.activeSlideIndex - i - 1))
          none) ∧
      (i < c.state.window.size → 1 ≤ i - c.state.window.activeSlideIndex →
        i - c.state.window.activeSlideIndex ≤ c.state.window.visibleSlideCount →
        (Styled.setPerspective c p).slides i =
          showSlide (c.slides i)
            (c.slideWidth * c.visibleSlideRatio *
              (((i - c.state.window.activeSlideIndex : Int) : ℚ)))
            (-(p * 0.1 * (((i - c.state.window.activeSlideIndex : Int) : ℚ))))
            (calculateBrightness c.state.window.visibleSlideCount
              (i - c.state.window.activeSlideIndex - 1))
            (some (MAX_ZINDEX - (i - c.state.window.activeSlideIndex - 1)))) ∧
      (¬ (0 ≤ i ∧ 1 ≤ c.state.window.activeSlideIndex - i ∧
          c.state.window.activeSlideIndex - i ≤ c.state.window.visibleSlideCount) →
        ¬ (i < c.state.window.size ∧ 1 ≤ i - c.state.window.activeSlideIndex ∧
          i - c.state.window.activeSlideIndex ≤ c.state.window.visibleSlideCount) →
        (Styled.setPerspective c p).slides i = c.slides i) := by
  obtain ⟨n, hn⟩ : ∃ n, n = c.state.window.size := ⟨_, rfl⟩
  obtain ⟨a, hA⟩ : ∃ a, a = c.state.window.activeSlideIndex := ⟨_, rfl⟩
  obtain ⟨k, hk⟩ : ∃ k, k = c.state.window.visibleSlideCount := ⟨_, rfl⟩
  rw [← hn, ← hA, ← hk]
  rw [← hA] at ha0 han
  rw [← hn] at han
  rw [← hk] at hvc
  have hlenL : ((jsSlice n 0 a).length : Int) = a := by
    rw [jsSlice_length_of_range n 0 a (le_refl 0) (by omega) ha0 (by omega)]
    omega
  have hL : arraySlice (jsSlice n 0 a) (-k) ((jsSlice n 0 a).length : Int) =
      jsSlice n (max (a - k) 0) a := by
    rw [arraySlice_jsSlice n 0 a _ _ (le_refl 0) ha0 (by omega), hlenL]
    unfold sliceBound
    simp only [sub_zero, zero_add]
    rw [if_pos (by omega), if_neg (by omega), min_self]
    congr 1
  have hR : arraySlice (jsSlice n (a + 1) n) 0 k = jsSlice n (a + 1) (a + 1 + min k (n - (a + 1))) := by
    rw [arraySlice_jsSlice n (a + 1) n _ _ (by omega) (by omega) (le_refl n)]
    unfold sliceBound
    rw [if_neg (by omega), if_neg (by omega)]
    congr 1
    omega
  have hS : (Styled.setPerspective c p).slides =
      applySlideTransition
        { c with
          perspective := p
          perspectiveDepth := calculatePerspectiveDepth p
          slides := applySlideTransition
            { c with perspective := p, perspectiveDepth := calculatePerspectiveDepth p }
            (jsSlice n (max (a - k) 0) a) SlideDirection.LEFT }
        (jsSlice n (a + 1) (a + 1 + min k (n - (a + 1)))) SlideDirection.RIGHT := by
    unfold Styled.setPerspective
    rw [if_neg (by simp [hr])]
    simp only [getPreviousSlides, getNextSlides]
    rw [← hn, ← hA, ← hk, hL, hR]
  rw [hS]
  refine ⟨?_, ?_, ?_⟩
  · intro h0 h1 h2
    rw [applySlideTransition_outside _ n _ _ i _ (by omega) (by omega) (by omega) (by omega)]
    simp only
    rw [applySlideTransition_run_left _ n _ _ i (by omega) (by omega)
      (by simp only; omega) (by omega) (by omega)]
    simp only [calculatePerspectiveDepth, ← hk]
    have e1 : a - 1 - i = a - i - 1 := by omega
    rw [e1]
  · intro h0 h1 h2
    rw [applySlideTransition_run_right _ n _ _ i (by omega) (by omega)
      (by simp only; omega) (by omega) (by omega)]
    simp only
    rw [applySlideTransition_outside _ n _ _ i _ (by omega) (by omega) (by omega) (by omega)]
    simp only [calculatePerspectiveDepth, ← hk]
    have e1 : i - (a + 1) + 1 = i - a := by omega
    have e2 : i - (a + 1) = i - a - 1 := by omega
    rw [e1, e2]
  · intro h1 h2
    rw [applySlideTransition_outside _ n _ _ i _ (by omega) (by omega) (by omega) (by omega)]
    simp only
    rw [applySlideTransition_outside _ n _ _ i _ (by omega) (by omega) (by omega) (by omega)]

/-! ## Claims -/

set_option maxRecDepth 100000 in
/-- C1, evaluated on the code: with 41 slides, `visibleSlideCount = 5` and initial
active index 0, twelve settled `stepRight()`, one `stepLeft()` and one more
`stepRight()` leave `headRendered = 21` above `activeIndex = 12`; invariant 1 is
broken and the active slide is no longer a child of the container. -/
theorem C1_active_slide_leaves_rendered_window :
    ∃ s, Carousel.new 41 5 0 = some s ∧
      (run s (List.replicate 12 Op.stepRight ++
        [Op.stepLeft, Op.stepRight])).window.activeSlideIndex = 12 ∧
      (run s (List.replicate 12 Op.stepRight ++
        [Op.stepLeft, Op.stepRight])).window.headIndex.rendered = 21 ∧
      (run s (List.replicate 12 Op.stepRight ++
        [Op.stepLeft, Op.stepRight])).window.tailIndex.rendered = 32 ∧
      ¬ Invariant1 (run s (List.replicate 12 Op.stepRight ++
        [Op.stepLeft, Op.stepRight])).window ∧
      12 ∉ (run s (List.replicate 12 Op.stepRight ++
        [Op.stepLeft, Op.stepRight])).window.container :=
  ⟨_, rfl, by decide, by decide, by decide, by decide, by decide⟩

set_option maxRecDepth 100000 in
/-- C2, evaluated on the code: with 41 slides, `visibleSlideCount = 5` and initial
active index 0, twelve settled `stepRight()` trigger a rebalance that moves
`headRendered` to 12, the active index: the left neighbours 7..11, styled as
on-screen, are detached. -/
theorem C2_visible_neighbours_detached :
    ∃ s, Carousel.new 41 5 0 = some s ∧
      (run s (List.replicate 12 Op.stepRight)).window.activeSlideIndex = 12 ∧
      (run s (List.replicate 12 Op.stepRight)).window.visibleSlideCount = 5 ∧
      (run s (List.replicate 12 Op.stepRight)).window.headIndex.rendered = 12 ∧
      (run s (List.replicate 12 Op.stepRight)).window.container =
        (List.range 21).map (fun (j : Nat) => (12 : Int) + j) ∧
      ¬ OnScreenAttached (run s (List.replicate 12 Op.stepRight)).window :=
  ⟨_, rfl, by decide, by decide, by decide, by decide,
    fun h => absurd (h 11 (by decide) (by decide) (by decide) (by decide)).1 (by decide)⟩

set_option maxRecDepth 100000 in
/-- C3, evaluated on the code: with 41 slides, `visibleSlideCount = 5` and initial
active index 0, twelve settled `stepRight()` followed by one `stepLeft()` give
`tailVisible = 16` above `tailRendered = 11`; invariant 2 is broken. -/
theorem C3_visible_tail_beyond_rendered_tail :
    ∃ s, Carousel.new 41 5 0 = some s ∧
      (run s (List.replicate 12 Op.stepRight ++ [Op.stepLeft])).window.activeSlideIndex = 11 ∧
      (run s (List.replicate 12 Op.stepRight ++ [Op.stepLeft])).window.tailIndex.visible = 16 ∧
      (run s (List.replicate 12 Op.stepRight ++ [Op.stepLeft])).window.tailIndex.rendered = 11 ∧
      ¬ Invariant2 (run s (List.replicate 12 Op.stepRight ++ [Op.stepLeft])).window :=
  ⟨_, rfl, by decide, by decide, by decide, by decide⟩

/-- C4: for at least 41 slides, `tailRendered - headRendered ≤ 40` holds after
construction and after every sequence of settled operations, and no window
shift (in either direction, from any window) increases
`tailRendered - headRendered`. -/
theorem C4_window_bound (n : Nat) (vc a0 : Int) (s : State) (_hn : 41 ≤ n)
    (hs : Carousel.new n vc a0 = some s) :
    renderedWidth s.window ≤ 40 ∧
      (∀ ops : List Op, renderedWidth (run s ops).window ≤ 40) ∧
      (∀ (w : Window) (d : SlideDirection),
        renderedWidth (shiftWindow w d) ≤ renderedWidth w) := by
  obtain ⟨hset, -, -, hw⟩ := new_settled n vc a0 s hs
  have h0 : renderedWidth s.window ≤ 40 := by
    rw [hw]
    exact initializeCarousel_width _ _ _
  exact ⟨h0, fun ops => le_trans (run_width ops s hset) h0, shiftWindow_width⟩

/-- C4 at 100 slides, `visibleSlideCount = 5`, initial active index 50. -/
theorem C4_window_bound_witness :
    ∃ s, 41 ≤ 100 ∧ Carousel.new 100 5 50 = some s ∧
      (renderedWidth s.window ≤ 40 ∧
        (∀ ops : List Op, renderedWidth (run s ops).window ≤ 40) ∧
        (∀ (w : Window) (d : SlideDirection),
          renderedWidth (shiftWindow w d) ≤ renderedWidth w)) :=
  ⟨_, by decide, rfl, C4_window_bound 100 5 50 _ (by decide) rfl⟩

/-- C5 as stated fails: a carousel of one slide is constructed with
`tailRendered = 1`, above `totalCount - 1 = 0`. -/
theorem C5_counterexample :
    ∃ s, Carousel.new 1 2 0 = some s ∧ s.window.tailIndex.rendered = 1 ∧
      ¬ Invariant1 s.window :=
  ⟨_, rfl, by decide, by decide⟩

/-- C5, amended: construction gives `0 ≤ headRendered ≤ activeIndex ≤
tailRendered` with `activeIndex ≤ totalCount - 1` for every `totalCount ≥ 1`;
invariant 1 holds for `totalCount ≥ 20`, and for `totalCount < 20` the
constructor sets `tailRendered = totalCount`. -/
theorem C5_construction_invariant (n : Nat) (vc a0 : Int) (hn : 1 ≤ n) :
    ∃ s, Carousel.new n vc a0 = some s ∧
      0 ≤ s.window.headIndex.rendered ∧
      s.window.headIndex.rendered ≤ s.window.activeSlideIndex ∧
      s.window.activeSlideIndex ≤ s.window.tailIndex.rendered ∧
      s.window.activeSlideIndex ≤ (n : Int) - 1 ∧
      (20 ≤ n → Invariant1 s.window) ∧
      (n < 20 → s.window.tailIndex.rendered = (n : Int)) := by
  refine ⟨_, new_eq n vc a0 hn, ?_⟩
  obtain ⟨c0, c1⟩ := clamp_range a0 ((n : Int) - 1) (by omega)
  generalize clamp a0 0 ((n : Int) - 1) = a at c0 c1
  simp only [initializeCarousel, Invariant1, clampMin, clampMax, MAX_SLIDES_PER_SIDE_eq]
  refine ⟨by omega, by omega, ?_, c1, ?_, ?_⟩
  · split <;> omega
  · intro h
    rw [if_neg (by omega)]
    omega
  · intro h
    rw [if_pos (by omega)]
    omega

/-- C5 (amended) at 20 slides, `visibleSlideCount = 2`, initial active index 0. -/
theorem C5_construction_invariant_witness :
    1 ≤ 20 ∧ ∃ s, Carousel.new 20 2 0 = some s ∧
      0 ≤ s.window.headIndex.rendered ∧
      s.window.headIndex.rendered ≤ s.window.activeSlideIndex ∧
      s.window.activeSlideIndex ≤ s.window.tailIndex.rendered ∧
      s.window.activeSlideIndex ≤ ((20 : Nat) : Int) - 1 ∧
      (20 ≤ 20 → Invariant1 s.window) ∧
      (20 < 20 → s.window.tailIndex.rendered = ((20 : Nat) : Int)) :=
  ⟨by decide, C5_construction_invariant 20 2 0 (by decide)⟩

set_option maxRecDepth 100000 in
/-- C6, evaluated on the code: with 30 slides, `visibleSlideCount = 5` and initial
active index 0 the constructor renders the window `[0, 20]` and attaches the
slides 0..20 only, not `[0, 29]`. The window shift is gated by more than 40
slides, so slides 21..29 are never attached: after the settled `goToIndex(25)`
the active index is 25, the window is still `[0, 20]`, and slide 25 is not a
child of the container. -/
theorem C6_small_sequence_not_rendered_whole :
    ∃ s, Carousel.new 30 5 0 = some s ∧ s.window.headIndex.rendered = 0 ∧
      s.window.tailIndex.rendered = 20 ∧
      s.window.container = (List.range 21).map (fun (j : Nat) => (j : Int)) ∧
      ¬ (s.window.headIndex.rendered = 0 ∧ s.window.tailIndex.rendered = 30 - 1) ∧
      (goToIndex s 25).window.activeSlideIndex = 25 ∧
      Idle (goToIndex s 25) ∧
      (goToIndex s 25).window.headIndex.rendered = 0 ∧
      (goToIndex s 25).window.tailIndex.rendered = 20 ∧
      (goToIndex s 25).window.container = (List.range 21).map (fun (j : Nat) => (j : Int)) ∧
      (25 : Int) ∉ (goToIndex s 25).window.container :=
  ⟨_, rfl, by decide, by decide, by decide, by decide, by decide, by decide, by decide,
    by decide, by decide, by decide⟩

set_option maxRecDepth 100000 in
/-- C7 as stated fails on its own witness: with 20 slides, active index 10 and
`visibleSlideCount = 5` the tracked visible window is `[5, 15]` after
construction and still `[5, 15]` after the settled `goToIndex(15)`, the active
index being 15. It also fails with 41 slides from active index 0: one
`stepRight()` gives `headVisible = 1`, not `max(0, 1 - 5) = 0`. -/
theorem C7_counterexample :
    (∃ s, Carousel.new 20 5 10 = some s ∧
      s.window.headIndex.visible = 5 ∧ s.window.tailIndex.visible = 15 ∧
      (goToIndex s 15).window.activeSlideIndex = 15 ∧
      (goToIndex s 15).window.headIndex.visible = 5 ∧
      (goToIndex s 15).window.tailIndex.visible = 15 ∧
      ¬ VisibleFollowsActive (goToIndex s 15).window) ∧
    (∃ s, Carousel.new 41 5 0 = some s ∧
      (stepRight s).window.activeSlideIndex = 1 ∧
      (stepRight s).window.headIndex.visible = 1 ∧
      ¬ VisibleFollowsActive (stepRight s).window) :=
  ⟨⟨_, rfl, by decide, by decide, by decide, by decide, by decide, by decide⟩,
    ⟨_, rfl, by decide, by decide, by decide⟩⟩

/-- C7, amended: right after construction `headVisible = max(0, a - visibleCount)`
and `tailVisible = min(totalCount - 1, a + visibleCount)`. With at most 40
slides the tracked bounds keep their construction values after every settled
operation. With at least 41 slides, from a settled reachable state where the
two equalities hold, a settled `goToIndex` re-establishes them when it moves
right from an active index `a ≥ visibleCount`, or left from an active index with
`a + visibleCount ≤ totalCount - 1`. -/
theorem C7_visible_window (n : Nat) (vc a0 : Int) (hn : 1 ≤ n) :
    ∃ s, Carousel.new n vc a0 = some s ∧
      VisibleFollowsActive s.window ∧
      (n ≤ 40 → ∀ ops : List Op,
        (run s ops).window.headIndex.visible = s.window.headIndex.visible ∧
          (run s ops).window.tailIndex.visible = s.window.tailIndex.visible) ∧
      (41 ≤ n → ∀ (ops : List Op) (t : Int),
        VisibleFollowsActive (run s ops).window →
        ((run s ops).window.activeSlideIndex ≤ clamp t 0 ((n : Int) - 1) →
          (run s ops).window.visibleSlideCount ≤ (run s ops).window.activeSlideIndex →
          VisibleFollowsActive (goToIndex (run s ops) t).window) ∧
        (clamp t 0 ((n : Int) - 1) ≤ (run s ops).window.activeSlideIndex →
          (run s ops).window.activeSlideIndex + (run s ops).window.visibleSlideCount ≤
            (n : Int) - 1 →
          VisibleFollowsActive (goToIndex (run s ops) t).window)) := by
  obtain ⟨s, hs⟩ : ∃ s, Carousel.new n vc a0 = some s := ⟨_, new_eq n vc a0 hn⟩
  obtain ⟨hset, hsize, -, hw⟩ := new_settled n vc a0 s hs
  refine ⟨s, hs, ?_, ?_, ?_⟩
  · rw [hw]
    exact initializeCarousel_visible _ _ _
  · intro h40 ops
    refine (run_induct
      (fun w => w.size = s.window.size ∧
        w.headIndex.visible = s.window.headIndex.visible ∧
        w.tailIndex.visible = s.window.tailIndex.visible) ?_ ops s hset ⟨rfl, rfl, rfl⟩).2
    intro d w hP _ _ _ _
    have hsmall : ¬ w.size > MAX_RENDERED_SLIDES := by
      rw [hP.1, hsize]
      simp only [MAX_RENDERED_SLIDES, gt_iff_lt, not_lt]
      omega
    rw [moveAndShift_small d w hsmall]
    exact hP
  · intro h41 ops t hv
    have hr := run_settled ops s hset
    obtain ⟨hrs, -⟩ := run_frame ops s hset
    rw [hsize] at hrs
    generalize run s ops = r at hv hr hrs
    have hbig : ∀ w : Window, w.size = r.window.size → w.size > MAX_RENDERED_SLIDES := by
      intro w hw
      rw [hw, hrs]
      simp only [MAX_RENDERED_SLIDES, gt_iff_lt]
      omega
    rw [← hrs]
    constructor
    · intro hdir hvc
      have hd : spinDirectionTo r (clamp t 0 (r.window.size - 1)) = SlideDirection.RIGHT := by
        unfold spinDirectionTo
        rw [if_neg (by omega)]
      refine (goToIndex_induct
        (fun w => VisibleFollowsActive w ∧ w.visibleSlideCount ≤ w.activeSlideIndex)
        r t hr ⟨hv, hvc⟩ ?_).1
      intro w hP hws hwv _ _ _ h1
      rw [hd] at h1 ⊢
      obtain ⟨g1, g2, g3⟩ := moveAndShift_frame SlideDirection.RIGHT w
      obtain ⟨v1, v2⟩ := moveAndShift_visible SlideDirection.RIGHT w (hbig w hws)
      have hdelta : stepDelta SlideDirection.RIGHT = 1 := by decide
      rw [hdelta] at g3 v1 v2 h1
      obtain ⟨⟨p1, p2⟩, p3⟩ := hP
      refine ⟨⟨?_, ?_⟩, ?_⟩
      · rw [v1, g2, g3, p1]
        omega
      · rw [v2, g1, g2, g3, p2]
        omega
      · rw [g2, g3]
        omega
    · intro hdir hvc
      rcases eq_or_lt_of_le hdir with heq | hlt
      · rw [goToIndex_same r t hr heq]
        exact hv
      · have hd : spinDirectionTo r (clamp t 0 (r.window.size - 1)) = SlideDirection.LEFT := by
          unfold spinDirectionTo
          rw [if_pos hlt]
        refine (goToIndex_induct
          (fun w => VisibleFollowsActive w ∧
            w.activeSlideIndex + w.visibleSlideCount ≤ w.size - 1)
          r t hr ⟨hv, hvc⟩ ?_).1
        intro w hP hws hwv _ _ h0 _
        rw [hd] at h0 ⊢
        obtain ⟨g1, g2, g3⟩ := moveAndShift_frame SlideDirection.LEFT w
        obtain ⟨v1, v2⟩ := moveAndShift_visible SlideDirection.LEFT w (hbig w hws)
        have hdelta : stepDelta SlideDirection.LEFT = -1 := by decide
        rw [hdelta] at g3 v1 v2 h0
        obtain ⟨⟨p1, p2⟩, p3⟩ := hP
        refine ⟨⟨?_, ?_⟩, ?_⟩
        · rw [v1, g2, g3, p1]
          omega
        · rw [v2, g1, g2, g3, p2]
          omega
        · rw [g1, g2, g3]
          omega

/-- C7 (amended) at 100 slides, `visibleSlideCount = 5`, initial active index 50. -/
theorem C7_visible_window_witness :
    1 ≤ 100 ∧ ∃ s, Carousel.new 100 5 50 = some s ∧
      VisibleFollowsActive s.window ∧
      (100 ≤ 40 → ∀ ops : List Op,
        (run s ops).window.headIndex.visible = s.window.headIndex.visible ∧
          (run s ops).window.tailIndex.visible = s.window.tailIndex.visible) ∧
      (41 ≤ 100 → ∀ (ops : List Op) (t : Int),
        VisibleFollowsActive (run s ops).window →
        ((run s ops).window.activeSlideIndex ≤ clamp t 0 (((100 : Nat) : Int) - 1) →
          (run s ops).window.visibleSlideCount ≤ (run s ops).window.activeSlideIndex →
          VisibleFollowsActive (goToIndex (run s ops) t).window) ∧
        (clamp t 0 (((100 : Nat) : Int) - 1) ≤ (run s ops).window.activeSlideIndex →
          (run s ops).window.activeSlideIndex + (run s ops).window.visibleSlideCount ≤
            ((100 : Nat) : Int) - 1 →
          VisibleFollowsActive (goToIndex (run s ops) t).window)) :=
  ⟨by decide, C7_visible_window 100 5 50 (by decide)⟩

set_option maxRecDepth 100000 in
/-- C8 as stated fails: with 100 slides and active index 50, the settled
`goToIndex(52)` (distance 2) applies `#transitionToSlide` three times, setting
the active index to 51, 51 and 52: the second application does not move it. -/
theorem C8_counterexample :
    ∃ s, Carousel.new 100 5 50 = some s ∧
      (goToIndex s 52).transitionLog = [51, 51, 52] ∧
      (goToIndex s 52).transitionLog.length ≠ (clamp 52 0 (s.window.size - 1) -
        s.window.activeSlideIndex).natAbs :=
  ⟨_, rfl, by decide, by decide⟩

/-- C8, amended: from a settled state with active index `a`, with
`k = |clamp(t, 0, totalCount - 1) - a|`, the settled request ends settled with
`activeIndex = clamp(t, 0, totalCount - 1)`. For `k ≤ 1` the single-step
transition is applied exactly `k` times. For `k ≥ 2` it is applied exactly
`k + 1` times: the first application moves the active index by one toward the
target, the second (made by the first animation frame) sets the same index
again, and each of the remaining `k - 1` moves it by one. For `k = 0` the
state is unchanged. -/
theorem C8_step_count (s : State) (t : Int) (hs : Settled s) :
    Settled (goToIndex s t) ∧
      (goToIndex s t).window.activeSlideIndex = clamp t 0 (s.window.size - 1) ∧
      (goToIndex s t).transitionLog =
        s.transitionLog ++
          (if 2 ≤ (clamp t 0 (s.window.size - 1) - s.window.activeSlideIndex).natAbs then
            [s.window.activeSlideIndex +
              stepDelta (spinDirectionTo s (clamp t 0 (s.window.size - 1)))]
          else []) ++
          spinTargets s.window.activeSlideIndex
            (stepDelta (spinDirectionTo s (clamp t 0 (s.window.size - 1))))
            (clamp t 0 (s.window.size - 1) - s.window.activeSlideIndex).natAbs ∧
      (goToIndex s t).transitionLog.length =
        s.transitionLog.length +
          (if 2 ≤ (clamp t 0 (s.window.size - 1) - s.window.activeSlideIndex).natAbs then
            (clamp t 0 (s.window.size - 1) - s.window.activeSlideIndex).natAbs + 1
          else (clamp t 0 (s.window.size - 1) - s.window.activeSlideIndex).natAbs) ∧
      ((clamp t 0 (s.window.size - 1) - s.window.activeSlideIndex).natAbs = 0 →
        goToIndex s t = s) := by
  have hlog := goToIndex_transitionLog s t hs
  refine ⟨goToIndex_settled s t hs, (goToIndex_active s t hs).1, hlog, ?_, ?_⟩
  · rw [hlog]
    simp only [List.length_append, spinTargets, List.length_map, List.length_range]
    split
    · simp
      omega
    · simp
  · intro hk
    exact goToIndex_same s t hs (by omega)

/-- C8 (amended) at the state constructed for 100 slides with active index 50,
for the target 52. -/
theorem C8_step_count_witness :
    ∃ s, Carousel.new 100 5 50 = some s ∧ Settled s ∧
      (Settled (goToIndex s 52) ∧
        (goToIndex s 52).window.activeSlideIndex = clamp 52 0 (s.window.size - 1) ∧
        (goToIndex s 52).transitionLog =
          s.transitionLog ++
            (if 2 ≤ (clamp 52 0 (s.window.size - 1) - s.window.activeSlideIndex).natAbs then
              [s.window.activeSlideIndex +
                stepDelta (spinDirectionTo s (clamp 52 0 (s.window.size - 1)))]
            else []) ++
            spinTargets s.window.activeSlideIndex
              (stepDelta (spinDirectionTo s (clamp 52 0 (s.window.size - 1))))
              (clamp 52 0 (s.window.size - 1) - s.window.activeSlideIndex).natAbs ∧
        (goToIndex s 52).transitionLog.length =
          s.transitionLog.length +
            (if 2 ≤ (clamp 52 0 (s.window.size - 1) - s.window.activeSlideIndex).natAbs then
              (clamp 52 0 (s.window.size - 1) - s.window.activeSlideIndex).natAbs + 1
            else (clamp 52 0 (s.window.size - 1) - s.window.activeSlideIndex).natAbs) ∧
        ((clamp 52 0 (s.window.size - 1) - s.window.activeSlideIndex).natAbs = 0 →
          goToIndex s 52 = s)) :=
  ⟨_, rfl, ⟨⟨rfl, rfl⟩, by decide, by decide⟩,
    C8_step_count _ 52 ⟨⟨rfl, rfl⟩, by decide, by decide⟩⟩

set_option maxRecDepth 100000 in
/-- C9 as stated fails. With 100 slides and active index 50, `spinRight()` moves
the active index to 51 and leaves its delayed phase pending; `goToIndex(55)`
requested before that phase has run is a right spin of 4 steps. When everything
has run the active index is 55, five physical steps from 50, the window shift
has been performed four times, and `#currentNumberOfSpins` is 1. -/
theorem C9_counterexample :
    ∃ s, Carousel.new 100 5 50 = some s ∧
      (spinRight s).window.activeSlideIndex = 51 ∧
      (spinRight s).pendingDelayed ≠ [] ∧
      (clamp 55 0 ((spinRight s).window.size - 1) -
        (spinRight s).window.activeSlideIndex).natAbs = 4 ∧
      (goToIndex (spinRight s) 55).window.activeSlideIndex = 55 ∧
      Idle (goToIndex (spinRight s) 55) ∧
      (goToIndex (spinRight s) 55).window.shiftLog = [1, 1, 1, 1] ∧
      (goToIndex (spinRight s) 55).currentNumberOfSpins = 1 :=
  ⟨_, rfl, by decide, by decide, by decide, by decide, by decide, by decide, by decide⟩

/-- C9, amended: with more than 40 slides, a spin of `k ≥ 1` steps requested while
no delayed phase is pending (a frame requested by an earlier spin is cancelled
by the request) and run to completion performs the window shift exactly `k`
times, each with `delta = -1` for a left spin and `+1` for a right spin, and
ends idle with the spin counter `#currentNumberOfSpins` back at 0. -/
theorem C9_shift_once_per_step (s : State) (t : Int) (hp : s.pendingDelayed = [])
    (ha0 : 0 ≤ s.window.activeSlideIndex)
    (han : s.window.activeSlideIndex ≤ s.window.size - 1)
    (hsz : s.window.size > 40)
    (hk : 1 ≤ (clamp t 0 (s.window.size - 1) - s.window.activeSlideIndex).natAbs) :
    (goToIndex s t).window.shiftLog =
        s.window.shiftLog ++
          List.replicate (clamp t 0 (s.window.size - 1) - s.window.activeSlideIndex).natAbs
            (if clamp t 0 (s.window.size - 1) < s.window.activeSlideIndex then (-1 : Int)
              else 1) ∧
      (goToIndex s t).currentNumberOfSpins = 0 ∧
      Idle (goToIndex s t) := by
  have hne : clamp t 0 (s.window.size - 1) ≠ s.window.activeSlideIndex := by
    intro h
    rw [h] at hk
    simp at hk
  have hgo : goToIndex s t = goToIndex { s with rAF := none } t := by
    unfold goToIndex
    simp only [setActiveSlideIndex_cancels_frame s t hne]
  have hs : Settled { s with rAF := none } := ⟨⟨rfl, hp⟩, ha0, han⟩
  obtain ⟨k1, k2, k3⟩ := goToIndex_spec { s with rAF := none } t hs
  rw [hgo]
  refine ⟨?_, k3 hsz hk, k2⟩
  rw [k1, moveAndShift_iterate_shiftLog _ _ _ hsz]
  congr 2
  unfold stepDelta spinDirectionTo
  split
  · simp
  · simp

/-- C9 (amended) at the state constructed for 100 slides with active index 50,
for the target 45 (a left spin of 5 steps). -/
theorem C9_shift_once_per_step_witness :
    ∃ s, Carousel.new 100 5 50 = some s ∧ s.pendingDelayed = [] ∧
      0 ≤ s.window.activeSlideIndex ∧ s.window.activeSlideIndex ≤ s.window.size - 1 ∧
      s.window.size > 40 ∧
      1 ≤ (clamp 45 0 (s.window.size - 1) - s.window.activeSlideIndex).natAbs ∧
      ((goToIndex s 45).window.shiftLog =
          s.window.shiftLog ++
            List.replicate (clamp 45 0 (s.window.size - 1) - s.window.activeSlideIndex).natAbs
              (if clamp 45 0 (s.window.size - 1) < s.window.activeSlideIndex then (-1 : Int)
                else 1) ∧
        (goToIndex s 45).currentNumberOfSpins = 0 ∧
        Idle (goToIndex s 45)) :=
  ⟨_, rfl, rfl, by decide, by decide, by decide, by decide,
    C9_shift_once_per_step _ 45 rfl (by decide) (by decide) (by decide) (by decide)⟩

set_option maxRecDepth 100000 in
/-- C10: with 100 slides and initial active index 50, for every
`visibleSlideCount` in `[1, 5]` the rendered window after construction is
`[30, 70]`, and 18 settled `stepRight()` trigger exactly one rebalance; it
attaches the block `71 .. 70 + c` on the right and detaches the block
`30 .. 29 + c` of the same size `c > 0` on the left, and
`tailRendered - headRendered` is 40 afterwards. -/
theorem C10_scenario (vc : Int) (h1 : 1 ≤ vc) (h5 : vc ≤ 5) :
    ∃ s, Carousel.new 100 vc 50 = some s ∧
      s.window.headIndex.rendered = 30 ∧ s.window.tailIndex.rendered = 70 ∧
      ∃ c : Nat, 0 < c ∧
        (run s (List.replicate 18 Op.stepRight)).window.rebalanceLog =
          [{ slidesToAdd := (List.range c).map (fun (j : Nat) => (71 : Int) + j)
             slidesToRemove := (List.range c).map (fun (j : Nat) => (30 : Int) + j)
             updatedHeadIndex := 30 + c
             updatedTailIndex := 70 + c }] ∧
        (run s (List.replicate 18 Op.stepRight)).window.activeSlideIndex = 68 ∧
        (run s (List.replicate 18 Op.stepRight)).window.headIndex.rendered = 30 + c ∧
        (run s (List.replicate 18 Op.stepRight)).window.tailIndex.rendered = 70 + c ∧
        (run s (List.replicate 18 Op.stepRight)).window.tailIndex.rendered -
          (run s (List.replicate 18 Op.stepRight)).window.headIndex.rendered = 40 ∧
        (run s (List.replicate 18 Op.stepRight)).window.container =
          (List.range 41).map (fun (j : Nat) => (30 : Int) + c + j) := by
  interval_cases vc
  · exact ⟨_, rfl, by decide, by decide, 16, by decide, by decide, by decide, by decide,
      by decide, by decide, by decide⟩
  · exact ⟨_, rfl, by decide, by decide, 15, by decide, by decide, by decide, by decide,
      by decide, by decide, by decide⟩
  · exact ⟨_, rfl, by decide, by decide, 14, by decide, by decide, by decide, by decide,
      by decide, by decide, by decide⟩
  · exact ⟨_, rfl, by decide, by decide, 13, by decide, by decide, by decide, by decide,
      by decide, by decide, by decide⟩
  · exact ⟨_, rfl, by decide, by decide, 12, by decide, by decide, by decide, by decide,
      by decide, by decide, by decide⟩

set_option maxRecDepth 100000 in
/-- C10 at `visibleSlideCount = 3`. -/
theorem C10_scenario_witness :
    (1 : Int) ≤ 3 ∧ (3 : Int) ≤ 5 ∧
    ∃ s, Carousel.new 100 3 50 = some s ∧
      s.window.headIndex.rendered = 30 ∧ s.window.tailIndex.rendered = 70 ∧
      ∃ c : Nat, 0 < c ∧
        (run s (List.replicate 18 Op.stepRight)).window.rebalanceLog =
          [{ slidesToAdd := (List.range c).map (fun (j : Nat) => (71 : Int) + j)
             slidesToRemove := (List.range c).map (fun (j : Nat) => (30 : Int) + j)
             updatedHeadIndex := 30 + c
             updatedTailIndex := 70 + c }] ∧
        (run s (List.replicate 18 Op.stepRight)).window.activeSlideIndex = 68 ∧
        (run s (List.replicate 18 Op.stepRight)).window.headIndex.rendered = 30 + c ∧
        (run s (List.replicate 18 Op.stepRight)).window.tailIndex.rendered = 70 + c ∧
        (run s (List.replicate 18 Op.stepRight)).window.tailIndex.rendered -
          (run s (List.replicate 18 Op.stepRight)).window.headIndex.rendered = 40 ∧
        (run s (List.replicate 18 Op.stepRight)).window.container =
          (List.range 41).map (fun (j : Nat) => (30 : Int) + c + j) :=
  ⟨by decide, by decide, C10_scenario 3 (by decide) (by decide)⟩

set_option maxRecDepth 100000 in
/-- C11 as stated fails: with 42 slides, `visibleSlideCount = 5` and initial
active index 21 (window `[1, 41]`, invariant 1 holding throughout), the twelfth
settled `stepLeft()` rebalances; it attaches the single slide 0 and detaches
the twelve slides 30..41. -/
theorem C11_counterexample :
    ∃ s, Carousel.new 42 5 21 = some s ∧
      Invariant1 (run s (List.replicate 11 Op.stepLeft)).window ∧
      Invariant1 (run s (List.replicate 12 Op.stepLeft)).window ∧
      (run s (List.replicate 12 Op.stepLeft)).window.rebalanceLog =
        [{ slidesToAdd := [0]
           slidesToRemove := (List.range 12).map (fun (j : Nat) => (30 : Int) + j)
           updatedHeadIndex := 0
           updatedTailIndex := 29 }] ∧
      (run s (List.replicate 12 Op.stepLeft)).window.rebalanceLog.map
        (fun r => (r.slidesToAdd.length, r.slidesToRemove.length)) = [(1, 12)] :=
  ⟨_, rfl, by decide, by decide, by decide, by decide⟩

/-- C11, amended: in a rebalance performed from a window that satisfies
invariant 1 and whose trailing side is at least `slidesToAddCount ≥ 0` deep,
exactly `slidesToAddCount` slides are detached from the trailing side and
`min(slidesToAddCount, room)` slides are attached on the approaching side,
`room` being the number of positions between the approaching rendered boundary
and the end of the sequence; the two counts are equal if and only if
`slidesToAddCount ≤ room`, and otherwise fewer slides are attached than
detached. -/
theorem C11_rebalance_counts (w : Window) (d : SlideDirection) (hinv : Invariant1 w)
    (hreb : needsRebalance w d = true)
    (hc : 0 ≤ slidesToAddCount w (stepDelta d))
    (hdepth : slidesToAddCount w (stepDelta d) ≤ trailingDepth w d) :
    (handleDirection w d).rebalanceLog = w.rebalanceLog ++ [rebalanceIndices w d] ∧
      ((rebalanceIndices w d).slidesToRemove.length : Int) =
        slidesToAddCount w (stepDelta d) ∧
      ((rebalanceIndices w d).slidesToAdd.length : Int) =
        min (slidesToAddCount w (stepDelta d)) (roomToEdge w d) ∧
      ((rebalanceIndices w d).slidesToAdd.length = (rebalanceIndices w d).slidesToRemove.length ↔
        slidesToAddCount w (stepDelta d) ≤ roomToEdge w d) ∧
      (rebalanceIndices w d).slidesToAdd.length ≤ (rebalanceIndices w d).slidesToRemove.length := by
  obtain ⟨k1, k2⟩ := rebalanceIndices_lengths w d hinv hc hdepth
  refine ⟨(handleDirection_rebalance w d hreb).1, k1, k2, ?_, ?_⟩
  · constructor
    · intro h
      have h' : ((rebalanceIndices w d).slidesToAdd.length : Int) =
          ((rebalanceIndices w d).slidesToRemove.length : Int) := by exact_mod_cast h
      rw [k1, k2] at h'
      omega
    · intro h
      have h' : ((rebalanceIndices w d).slidesToAdd.length : Int) =
          ((rebalanceIndices w d).slidesToRemove.length : Int) := by
        rw [k1, k2]
        omega
      exact_mod_cast h'
  · have h' : ((rebalanceIndices w d).slidesToAdd.length : Int) ≤
        ((rebalanceIndices w d).slidesToRemove.length : Int) := by
      rw [k1, k2]
      omega
    exact_mod_cast h'

/-- C11 (amended) at the window of 100 slides `[30, 70]` with active index 62
and visible window `[57, 67]`, shifted right. -/
theorem C11_rebalance_counts_witness :
    ∃ w : Window,
      w = { size := 100, visibleSlideCount := 5, activeSlideIndex := 62
            headIndex := { rendered := 30, visible := 57 }
            tailIndex := { rendered := 70, visible := 67 }
            container := [], shiftLog := [], rebalanceLog := [] } ∧
      Invariant1 w ∧ needsRebalance w SlideDirection.RIGHT = true ∧
      0 ≤ slidesToAddCount w (stepDelta SlideDirection.RIGHT) ∧
      slidesToAddCount w (stepDelta SlideDirection.RIGHT) ≤
        trailingDepth w SlideDirection.RIGHT ∧
      ((handleDirection w SlideDirection.RIGHT).rebalanceLog =
          w.rebalanceLog ++ [rebalanceIndices w SlideDirection.RIGHT] ∧
        ((rebalanceIndices w SlideDirection.RIGHT).slidesToRemove.length : Int) =
          slidesToAddCount w (stepDelta SlideDirection.RIGHT) ∧
        ((rebalanceIndices w SlideDirection.RIGHT).slidesToAdd.length : Int) =
          min (slidesToAddCount w (stepDelta SlideDirection.RIGHT))
            (roomToEdge w SlideDirection.RIGHT) ∧
        ((rebalanceIndices w SlideDirection.RIGHT).slidesToAdd.length =
            (rebalanceIndices w SlideDirection.RIGHT).slidesToRemove.length ↔
          slidesToAddCount w (stepDelta SlideDirection.RIGHT) ≤
            roomToEdge w SlideDirection.RIGHT) ∧
        (rebalanceIndices w SlideDirection.RIGHT).slidesToAdd.length ≤
          (rebalanceIndices w SlideDirection.RIGHT).slidesToRemove.length) :=
  ⟨_, rfl, by decide, by decide, by decide, by decide,
    C11_rebalance_counts _ SlideDirection.RIGHT (by decide) (by decide) (by decide)
      (by decide)⟩

set_option maxRecDepth 100000 in
/-- C12, evaluated on the code: with 41 slides, `visibleSlideCount = 5` and
initial active index 0, after twelve settled `stepRight()` the window is
`[12, 32]` with active index 12; the following `stepLeft()` rebalances with
active index 11 outside the window, and `slidesToAddCount` is
`20 - (11 - 12) = 21`, not `20 - |11 - 12| = 19`; 21 slides are detached. -/
theorem C12_count_with_active_outside_window :
    ∃ s w, Carousel.new 41 5 0 = some s ∧
      w = updateVisibleIndices
        { (run s (List.replicate 12 Op.stepRight)).window with activeSlideIndex := 11 } (-1) ∧
      w.activeSlideIndex = 11 ∧ w.headIndex.rendered = 12 ∧
      needsRebalance w SlideDirection.LEFT = true ∧
      slidesToAddCount w (-1) = 21 ∧
      20 - |w.activeSlideIndex - w.headIndex.rendered| = 19 ∧
      (run s (List.replicate 12 Op.stepRight ++ [Op.stepLeft])).window.rebalanceLog =
        (run s (List.replicate 12 Op.stepRight)).window.rebalanceLog ++
          [rebalanceIndices w SlideDirection.LEFT] ∧
      (rebalanceIndices w SlideDirection.LEFT).slidesToRemove.length = 21 ∧
      (rebalanceIndices w SlideDirection.LEFT).updatedHeadIndex = max 0 (11 - 20) :=
  ⟨_, _, rfl, rfl, by decide, by decide, by decide, by decide, by decide, by decide,
    by decide, by decide⟩

/-- C13: a right shift performed while `tailRendered = totalCount - 1` and a left
shift performed while `headRendered = 0` leave `headRendered`, `tailRendered`,
the children of the container and the list of rebalances unchanged; and a shift
in a direction rebalances if and only if, after the visible bounds have moved,
the visible boundary on that side is within 3 of the rendered boundary and that
rendered boundary has not reached the sequence edge (`headRendered > 0`, resp.
`tailRendered < totalCount - 1`); without a rebalance the rendered bounds and
the container are unchanged. -/
theorem C13_edge_policy (w : Window) (d : SlideDirection) :
    (((d = SlideDirection.RIGHT ∧ w.tailIndex.rendered = w.size - 1) ∨
        (d = SlideDirection.LEFT ∧ w.headIndex.rendered = 0)) →
      (shiftWindow w d).headIndex.rendered = w.headIndex.rendered ∧
        (shiftWindow w d).tailIndex.rendered = w.tailIndex.rendered ∧
        (shiftWindow w d).container = w.container ∧
        (shiftWindow w d).rebalanceLog = w.rebalanceLog) ∧
      ((shiftWindow w d).rebalanceLog.length = w.rebalanceLog.length + 1 ↔
        ((d = SlideDirection.LEFT ∧
            max 0 (w.headIndex.visible + stepDelta d) - w.headIndex.rendered ≤ 3 ∧
            w.headIndex.rendered > 0) ∨
          (d = SlideDirection.RIGHT ∧
            w.tailIndex.rendered - min (w.size - 1) (w.tailIndex.visible + stepDelta d) ≤ 3 ∧
            w.tailIndex.rendered < w.size - 1))) ∧
      ((shiftWindow w d).rebalanceLog.length ≠ w.rebalanceLog.length + 1 →
        (shiftWindow w d).headIndex.rendered = w.headIndex.rendered ∧
          (shiftWindow w d).tailIndex.rendered = w.tailIndex.rendered ∧
          (shiftWindow w d).container = w.container ∧
          (shiftWindow w d).rebalanceLog = w.rebalanceLog) := by
  have hcond := needsRebalance_iff (updateVisibleIndices w (stepDelta d)) d
  have hidle : ¬ needsRebalance (updateVisibleIndices w (stepDelta d)) d = true →
      (shiftWindow w d).headIndex.rendered = w.headIndex.rendered ∧
        (shiftWindow w d).tailIndex.rendered = w.tailIndex.rendered ∧
        (shiftWindow w d).container = w.container ∧
        (shiftWindow w d).rebalanceLog = w.rebalanceLog := by
    intro h
    simp only [shiftWindow, handleDirection_idle _ d h]
    simp [updateVisibleIndices]
  have hlen : (shiftWindow w d).rebalanceLog.length = w.rebalanceLog.length + 1 ↔
      needsRebalance (updateVisibleIndices w (stepDelta d)) d = true := by
    constructor
    · intro h
      by_contra hn
      rw [(hidle hn).2.2.2] at h
      omega
    · intro h
      simp only [shiftWindow, (handleDirection_rebalance _ d h).1]
      simp [updateVisibleIndices]
  have hcond' : needsRebalance (updateVisibleIndices w (stepDelta d)) d = true ↔
      ((d = SlideDirection.LEFT ∧
          max 0 (w.headIndex.visible + stepDelta d) - w.headIndex.rendered ≤ 3 ∧
          w.headIndex.rendered > 0) ∨
        (d = SlideDirection.RIGHT ∧
          w.tailIndex.rendered - min (w.size - 1) (w.tailIndex.visible + stepDelta d) ≤ 3 ∧
          w.tailIndex.rendered < w.size - 1)) := by
    rw [hcond]
    simp [updateVisibleIndices]
  refine ⟨?_, hlen.trans hcond', ?_⟩
  · intro hedge
    apply hidle
    rw [hcond']
    rintro (⟨h1, -, h3⟩ | ⟨h1, -, h3⟩)
    · rcases hedge with ⟨e1, -⟩ | ⟨-, e2⟩
      · rw [h1] at e1
        exact absurd e1 (by decide)
      · omega
    · rcases hedge with ⟨-, e2⟩ | ⟨e1, -⟩
      · omega
      · rw [h1] at e1
        exact absurd e1 (by decide)
  · intro hn
    exact hidle (fun h => hn (hlen.mpr h))

/-- C14 as stated fails. With 41 slides and slide 20 active, a request for slide
21 followed, before its delayed phase has run, by a request for slide 22 leaves
both delayed phases pending, and the first timer applies the window shift of
the old transition. With 4 slides and slide 1 active, requests for slide 2 and
then slide 3 leave the old delayed phase pending, and when it runs it puts the
class `active` on slide 2 while the active index is 3. -/
theorem C14_counterexample :
    (∃ s, Carousel.new 41 5 20 = some s ∧
      (setActiveSlideIndex (setActiveSlideIndex s 21) 22).pendingDelayed =
        [{ direction := SlideDirection.RIGHT, previousSlide := 20, nextSlide := 21 },
         { direction := SlideDirection.RIGHT, previousSlide := 21, nextSlide := 22 }] ∧
      (setActiveSlideIndex (setActiveSlideIndex s 21) 22).window.shiftLog = [] ∧
      (timer (setActiveSlideIndex (setActiveSlideIndex s 21) 22)).window.shiftLog = [1] ∧
      (timer (setActiveSlideIndex (setActiveSlideIndex s 21) 22)).pendingDelayed =
        [{ direction := SlideDirection.RIGHT, previousSlide := 21, nextSlide := 22 }]) ∧
    (∃ c, Styled.new 4 (fun _ => bareSlide) 1 1 (7 / 10) 200 1000 100 = some c ∧
      (Styled.setActiveSlideIndex (Styled.setActiveSlideIndex c 2) 3).state.pendingDelayed =
        [{ direction := SlideDirection.RIGHT, previousSlide := 1, nextSlide := 2 },
         { direction := SlideDirection.RIGHT, previousSlide := 2, nextSlide := 3 }] ∧
      ((Styled.setActiveSlideIndex (Styled.setActiveSlideIndex c 2) 3).slides 2).active
        = false ∧
      ((Styled.timer (Styled.setActiveSlideIndex (Styled.setActiveSlideIndex c 2) 3)).slides
        2).active = true ∧
      (Styled.timer (Styled.setActiveSlideIndex
        (Styled.setActiveSlideIndex c 2) 3)).state.window.activeSlideIndex = 3) :=
  ⟨⟨_, rfl, by decide, by decide, by decide, by decide⟩,
    ⟨_, rfl, by decide, by decide, by decide, by decide⟩⟩

/-- C14, amended: a request for another slide cancels the requested frame only.
The state after it is the one reached from the state without that frame; every
delayed phase that was pending stays pending, in order, ahead of the one the
request adds, and the oldest is applied when its timer runs; `stop()` clears the
requested frame and leaves the pending delayed phases. -/
theorem C14_request_cancels_frame_only (c : Styled) (t : Int)
    (hne : clamp t 0 (c.state.window.size - 1) ≠ c.state.window.activeSlideIndex) :
    (Styled.setActiveSlideIndex c t).state =
        Carousel.setActiveSlideIndex { c.state with rAF := none } t ∧
      (∃ d, (Styled.setActiveSlideIndex c t).state.pendingDelayed =
        c.state.pendingDelayed ++ [d]) ∧
      (∀ (d : Delayed) (rest : List Delayed), c.state.pendingDelayed = d :: rest →
        ∃ d1, Styled.timer (Styled.setActiveSlideIndex c t) =
          Styled.resumeDelayedTransition
            { (Styled.setActiveSlideIndex c t) with
              state := { (Styled.setActiveSlideIndex c t).state with
                pendingDelayed := rest ++ [d1] } } d) ∧
      (Styled.stop c).state.rAF = none ∧
      (Styled.stop c).state.pendingDelayed = c.state.pendingDelayed ∧
      (Styled.stop (Styled.setActiveSlideIndex c t)).state.pendingDelayed =
        (Styled.setActiveSlideIndex c t).state.pendingDelayed := by
  have hst := styled_setActiveSlideIndex_state c t
  obtain ⟨d1, hd1⟩ := setActiveSlideIndex_pending c.state t hne
  rw [← hst] at hd1
  refine ⟨?_, ⟨d1, hd1⟩, ?_, rfl, rfl, rfl⟩
  · rw [hst]
    exact setActiveSlideIndex_cancels_frame c.state t hne
  · intro d rest hp
    refine ⟨d1, styled_timer_cons _ d (rest ++ [d1]) ?_⟩
    rw [hd1, hp]
    rfl

/-- C14 (amended) at four slides with slide 1 active and a request for slide 2. -/
theorem C14_request_cancels_frame_only_witness :
    ∃ c, Styled.new 4 (fun _ => bareSlide) 1 1 (7 / 10) 200 1000 100 = some c ∧
      clamp 2 0 (c.state.window.size - 1) ≠ c.state.window.activeSlideIndex ∧
      ((Styled.setActiveSlideIndex c 2).state =
          Carousel.setActiveSlideIndex { c.state with rAF := none } 2 ∧
        (∃ d, (Styled.setActiveSlideIndex c 2).state.pendingDelayed =
          c.state.pendingDelayed ++ [d]) ∧
        (∀ (d : Delayed) (rest : List Delayed), c.state.pendingDelayed = d :: rest →
          ∃ d1, Styled.timer (Styled.setActiveSlideIndex c 2) =
            Styled.resumeDelayedTransition
              { (Styled.setActiveSlideIndex c 2) with
                state := { (Styled.setActiveSlideIndex c 2).state with
                  pendingDelayed := rest ++ [d1] } } d) ∧
        (Styled.stop c).state.rAF = none ∧
        (Styled.stop c).state.pendingDelayed = c.state.pendingDelayed ∧
        (Styled.stop (Styled.setActiveSlideIndex c 2)).state.pendingDelayed =
          (Styled.setActiveSlideIndex c 2).state.pendingDelayed) :=
  ⟨_, rfl, by decide, C14_request_cancels_frame_only _ 2 (by decide)⟩

/-- C15 as stated fails: with three slides and slide 1 active, a request for
slide 2 is a single step whose delayed phase is pending, and a call of the
perspective setter with 2000 at that moment is applied: the perspective goes
from 1000 to 2000 and its depth to 200. -/
theorem C15_counterexample :
    ∃ c, Styled.new 3 (fun _ => bareSlide) 1 1 (7 / 10) 200 1000 100 = some c ∧
      (Styled.setActiveSlideIndex c 2).state.pendingDelayed ≠ [] ∧
      (Styled.setActiveSlideIndex c 2).perspective = 1000 ∧
      (Styled.setPerspective (Styled.setActiveSlideIndex c 2) 2000).perspective = 2000 ∧
      (Styled.setPerspective (Styled.setActiveSlideIndex c 2) 2000).perspectiveDepth = 200 ∧
      ((Styled.setActiveSlideIndex c 2).slides 1).zPosition = some (-100) ∧
      ((Styled.setPerspective (Styled.setActiveSlideIndex c 2) 2000).slides 1).zPosition =
        some (-200) := by
  refine ⟨_, rfl, by decide, rfl, rfl, ?_, ?_, ?_⟩
  · refine Eq.trans (b := calculatePerspectiveDepth 2000) rfl ?_
    norm_num [calculatePerspectiveDepth]
  · refine Eq.trans (b := some (-(calculatePerspectiveDepth 1000))) rfl ?_
    norm_num [calculatePerspectiveDepth]
  · refine Eq.trans (b := some (-(calculatePerspectiveDepth 2000))) rfl ?_
    norm_num [calculatePerspectiveDepth]

/-- C15, amended: the perspective setter is dropped exactly when a frame is
requested. After a request at distance two or more a frame is requested and the
setter changes nothing. When no frame is requested, in particular after a
request at distance one, whose delayed phase is pending, the setter is applied:
the perspective is the new value `p`, its depth is `p * 0.1`, and on each flank
the slides at distance `d` from 1 to the visible count are restyled by
`#showSlide` with `x = -(w * v * d)` on the left and `w * v * d` on the right,
`z = -(p * 0.1 * d)`, the brightness of rank `d - 1`, no stack order on the left
and `99 - (d - 1)` on the right; every other slide keeps its styles. -/
theorem C15_perspective_guard (c : Styled) (p : ℚ) :
    (c.state.rAF ≠ none → Styled.setPerspective c p = c) ∧
      (c.state.rAF = none →
        (Styled.setPerspective c p).perspective = p ∧
          (Styled.setPerspective c p).perspectiveDepth = p * 0.1 ∧
          (Styled.setPerspective c p).state = c.state) ∧
      (c.state.rAF = none → 0 ≤ c.state.window.activeSlideIndex →
        c.state.window.activeSlideIndex ≤ c.state.window.size - 1 →
        1 ≤ c.state.window.visibleSlideCount →
        ∀ i : Int,
          (0 ≤ i → 1 ≤ c.state.window.activeSlideIndex - i →
            c.state.window.activeSlideIndex - i ≤ c.state.window.visibleSlideCount →
            (Styled.setPerspective c p).slides i =
              showSlide { (c.slides i) with zIndex := none }
                (-(c.slideWidth * c.visibleSlideRatio *
                  (((c.state.window.activeSlideIndex - i : Int) : ℚ))))
                (-(p * 0.1 * (((c.state.window.activeSlideIndex - i : Int) : ℚ))))
                (calculateBrightness c.state.window.visibleSlideCount
                  (c.state.window.activeSlideIndex - i - 1))
                none) ∧
          (i < c.state.window.size → 1 ≤ i - c.state.window.activeSlideIndex →
            i - c.state.window.activeSlideIndex ≤ c.state.window.visibleSlideCount →
            (Styled.setPerspective c p).slides i =
              showSlide (c.slides i)
                (c.slideWidth * c.visibleSlideRatio *
                  (((i - c.state.window.activeSlideIndex : Int) : ℚ)))
                (-(p * 0.1 * (((i - c.state.window.activeSlideIndex : Int) : ℚ))))
                (calculateBrightness c.state.window.visibleSlideCount
                  (i - c.state.window.activeSlideIndex - 1))
                (some (99 - (i - c.state.window.activeSlideIndex - 1)))) ∧
          (¬ (0 ≤ i ∧ 1 ≤ c.state.window.activeSlideIndex - i ∧
              c.state.window.activeSlideIndex - i ≤ c.state.window.visibleSlideCount) →
            ¬ (i < c.state.window.size ∧ 1 ≤ i - c.state.window.activeSlideIndex ∧
              i - c.state.window.activeSlideIndex ≤ c.state.window.visibleSlideCount) →
            (Styled.setPerspective c p).slides i = c.slides i)) ∧
      (∀ t : Int,
        2 ≤ (clamp t 0 (c.state.window.size - 1) - c.state.window.activeSlideIndex).natAbs →
          Styled.setPerspective (Styled.setActiveSlideIndex c t) p =
            Styled.setActiveSlideIndex c t) ∧
      (∀ t : Int,
        (clamp t 0 (c.state.window.size - 1) - c.state.window.activeSlideIndex).natAbs = 1 →
          (Styled.setActiveSlideIndex c t).state.rAF = none ∧
            (Styled.setActiveSlideIndex c t).state.pendingDelayed ≠ [] ∧
            (Styled.setPerspective (Styled.setActiveSlideIndex c t) p).perspective = p ∧
            (Styled.setPerspective (Styled.setActiveSlideIndex c t) p).perspectiveDepth =
              p * 0.1) := by
  have happ : ∀ x : Styled, x.state.rAF = none →
      (Styled.setPerspective x p).perspective = p ∧
        (Styled.setPerspective x p).perspectiveDepth = p * 0.1 ∧
        (Styled.setPerspective x p).state = x.state := by
    intro x h
    unfold Styled.setPerspective
    rw [if_neg (by simp [h])]
    exact ⟨rfl, rfl, rfl⟩
  refine ⟨setPerspective_dropped c p, happ c, ?_, ?_, ?_⟩
  · intro hr ha0 han hvc i
    exact setPerspective_slides c p hr ha0 han hvc i
  · intro t h
    apply setPerspective_dropped
    rw [styled_setActiveSlideIndex_state]
    exact (setActiveSlideIndex_multi c.state t h).1
  · intro t h
    have hst := styled_setActiveSlideIndex_state c t
    rw [setActiveSlideIndex_single c.state t h] at hst
    have hr : (Styled.setActiveSlideIndex c t).state.rAF = none := by
      rw [hst]
    refine ⟨hr, ?_, (happ _ hr).1, (happ _ hr).2.1⟩
    rw [hst]
    simp

/-- C15 (amended) at the instance constructed from five bare slides with slide 2
active and two visible slides per side, after the request for slide 3 and
before its delayed phase: the setter with 2000 is applied, and slide 4, at
distance 1 on the right, is shown at depth `-(2000 * 0.1 * 1)`. -/
theorem C15_perspective_guard_witness :
    ∃ c, Styled.new 5 (fun _ => bareSlide) 2 2 (7 / 10) 200 1000 100 = some c ∧
      (Styled.setActiveSlideIndex c 3).state.rAF = none ∧
      (Styled.setActiveSlideIndex c 3).state.pendingDelayed ≠ [] ∧
      (Styled.setPerspective (Styled.setActiveSlideIndex c 3) 2000).slides 4 =
        showSlide ((Styled.setActiveSlideIndex c 3).slides 4)
          ((Styled.setActiveSlideIndex c 3).slideWidth *
            (Styled.setActiveSlideIndex c 3).visibleSlideRatio *
            (((4 - (Styled.setActiveSlideIndex c 3).state.window.activeSlideIndex : Int) : ℚ)))
          (-(2000 * 0.1 *
            (((4 - (Styled.setActiveSlideIndex c 3).state.window.activeSlideIndex : Int) : ℚ))))
          (calculateBrightness (Styled.setActiveSlideIndex c 3).state.window.visibleSlideCount
            (4 - (Styled.setActiveSlideIndex c 3).state.window.activeSlideIndex - 1))
          (some (99 - (4 - (Styled.setActiveSlideIndex c 3).state.window.activeSlideIndex - 1))) :=
  ⟨_, rfl, rfl, by decide,
    ((C15_perspective_guard _ 2000).2.2.1 rfl (by decide) (by decide) (by decide) 4).2.1
      (by decide) (by decide) (by decide)⟩

/-- C16: in every flank restyle, for slides at distinct positions, the slide at
rank `r` below the visible count gets `offsetX = w * v * (r + 1)` on the right
flank and `-(w * v * (r + 1))` on the left flank, `offsetZ = -(p * 0.1) * (r + 1)`,
`stackOrder = 99 - r` on the right flank and no `stackOrder` on the left flank
(`w` the slide width, `v` the visible ratio, `p` the perspective, whose depth is
`p * 0.1`). -/
theorem C16_geometry_closed_form (c : Styled) (slides : List Int) (direction : SlideDirection)
    (r : Nat) (p : Int) (hnd : slides.Nodup)
    (hdepth : c.perspectiveDepth = calculatePerspectiveDepth c.perspective)
    (hr : (r : Int) < c.state.window.visibleSlideCount)
    (hp : (slidesToProcess slides direction)[r]? = some p) :
    (applySlideTransition c slides direction p).xPosition =
        some (if direction = SlideDirection.LEFT
          then -(c.slideWidth * c.visibleSlideRatio * ((r : ℚ) + 1))
          else c.slideWidth * c.visibleSlideRatio * ((r : ℚ) + 1)) ∧
      (applySlideTransition c slides direction p).zPosition =
        some (-(c.perspective * 0.1) * ((r : ℚ) + 1)) ∧
      (applySlideTransition c slides direction p).zIndex =
        (if direction = SlideDirection.LEFT then none else some (99 - (r : Int))) ∧
      (applySlideTransition c slides direction p).hidden = false := by
  have hnd' : (slidesToProcess slides direction).Nodup := by
    unfold slidesToProcess
    split
    · exact List.nodup_reverse.mpr hnd
    · exact hnd
  have key := applySlideTransitionLoop_shown (c.slideWidth * c.visibleSlideRatio)
    c.perspectiveDepth c.state.window.visibleSlideCount
    (decide (direction = SlideDirection.LEFT)) (slidesToProcess slides direction) 0
    (c.slideWidth * c.visibleSlideRatio) c.perspectiveDepth 0 c.slides r p hnd' hp
    (by omega)
  unfold applySlideTransition
  rw [key, hdepth]
  cases direction
  · simp only [showSlide, decide_True, if_true, calculatePerspectiveDepth]
    refine ⟨?_, ?_, trivial, trivial⟩
    · congr 1
      ring
    · congr 1
      ring
  · have hd : ¬ (SlideDirection.RIGHT = SlideDirection.LEFT) := by decide
    simp only [showSlide, hd, decide_False, Bool.false_eq_true, if_false,
      calculatePerspectiveDepth, MAX_ZINDEX]
    refine ⟨?_, ?_, ?_, trivial⟩
    · congr 1
      ring
    · congr 1
      ring
    · congr 1
      ring

/-- C16 on the right flank of the instance constructed from five bare slides with
slide 2 active and two visible slides per side: the slide at rank 1 is slide 4. -/
theorem C16_geometry_closed_form_witness :
    ∃ c, Styled.new 5 (fun _ => bareSlide) 2 2 (7 / 10) 200 1000 100 = some c ∧
      (getNextSlides c).Nodup ∧
      c.perspectiveDepth = calculatePerspectiveDepth c.perspective ∧
      ((1 : Nat) : Int) < c.state.window.visibleSlideCount ∧
      (slidesToProcess (getNextSlides c) SlideDirection.RIGHT)[1]? = some 4 ∧
      ((applySlideTransition c (getNextSlides c) SlideDirection.RIGHT 4).xPosition =
          some (if SlideDirection.RIGHT = SlideDirection.LEFT
            then -(c.slideWidth * c.visibleSlideRatio * (((1 : Nat) : ℚ) + 1))
            else c.slideWidth * c.visibleSlideRatio * (((1 : Nat) : ℚ) + 1)) ∧
        (applySlideTransition c (getNextSlides c) SlideDirection.RIGHT 4).zPosition =
          some (-(c.perspective * 0.1) * (((1 : Nat) : ℚ) + 1)) ∧
        (applySlideTransition c (getNextSlides c) SlideDirection.RIGHT 4).zIndex =
          (if SlideDirection.RIGHT = SlideDirection.LEFT then none
            else some (99 - ((1 : Nat) : Int))) ∧
        (applySlideTransition c (getNextSlides c) SlideDirection.RIGHT 4).hidden = false) :=
  ⟨_, rfl, by decide, rfl, by decide, by decide,
    C16_geometry_closed_form _ _ SlideDirection.RIGHT 1 4 (by decide) rfl (by decide)
      (by decide)⟩

/-- C17: for a visible count in `[1, 5]` and ranks `0 ≤ r1 < r2 < visibleCount`,
`#calculateBrightness` gives a greater value at `r1` than at `r2`; at every rank
below the visible count its value is
`(0.7 - 0.1) * ((visibleCount - r) / visibleCount) + 0.1` and lies in `[0.1, 0.7]`,
and rank 0 has brightness 0.7 (exact arithmetic). -/
theorem C17_brightness_monotone (vc r1 r2 : Int) (hvc1 : 1 ≤ vc) (_hvc5 : vc ≤ 5)
    (_h0 : 0 ≤ r1) (h12 : r1 < r2) (_h2 : r2 < vc) :
    calculateBrightness vc r1 > calculateBrightness vc r2 ∧
      (∀ r : Int, 0 ≤ r → r < vc →
        calculateBrightness vc r =
            (0.7 - 0.1) * (((vc : ℚ) - (r : ℚ)) / (vc : ℚ)) + 0.1 ∧
          0.1 ≤ calculateBrightness vc r ∧ calculateBrightness vc r ≤ 0.7) ∧
      calculateBrightness vc 0 = 0.7 := by
  have hvq : (0 : ℚ) < (vc : ℚ) := by exact_mod_cast (by omega : (0 : Int) < vc)
  refine ⟨?_, ?_, ?_⟩
  · rw [calculateBrightness_eq vc r1, calculateBrightness_eq vc r2]
    have hr : (r1 : ℚ) < (r2 : ℚ) := by exact_mod_cast h12
    have : ((vc : ℚ) - (r2 : ℚ)) / (vc : ℚ) < ((vc : ℚ) - (r1 : ℚ)) / (vc : ℚ) := by
      apply div_lt_div_of_pos_right _ hvq
      linarith
    norm_num
    linarith
  · intro r hr0 hr1
    refine ⟨calculateBrightness_eq vc r, ?_, ?_⟩
    · rw [calculateBrightness_eq vc r]
      have hrq : (r : ℚ) < (vc : ℚ) := by exact_mod_cast hr1
      have : 0 ≤ ((vc : ℚ) - (r : ℚ)) / (vc : ℚ) := by
        apply div_nonneg _ hvq.le
        linarith
      norm_num
      linarith
    · rw [calculateBrightness_eq vc r]
      have hrq : (0 : ℚ) ≤ (r : ℚ) := by exact_mod_cast hr0
      have : ((vc : ℚ) - (r : ℚ)) / (vc : ℚ) ≤ 1 := by
        rw [div_le_one hvq]
        linarith
      norm_num
      linarith
  · rw [calculateBrightness_eq vc 0]
    have : ((vc : ℚ) - ((0 : Int) : ℚ)) / (vc : ℚ) = 1 := by
      rw [Int.cast_zero, sub_zero, div_self hvq.ne']
    rw [this]
    norm_num

/-- C17 at visible count 3, ranks 0 and 1. -/
theorem C17_brightness_monotone_witness :
    (1 : Int) ≤ 3 ∧ (3 : Int) ≤ 5 ∧ (0 : Int) ≤ 0 ∧ (0 : Int) < 1 ∧ (1 : Int) < 3 ∧
      (calculateBrightness 3 0 > calculateBrightness 3 1 ∧
        (∀ r : Int, 0 ≤ r → r < 3 →
          calculateBrightness 3 r =
              (0.7 - 0.1) * ((((3 : Int) : ℚ) - (r : ℚ)) / ((3 : Int) : ℚ)) + 0.1 ∧
            0.1 ≤ calculateBrightness 3 r ∧ calculateBrightness 3 r ≤ 0.7) ∧
        calculateBrightness 3 0 = 0.7) :=
  ⟨by decide, by decide, by decide, by decide, by decide,
    C17_brightness_monotone 3 0 1 (by decide) (by decide) (by decide) (by decide) (by decide)⟩

/-- C18: for a transition duration above 0 and visible ratios
`0.7 ≤ v1 < v2 ≤ 1`, both outputs of `#calculateSlideTimeTransition` are smaller
at `v2` than at `v1`; the delay is `duration * (0.00648 / (v - 0.676))` and the
fade duration is `duration + duration * (0.00648 / (v - 0.676))` (exact
arithmetic). -/
theorem C18_timing_monotone (d v1 v2 : ℚ) (hd : 0 < d) (h1 : 0.7 ≤ v1) (h12 : v1 < v2)
    (h2 : v2 ≤ 1) :
    (calculateSlideTimeTransition d v2).1 < (calculateSlideTimeTransition d v1).1 ∧
      (calculateSlideTimeTransition d v2).2 < (calculateSlideTimeTransition d v1).2 ∧
      (∀ v : ℚ,
        (calculateSlideTimeTransition d v).1 = d * (0.00648 / (v - 0.676)) ∧
          (calculateSlideTimeTransition d v).2 = d + d * (0.00648 / (v - 0.676))) := by
  have key : (0.00648 : ℚ) / (v2 - 0.676) < 0.00648 / (v1 - 0.676) := by
    apply div_lt_div_of_pos_left
    · norm_num
    · norm_num at h1 ⊢
      linarith
    · linarith
  refine ⟨?_, ?_, fun v => ⟨rfl, rfl⟩⟩
  · simp only [calculateSlideTimeTransition, SLIDE_TRANSITION_SCALAR,
      SLIDE_TRANSITION_BASE_OFFSET]
    exact mul_lt_mul_of_pos_left key hd
  · simp only [calculateSlideTimeTransition, SLIDE_TRANSITION_SCALAR,
      SLIDE_TRANSITION_BASE_OFFSET]
    have := mul_lt_mul_of_pos_left key hd
    linarith

/-- C18 at transition duration 200 and the visible ratios 0.7 and 1. -/
theorem C18_timing_monotone_witness :
    (0 : ℚ) < 200 ∧ (0.7 : ℚ) ≤ 0.7 ∧ (0.7 : ℚ) < 1 ∧ (1 : ℚ) ≤ 1 ∧
      ((calculateSlideTimeTransition 200 1).1 < (calculateSlideTimeTransition 200 0.7).1 ∧
        (calculateSlideTimeTransition 200 1).2 < (calculateSlideTimeTransition 200 0.7).2 ∧
        (∀ v : ℚ,
          (calculateSlideTimeTransition 200 v).1 = 200 * (0.00648 / (v - 0.676)) ∧
            (calculateSlideTimeTransition 200 v).2 = 200 + 200 * (0.00648 / (v - 0.676)))) :=
  ⟨by norm_num, by norm_num, by norm_num, by norm_num,
    C18_timing_monotone 200 0.7 1 (by norm_num) (by norm_num) (by norm_num) (by norm_num)⟩

/-- C19: the constructor stores the visible ratio clamped to `[0.7, 1]` and the
visible count clamped to `[1, 5]`; an input already in range is stored as it is,
the ratio 0.5 is stored as 0.7 and the count 10 as 5. -/
theorem C19_configuration_clamping (n : Nat) (els : Int → Slide) (vc a0 : Int)
    (ratio dur persp w : ℚ) (hn : 1 ≤ n) :
    ∃ c, Styled.new n els vc a0 ratio dur persp w = some c ∧
      c.visibleSlideRatio = clampVisibleSlideRatio ratio ∧
      0.7 ≤ c.visibleSlideRatio ∧ c.visibleSlideRatio ≤ 1 ∧
      (0.7 ≤ ratio → ratio ≤ 1 → c.visibleSlideRatio = ratio) ∧
      c.state.window.visibleSlideCount = clampVisibleSlideCount vc ∧
      1 ≤ c.state.window.visibleSlideCount ∧ c.state.window.visibleSlideCount ≤ 5 ∧
      (1 ≤ vc → vc ≤ 5 → c.state.window.visibleSlideCount = vc) ∧
      (ratio = 0.5 → c.visibleSlideRatio = 0.7) ∧
      (vc = 10 → c.state.window.visibleSlideCount = 5) := by
  obtain ⟨s, c0, hs, hc0s, -, hr, -, -, hnew⟩ := styled_new_eq n els vc a0 ratio dur persp w hn
  obtain ⟨-, -, -, hwin⟩ := new_settled n vc a0 s hs
  obtain ⟨r1, r2, r3⟩ := clampVisibleSlideRatio_range ratio
  have hst : (transitionSlides (transitionSlides c0 SlideDirection.LEFT)
      SlideDirection.RIGHT).state = s := by
    rw [styled_transitionSlides_state, styled_transitionSlides_state, hc0s]
  have hrr : (transitionSlides (transitionSlides c0 SlideDirection.LEFT)
      SlideDirection.RIGHT).visibleSlideRatio = clampVisibleSlideRatio ratio := by
    rw [(transitionSlides_config _ _).2.1, (transitionSlides_config _ _).2.1, hr]
  have hk : s.window.visibleSlideCount = clampVisibleSlideCount vc := by
    rw [hwin]
    rfl
  refine ⟨_, hnew, hrr, ?_, ?_, ?_, ?_, ?_, ?_, ?_, ?_, ?_⟩
  · rw [hrr]
    exact r1
  · rw [hrr]
    exact r2
  · intro h1 h2
    rw [hrr]
    exact r3 h1 h2
  · rw [hst]
    exact hk
  · rw [hst, hk]
    simp only [clampVisibleSlideCount, clamp, MAX_VISIBLE_SLIDES]
    omega
  · rw [hst, hk]
    simp only [clampVisibleSlideCount, clamp, MAX_VISIBLE_SLIDES]
    omega
  · intro h1 h2
    rw [hst, hk]
    simp only [clampVisibleSlideCount, clamp, MAX_VISIBLE_SLIDES]
    omega
  · intro h
    rw [hrr, h]
    norm_num [clampVisibleSlideRatio, clampNumber]
  · intro h
    rw [hst, hk, h]
    decide

/-- C19 at three slides, visible ratio 0.5 and visible count 10. -/
theorem C19_configuration_clamping_witness :
    1 ≤ 3 ∧ ∃ c, Styled.new 3 (fun _ => bareSlide) 10 0 0.5 200 1000 100 = some c ∧
      c.visibleSlideRatio = clampVisibleSlideRatio 0.5 ∧
      0.7 ≤ c.visibleSlideRatio ∧ c.visibleSlideRatio ≤ 1 ∧
      (0.7 ≤ (0.5 : ℚ) → (0.5 : ℚ) ≤ 1 → c.visibleSlideRatio = 0.5) ∧
      c.state.window.visibleSlideCount = clampVisibleSlideCount 10 ∧
      1 ≤ c.state.window.visibleSlideCount ∧ c.state.window.visibleSlideCount ≤ 5 ∧
      (1 ≤ (10 : Int) → (10 : Int) ≤ 5 → c.state.window.visibleSlideCount = 10) ∧
      ((0.5 : ℚ) = 0.5 → c.visibleSlideRatio = 0.7) ∧
      ((10 : Int) = 10 → c.state.window.visibleSlideCount = 5) :=
  ⟨by decide, C19_configuration_clamping 3 (fun _ => bareSlide) 10 0 0.5 200 1000 100
    (by decide)⟩

/-- C20: when no slide element is hidden before construction, then after
construction and after every sequence of settled single steps a slide other
than the active one is hidden exactly when its distance from the active index
exceeds the visible count; the two flank restyles of the constructor and the
two of every further single step that moves the active index exit early only
when all remaining slides of the flank are hidden. -/
theorem C20_hidden_outer_suffix (n : Nat) (els : Int → Slide) (vc a0 : Int)
    (ratio dur persp w : ℚ) (hn : 1 ≤ n) (hclean : ∀ i : Int, (els i).hidden = false) :
    ∃ c c0, Styled.new n els vc a0 ratio dur persp w = some c ∧
      c = transitionSlides (transitionSlides c0 SlideDirection.LEFT) SlideDirection.RIGHT ∧
      FlankExitSound c0 SlideDirection.LEFT ∧
      FlankExitSound (transitionSlides c0 SlideDirection.LEFT) SlideDirection.RIGHT ∧
      ∀ ds : List SlideDirection,
        HiddenByDistance (Styled.steps c ds) ∧
          ∀ d : SlideDirection,
            0 ≤ (Styled.steps c ds).state.window.activeSlideIndex + stepDelta d →
            (Styled.steps c ds).state.window.activeSlideIndex + stepDelta d ≤
              (Styled.steps c ds).state.window.size - 1 →
            StepExitsSound (Styled.steps c ds) d := by
  obtain ⟨c, c0, hnew, hc, hE1, hE2, hs, hk, hinv⟩ :=
    styled_new_hidden n els vc a0 ratio dur persp w hn hclean
  refine ⟨c, c0, hnew, hc, hE1, hE2, ?_⟩
  intro ds
  obtain ⟨g1, g2, g3⟩ := styled_steps_good ds c hs hk hinv
  refine ⟨g3, ?_⟩
  intro d h0 h1
  cases d with
  | LEFT =>
    obtain ⟨e1, e2, e3, e4, -⟩ := stepLeft_hidden _ g1 g2 g3 (by simpa [stepDelta] using h0)
    exact ⟨e1, e2, e3, e4⟩
  | RIGHT =>
    obtain ⟨e1, e2, e3, e4, -⟩ := stepRight_hidden _ g1 g2 g3 (by simpa [stepDelta] using h1)
    exact ⟨e1, e2, e3, e4⟩

/-- C20 at five bare slides, one visible slide per side, slide 2 active. -/
theorem C20_hidden_outer_suffix_witness :
    1 ≤ 5 ∧ (∀ i : Int, ((fun _ => bareSlide) i : Slide).hidden = false) ∧
    ∃ c c0, Styled.new 5 (fun _ => bareSlide) 1 2 (7 / 10) 200 1000 100 = some c ∧
      c = transitionSlides (transitionSlides c0 SlideDirection.LEFT) SlideDirection.RIGHT ∧
      FlankExitSound c0 SlideDirection.LEFT ∧
      FlankExitSound (transitionSlides c0 SlideDirection.LEFT) SlideDirection.RIGHT ∧
      ∀ ds : List SlideDirection,
        HiddenByDistance (Styled.steps c ds) ∧
          ∀ d : SlideDirection,
            0 ≤ (Styled.steps c ds).state.window.activeSlideIndex + stepDelta d →
            (Styled.steps c ds).state.window.activeSlideIndex + stepDelta d ≤
              (Styled.steps c ds).state.window.size - 1 →
            StepExitsSound (Styled.steps c ds) d :=
  ⟨by decide, fun _ => rfl,
    C20_hidden_outer_suffix 5 (fun _ => bareSlide) 1 2 (7 / 10) 200 1000 100 (by decide)
      (fun _ => rfl)⟩

/-- C21, evaluated on the code: with transition duration 1 the delay returned by
`#calculateSlideTimeTransition` is the ratio `0.00648 / (visibleSlideRatio - 0.676)`.
It is exactly 0.02 at visible ratio 1 and exactly 0.27 at 0.7, as tabulated in the
doc comment of the method; at 0.9 it is `81 / 2800`, which lies in
`[0.025, 0.035)` and so is 0.03 to two decimals, not the tabulated 0.07; at 0.8 it
is `81 / 1550`, which lies in `[0.045, 0.055)` and so is 0.05 to two decimals, not
the tabulated 0.14. -/
theorem C21_ratio_table_on_code :
    (∀ d v : ℚ, (calculateSlideTimeTransition d v).1 = d * (0.00648 / (v - 0.676))) ∧
      (calculateSlideTimeTransition 1 1).1 = 0.02 ∧
      (calculateSlideTimeTransition 1 0.7).1 = 0.27 ∧
      (calculateSlideTimeTransition 1 0.9).1 = 81 / 2800 ∧
      (0.025 ≤ (calculateSlideTimeTransition 1 0.9).1 ∧
        (calculateSlideTimeTransition 1 0.9).1 < 0.035) ∧
      ¬ (0.065 ≤ (calculateSlideTimeTransition 1 0.9).1 ∧
        (calculateSlideTimeTransition 1 0.9).1 < 0.075) ∧
      (calculateSlideTimeTransition 1 0.8).1 = 81 / 1550 ∧
      (0.045 ≤ (calculateSlideTimeTransition 1 0.8).1 ∧
        (calculateSlideTimeTransition 1 0.8).1 < 0.055) ∧
      ¬ (0.135 ≤ (calculateSlideTimeTransition 1 0.8).1 ∧
        (calculateSlideTimeTransition 1 0.8).1 < 0.145) := by
  have h9 : (calculateSlideTimeTransition 1 0.9).1 = 81 / 2800 := by
    norm_num [calculateSlideTimeTransition, SLIDE_TRANSITION_SCALAR,
      SLIDE_TRANSITION_BASE_OFFSET]
  have h8 : (calculateSlideTimeTransition 1 0.8).1 = 81 / 1550 := by
    norm_num [calculateSlideTimeTransition, SLIDE_TRANSITION_SCALAR,
      SLIDE_TRANSITION_BASE_OFFSET]
  refine ⟨?_, ?_, ?_, h9, ?_, ?_, h8, ?_, ?_⟩
  · intro d v
    simp only [calculateSlideTimeTransition, SLIDE_TRANSITION_SCALAR,
      SLIDE_TRANSITION_BASE_OFFSET]
  · norm_num [calculateSlideTimeTransition, SLIDE_TRANSITION_SCALAR,
      SLIDE_TRANSITION_BASE_OFFSET]
  · norm_num [calculateSlideTimeTransition, SLIDE_TRANSITION_SCALAR,
      SLIDE_TRANSITION_BASE_OFFSET]
  · rw [h9]
    norm_num
  · rw [h9]
    norm_num
  · rw [h8]
    norm_num
  · rw [h8]
    norm_num

end Carousel
